import Mathlib

/-!
# Compass director: tenant-scoped repositories

A shallow embedding of the repository layer of the director component:

* `application.inMemoryRepository` (domain/application/repository.go),
* `repo.PageableQuerier` (internal/repo/list_pageable.go),
* `repo.Creator` (internal/repo/create.go),
* the Document and FetchRequest repositories built from the primitives,
* the deletion of labels and label definitions, as the specification
  describes it.

Go values are modelled as follows.  A `string` is a `String`, an `int` is an
`Int` (with 64-bit wrap-around where the source does arithmetic), an `error` is an `Option GoError` (`none` is the nil error), a pointer
that may be nil is an `Option`.  A method that mutates its receiver returns the
new receiver next to its results.  Calls made on the transaction handle are
recorded, in order, in the result of the operation that makes them.
-/

/-! ## Errors -/

/-- Go error values that the repository layer creates or passes on.
`errorString` is the value of `errors.New`, `withMessage` the value of
`errors.Wrap` and `errors.Wrapf` on a non-nil cause, `pqError` a `*pq.Error`
carrying its `Code`, `notUniqueError` the value `&notUniqueError{}` of package
repo. -/
inductive GoError where
  | errorString (msg : String)
  | withMessage (cause : GoError) (msg : String)
  | pqError (code : String)
  | notUniqueError
deriving DecidableEq, Repr

namespace errors

/-- The function `errors.New`. -/
def New (msg : String) : Option GoError :=
  some (GoError.errorString msg)

/-- The function `errors.Wrap`: nil stays nil, any other error is annotated. -/
def Wrap (err : Option GoError) (msg : String) : Option GoError :=
  match err with
  | none => none
  | some e => some (GoError.withMessage e msg)

end errors

/-! ## Domain model -/

namespace pagination

/-- The struct `pagination.Page`, with the three fields the repositories set. -/
structure Page where
  StartCursor : String
  EndCursor : String
  HasNextPage : Bool
deriving DecidableEq, Repr

end pagination

namespace model

/-- The struct `model.Application`, with the fields the repository reads
(`ID`, `Tenant`, `Name`) and a payload field. -/
structure Application where
  ID : String
  Tenant : String
  Name : String
  Description : String
deriving DecidableEq, Repr

/-- The struct `model.ApplicationPage`. -/
structure ApplicationPage where
  Data : List Application
  TotalCount : Int
  PageInfo : pagination.Page
deriving DecidableEq, Repr

end model

/-! ## The in-memory application repository -/

namespace application

/-- The struct `inMemoryRepository`: its `store` is a Go map from application
ID to application, here a key-unique association list.  Go ranges over a map in
an unspecified order; the model ranges over the entries in list order. -/
structure inMemoryRepository where
  store : AList (fun _ : String => model.Application)

/-- The constructor `NewRepository`: an empty store. -/
def NewRepository : inMemoryRepository :=
  ⟨∅⟩

namespace inMemoryRepository

/-- The method `GetByID`: the application stored under `id`, when there is one
and it belongs to `tenant`.  The context argument of the methods of this
repository is left out where the source does not read it. -/
def GetByID (r : inMemoryRepository) (tenant id : String) :
    Option model.Application × Option GoError :=
  match r.store.lookup id with
  | none => (none, errors.New "application not found")
  | some application =>
    if application.Tenant ≠ tenant then
      (none, errors.New "application not found")
    else
      (some application, none)

/-- The method `Exists`. -/
def Exists (r : inMemoryRepository) (tenant id : String) : Bool × Option GoError :=
  match r.store.lookup id with
  | none => (false, none)
  | some application =>
    if application.Tenant ≠ tenant then
      (false, none)
    else
      (true, none)

/-- The method `List`: the filter, page size and cursor are ignored by the
source. -/
def List (r : inMemoryRepository) (tenant : String) (_filter : List (String × Option String))
    (_pageSize : Option Int) (_cursor : Option String) :
    Option model.ApplicationPage × Option GoError :=
  let items := (r.store.entries.filter (fun item => item.2.Tenant == tenant)).map (fun item => item.2)
  (some
    { Data := items
      TotalCount := items.length
      PageInfo := { StartCursor := "", EndCursor := "", HasNextPage := false } },
   none)

/-- The method `findApplicationNameWithinTenant`. -/
def findApplicationNameWithinTenant (r : inMemoryRepository) (tenant name : String) : Bool :=
  r.store.entries.any (fun app => app.2.Name == name && app.2.Tenant == tenant)

/-- The method `Create`; the new receiver comes first. -/
def Create (r : inMemoryRepository) (item : Option model.Application) :
    inMemoryRepository × Option GoError :=
  match item with
  | none => (r, errors.New "item can not be empty")
  | some item =>
    if r.findApplicationNameWithinTenant item.Tenant item.Name then
      (r, errors.New "Application name is not unique within tenant")
    else
      (⟨r.store.insert item.ID item⟩, none)

/-- The method `Update`; the new receiver comes first. -/
def Update (r : inMemoryRepository) (item : Option model.Application) :
    inMemoryRepository × Option GoError :=
  match item with
  | none => (r, errors.New "item can not be empty")
  | some item =>
    match r.store.lookup item.ID with
    | none => (r, errors.New "application not found")
    | some oldApplication =>
      if oldApplication.Name ≠ item.Name then
        if r.findApplicationNameWithinTenant item.Tenant item.Name then
          (r, errors.New "Application name is not unique within tenant")
        else
          (⟨r.store.insert item.ID item⟩, none)
      else
        (⟨r.store.insert item.ID item⟩, none)

/-- The method `Delete`; the new receiver comes first. -/
def Delete (r : inMemoryRepository) (item : Option model.Application) :
    inMemoryRepository × Option GoError :=
  match item with
  | none => (r, none)
  | some item => (⟨r.store.erase item.ID⟩, none)

end inMemoryRepository

/-- The stores a repository can hold: the store field is private, so every
store is obtained from `NewRepository` by `Create`, `Update` and `Delete`. -/
inductive Reachable : inMemoryRepository → Prop where
  | new : Reachable NewRepository
  | create (r : inMemoryRepository) (item : Option model.Application) :
      Reachable r → Reachable (r.Create item).1
  | update (r : inMemoryRepository) (item : Option model.Application) :
      Reachable r → Reachable (r.Update item).1
  | delete (r : inMemoryRepository) (item : Option model.Application) :
      Reachable r → Reachable (r.Delete item).1

/-- Every entry of the store is filed under the ID of its application. -/
def KeyedByID (r : inMemoryRepository) : Prop :=
  ∀ k a, r.store.lookup k = some a → a.ID = k

/-- No two applications stored under different IDs have both the same tenant
and the same name. -/
def UniqueNames (r : inMemoryRepository) : Prop :=
  ∀ k₁ k₂ a₁ a₂, r.store.lookup k₁ = some a₁ → r.store.lookup k₂ = some a₂ → k₁ ≠ k₂ →
    ¬ (a₁.Tenant = a₂.Tenant ∧ a₁.Name = a₂.Name)

end application

/-! ## Go library functions used by the repositories -/

namespace strings

/-- The function `strings.Join`. -/
def Join : List String → String → String
  | [], _ => ""
  | [a], _ => a
  | a :: b :: rest, sep => a ++ sep ++ Join (b :: rest) sep

/-- Replacement of the first occurrence of `old` in `s` by `new`, on characters.
An empty `old` matches at the very start, as in Go. -/
def replaceFirst (old new : List Char) : List Char → List Char
  | [] => if old.isEmpty then new else []
  | c :: cs =>
    if old.isPrefixOf (c :: cs) then new ++ (c :: cs).drop old.length
    else c :: replaceFirst old new cs

/-- The call `strings.Replace(s, old, new, 1)`. -/
def Replace1 (s old new : String) : String :=
  String.mk (replaceFirst old.data new.data s.data)

end strings

namespace strconv

/-- The decimal digit `d` as a character. -/
def digitChar (d : Nat) : Char :=
  Char.ofNat (48 + d)

/-- Decimal digits of `n` in front of `acc`; `fuel` bounds the number of
digits. -/
def formatNat : Nat → Nat → List Char → List Char
  | 0, _, acc => acc
  | fuel + 1, n, acc =>
    if n < 10 then digitChar n :: acc
    else formatNat fuel (n / 10) (digitChar (n % 10) :: acc)

/-- Base-10 text of a natural number. -/
def natText (n : Nat) : List Char :=
  formatNat (n + 1) n []

/-- The function `strconv.Itoa`. -/
def Itoa (i : Int) : String :=
  match i with
  | Int.ofNat n => String.mk (natText n)
  | Int.negSucc n => String.mk ('-' :: natText (n + 1))

/-- Value of a run of decimal digits. -/
def digitsValue (cs : List Char) : Nat :=
  cs.foldl (fun acc c => 10 * acc + (c.toNat - 48)) 0

end strconv

namespace GoInt

/-- The value of a Go `int` after an arithmetic result `x`: two's complement
wrap-around at 64 bits. -/
def wrap (x : Int) : Int :=
  (x + 2 ^ 63) % 2 ^ 64 - 2 ^ 63

/-- The Go expression `a + b` on `int` operands. -/
def add (a b : Int) : Int :=
  wrap (a + b)

end GoInt

/-! ## The transaction handle -/

namespace persistence

/-- A database row or entity: column names with their values. -/
abbrev Row := List (String × String)

/-- The interface `PersistenceOp`, as far as the repositories call it, as the
handle answers at one moment of its transaction; how the answers change with
the statements executed on the handle is given by a `TxContext`.
`Select dest stmt args` gives the destination collection as the call leaves it,
`SelectStrings stmt args` is `Select` on an empty destination of strings,
`Get stmt args` the integer it scans into its destination, `NamedExec stmt arg`
the error of the execution. -/
structure PersistenceOp where
  Select : List Row → String → List String → Except GoError (List Row)
  SelectStrings : String → List String → Except GoError (List String)
  Get : String → List String → Except GoError Int
  NamedExec : String → Row → Option GoError

/-- A statement executed on the transaction handle, with its arguments. -/
inductive Call where
  | Select (stmt : String) (args : List String)
  | Get (stmt : String) (args : List String)
  | NamedExec (stmt : String) (arg : Row)
deriving DecidableEq, Repr

/-- The arguments bound to the positional placeholders of an executed
statement. -/
def Call.boundArgs : Call → List String
  | Call.Select _ args => args
  | Call.Get _ args => args
  | Call.NamedExec _ _ => []

/-- The statement text of an executed call. -/
def Call.stmt : Call → String
  | Call.Select stmt _ => stmt
  | Call.Get stmt _ => stmt
  | Call.NamedExec stmt _ => stmt

/-- A `context.Context`, as far as the repositories read it: the transaction
handle saved in it, if any. -/
structure Context where
  persist : Option PersistenceOp

/-- Modelled from the spec: `persistence.FromCtx` (package persistence is not
among the sources) hands out the transaction handle of the context and fails
with the distinguished error when the context carries none. -/
def FromCtx (ctx : Context) : Except GoError PersistenceOp :=
  match ctx.persist with
  | some persist => Except.ok persist
  | none => Except.error (GoError.errorString "no transaction in context")

/-- A `context.Context` over the run of several executions.  The handle saved
in a context points to a transaction whose answers depend on the statements
executed on it before; the transaction is given as the function that takes the
statements executed from now on, in order, to the handle as it answers after
them. -/
structure TxContext where
  tx : Option (List Call → PersistenceOp)

/-- The context as a call finds it now. -/
def TxContext.now (ctx : TxContext) : Context :=
  ⟨ctx.tx.map (fun tx => tx [])⟩

/-- The context once the given statements have been executed. -/
def TxContext.after (ctx : TxContext) (calls : List Call) : TxContext :=
  ⟨ctx.tx.map (fun tx later => tx (calls ++ later))⟩

/-- Modelled from the spec: the constant `persistence.UniqueViolation` (package
persistence is not among the sources), the code by which the storage layer
reports a unique-constraint violation. -/
def UniqueViolation : String :=
  "23505"

end persistence

/-! ## Pagination -/

namespace pagination

/-- The functions of package pagination that `PageableQuerier.List` calls; the
package is not among the sources, so `List` takes them as a parameter. -/
structure Functions where
  DecodeOffsetCursor : String → Except GoError Int
  EncodeNextOffsetCursor : Int → Int → String
  ConvertOffsetLimitAndOrderedColumnToSQL : Int → Int → String → Except GoError String

/-- Modelled from the spec: `decodeOffsetCursor` (package pagination is not
among the sources) maps the empty string to 0, otherwise parses a non-negative
integer, and fails with a decode error on any other content. -/
def DecodeOffsetCursor (cursor : String) : Except GoError Int :=
  if cursor = "" then Except.ok 0
  else if cursor.data.all Char.isDigit then
    Except.ok (Int.ofNat (strconv.digitsValue cursor.data))
  else Except.error (GoError.errorString "cursor is not correct")

/-- Modelled from the spec: `encodeNextOffsetCursor` (package pagination is not
among the sources) serializes `offset + pageSize`. -/
def EncodeNextOffsetCursor (offset pageSize : Int) : String :=
  strconv.Itoa (offset + pageSize)

/-- The package with the cursor codec of the spec and a given pagination
clause builder. -/
def specified (convert : Int → Int → String → Except GoError String) : Functions :=
  { DecodeOffsetCursor := DecodeOffsetCursor
    EncodeNextOffsetCursor := EncodeNextOffsetCursor
    ConvertOffsetLimitAndOrderedColumnToSQL := convert }

end pagination

/-! ## Generic repository primitives -/

namespace repo

open persistence

/-- Modelled from the spec: `buildSelectStatement` (its file of package repo is
not among the sources) selects the given columns from the table, filtered by
the tenant column against the first bound argument, with every additional
condition appended as a raw predicate fragment. -/
def buildSelectStatement (selectedColumns tableName tenantColumn : String)
    (additionalConditions : List String) : String :=
  additionalConditions.foldl (fun stmt cond => stmt ++ " AND " ++ cond)
    ("SELECT " ++ selectedColumns ++ " FROM " ++ tableName ++ " WHERE " ++ tenantColumn ++ "=$1")

/-- The struct `PageableQuerier`. -/
structure PageableQuerier where
  tableName : String
  selectedColumns : String
  tenantColumn : String
deriving DecidableEq, Repr

/-- The constructor `NewPageableQuerier`. -/
def NewPageableQuerier (tableName tenantColumn : String) (selectedColumns : List String) :
    PageableQuerier :=
  { tableName := tableName
    selectedColumns := strings.Join selectedColumns ", "
    tenantColumn := tenantColumn }

/-- What `PageableQuerier.List` returns (`page`, `totalCount`, `err`), the
destination collection as it leaves it, and the calls it made on the
transaction handle. -/
structure ListResult where
  page : Option pagination.Page
  totalCount : Int
  err : Option GoError
  dest : List Row
  calls : List Call
deriving DecidableEq, Repr

namespace PageableQuerier

/-- The statement `List` builds before it adds the pagination clause. -/
def stmtWithoutPagination (g : PageableQuerier) (additionalConditions : List String) : String :=
  buildSelectStatement g.selectedColumns g.tableName g.tenantColumn additionalConditions

/-- The statement `getTotalCount` derives from the unpaginated query. -/
def countStatement (g : PageableQuerier) (query : String) : String :=
  strings.Replace1 query g.selectedColumns "COUNT(*)"

/-- The method `getTotalCount`, with the call it makes. -/
def getTotalCount (g : PageableQuerier) (persist : PersistenceOp) (query tenant : String) :
    (Int × Option GoError) × List Call :=
  let stmt := g.countStatement query
  match persist.Get stmt [tenant] with
  | Except.error err => ((-1, errors.Wrap (some err) "while counting objects"), [Call.Get stmt [tenant]])
  | Except.ok totalCount => ((totalCount, none), [Call.Get stmt [tenant]])

/-- The method `List`.  The destination left by a failed select is not read by
any caller; the model keeps the one passed in. -/
def List (g : PageableQuerier) (pg : pagination.Functions) (ctx : Context) (tenant : String)
    (pageSize : Int) (cursor orderByColumn : String) (dest : List Row)
    (additionalConditions : List String) : ListResult :=
  match FromCtx ctx with
  | Except.error err => ⟨none, -1, some err, dest, []⟩
  | Except.ok persist =>
    match pg.DecodeOffsetCursor cursor with
    | Except.error err => ⟨none, -1, errors.Wrap (some err) "while decoding page cursor", dest, []⟩
    | Except.ok offset =>
      match pg.ConvertOffsetLimitAndOrderedColumnToSQL pageSize offset orderByColumn with
      | Except.error err =>
        ⟨none, -1, errors.Wrap (some err) "while converting offset and limit to cursor", dest, []⟩
      | Except.ok paginationSQL =>
        let stmtWithoutPagination := g.stmtWithoutPagination additionalConditions
        let stmtWithPagination := stmtWithoutPagination ++ " " ++ paginationSQL
        match persist.Select dest stmtWithPagination [tenant] with
        | Except.error err =>
          ⟨none, -1, errors.Wrap (some err) "while fetching list of objects from DB", dest,
            [Call.Select stmtWithPagination [tenant]]⟩
        | Except.ok dest =>
          match g.getTotalCount persist stmtWithoutPagination tenant with
          | ((_, some err), calls) =>
            ⟨none, -1, some err, dest, Call.Select stmtWithPagination [tenant] :: calls⟩
          | ((totalCount, none), calls) =>
            let hasNextPage := decide (totalCount > GoInt.add offset (dest.length : Int))
            let endCursor :=
              if totalCount > GoInt.add offset (dest.length : Int) then
                pg.EncodeNextOffsetCursor offset pageSize
              else ""
            ⟨some { StartCursor := cursor, EndCursor := endCursor, HasNextPage := hasNextPage },
              totalCount, none, dest, Call.Select stmtWithPagination [tenant] :: calls⟩

end PageableQuerier

/-- The struct `Creator`. -/
structure Creator where
  tableName : String
  columns : List String
deriving DecidableEq, Repr

/-- The constructor `NewCreator`. -/
def NewCreator (tableName : String) (columns : List String) : Creator :=
  { tableName := tableName, columns := columns }

namespace Creator

/-- The named placeholders `Create` collects in its loop over the columns. -/
def values (c : Creator) : List String :=
  c.columns.foldl (fun values col => values ++ [":" ++ col]) []

/-- The statement `Create` formats. -/
def stmt (c : Creator) : String :=
  "INSERT INTO " ++ c.tableName ++ " ( " ++ strings.Join c.columns ", " ++ " ) VALUES ( " ++
    strings.Join c.values ", " ++ " )"

/-- The method `Create`, with the calls it makes on the transaction handle. -/
def Create (c : Creator) (ctx : Context) (dbEntity : Option Row) : Option GoError × List Call :=
  match dbEntity with
  | none => (errors.New "item cannot be nil", [])
  | some entity =>
    match FromCtx ctx with
    | Except.error err => (some err, [])
    | Except.ok persist =>
      let err := persist.NamedExec c.stmt entity
      match err with
      | some (GoError.pqError code) =>
        if code = UniqueViolation then
          (some GoError.notUniqueError, [Call.NamedExec c.stmt entity])
        else
          (errors.Wrap err ("while inserting row to '" ++ c.tableName ++ "' table"),
            [Call.NamedExec c.stmt entity])
      | _ =>
        (errors.Wrap err ("while inserting row to '" ++ c.tableName ++ "' table"),
          [Call.NamedExec c.stmt entity])

end Creator

end repo

namespace repo

open persistence

/-- An element of `repo.Conditions`: an equality condition on a column. -/
structure Condition where
  Field : String
  Val : String
deriving DecidableEq, Repr

/-- The type `repo.Conditions`. -/
abbrev Conditions := List Condition

/-- The primitive `ExistQuerier`; its file is not among the sources, so its
method is a parameter of the repositories that embed it. -/
structure ExistQuerier where
  Exists : Context → String → Conditions → Bool × Option GoError

/-- The primitive `SingleGetter`; its file is not among the sources.  `Get`
takes the destination entity and gives it back as the call leaves it. -/
structure SingleGetter where
  Get : Context → String → Conditions → Row → Row × Option GoError

/-- The primitive `Deleter`; its file is not among the sources. -/
structure Deleter where
  DeleteOne : Context → String → Conditions → Option GoError
  DeleteMany : Context → String → Conditions → Option GoError

/-- The constructors of the primitives whose files are not among the sources. -/
structure Constructors where
  NewExistQuerier : String → String → ExistQuerier
  NewSingleGetter : String → String → List String → SingleGetter
  NewDeleter : String → String → Deleter

/-- A call of a tenant-taking primitive: which method, with which tenant and
which conditions. -/
inductive PrimitiveCall where
  | Exists (tenant : String) (conds : Conditions)
  | Get (tenant : String) (conds : Conditions)
  | DeleteOne (tenant : String) (conds : Conditions)
  | DeleteMany (tenant : String) (conds : Conditions)
deriving DecidableEq, Repr

/-- The tenant a primitive was called with. -/
def PrimitiveCall.tenant : PrimitiveCall → String
  | PrimitiveCall.Exists tenant _ => tenant
  | PrimitiveCall.Get tenant _ => tenant
  | PrimitiveCall.DeleteOne tenant _ => tenant
  | PrimitiveCall.DeleteMany tenant _ => tenant

end repo

namespace pq

/-- Every occurrence of the character `c` doubled. -/
def doubleChar (c : Char) (s : List Char) : List Char :=
  s.flatMap (fun x => if x = c then [c, c] else [x])

/-- The function `pq.QuoteLiteral` of the driver library: single quotes are
doubled; a value with a backslash has its backslashes doubled and is written as
an escape string constant. -/
def QuoteLiteral (literal : String) : String :=
  let quote := Char.ofNat 39
  let backslash := Char.ofNat 92
  let literal := doubleChar quote literal.data
  if backslash ∈ literal then
    String.mk ([' ', 'E', quote] ++ doubleChar backslash literal ++ [quote])
  else
    String.mk ([quote] ++ literal ++ [quote])

end pq

namespace model

/-- The struct `model.Document`, with its identifying fields and a payload. -/
structure Document where
  ID : String
  Tenant : String
  ApplicationID : String
  Title : String
deriving DecidableEq, Repr

/-- The struct `model.DocumentPage`. -/
structure DocumentPage where
  Data : List Document
  TotalCount : Int
  PageInfo : Option pagination.Page
deriving DecidableEq, Repr

/-- The struct `model.FetchRequest`, with its identifying fields and a
payload. -/
structure FetchRequest where
  ID : String
  Tenant : String
  URL : String
deriving DecidableEq, Repr

/-- The string type `model.FetchRequestReferenceObjectType`. -/
abbrev FetchRequestReferenceObjectType := String

/-- Modelled from the spec: the reference kind Document (package model is not
among the sources). -/
def DocumentFetchRequestReference : FetchRequestReferenceObjectType := "Document"

/-- Modelled from the spec: the reference kind API (package model is not among
the sources). -/
def APIFetchRequestReference : FetchRequestReferenceObjectType := "API"

/-- Modelled from the spec: the reference kind EventAPI (package model is not
among the sources). -/
def EventAPIFetchRequestReference : FetchRequestReferenceObjectType := "EventAPI"

end model

/-! ## The Document repository -/

namespace document

open persistence

/-- The constant `documentTable`. -/
def documentTable : String := "public.documents"

/-- The variable `documentColumns`. -/
def documentColumns : List String :=
  ["id", "tenant_id", "app_id", "title", "display_name", "description", "format", "kind", "data"]

/-- The interface `Converter`; an entity is a row. -/
structure Converter where
  ToEntity : model.Document → Except GoError Row
  FromEntity : Row → Except GoError model.Document

/-- The struct `repository`, with its embedded primitives. -/
structure repository where
  ExistQuerier : repo.ExistQuerier
  SingleGetter : repo.SingleGetter
  Deleter : repo.Deleter
  PageableQuerier : repo.PageableQuerier
  Creator : repo.Creator
  conv : Converter

/-- The constructor `NewRepository`. -/
def NewRepository (prims : repo.Constructors) (conv : Converter) : repository :=
  { ExistQuerier := prims.NewExistQuerier documentTable "tenant_id"
    SingleGetter := prims.NewSingleGetter documentTable "tenant_id" documentColumns
    Deleter := prims.NewDeleter documentTable "tenant_id"
    PageableQuerier := repo.NewPageableQuerier documentTable "tenant_id" documentColumns
    Creator := repo.NewCreator documentTable documentColumns
    conv := conv }

namespace repository

/-- The method `Exists`, with the primitive calls it makes. -/
def Exists (r : repository) (ctx : Context) (tenant id : String) :
    (Bool × Option GoError) × List repo.PrimitiveCall :=
  (r.ExistQuerier.Exists ctx tenant [⟨"id", id⟩], [repo.PrimitiveCall.Exists tenant [⟨"id", id⟩]])

/-- The method `GetByID`, with the primitive calls it makes. -/
def GetByID (r : repository) (ctx : Context) (tenant id : String) :
    (Option model.Document × Option GoError) × List repo.PrimitiveCall :=
  match r.SingleGetter.Get ctx tenant [⟨"id", id⟩] [] with
  | (_, some err) => ((none, some err), [repo.PrimitiveCall.Get tenant [⟨"id", id⟩]])
  | (entity, none) =>
    match r.conv.FromEntity entity with
    | Except.error err =>
      ((none, errors.Wrap (some err) "while converting Document entity to model"),
        [repo.PrimitiveCall.Get tenant [⟨"id", id⟩]])
    | Except.ok docModel => ((some docModel, none), [repo.PrimitiveCall.Get tenant [⟨"id", id⟩]])

/-- The method `Delete`, with the primitive calls it makes. -/
def Delete (r : repository) (ctx : Context) (tenant id : String) :
    Option GoError × List repo.PrimitiveCall :=
  (r.Deleter.DeleteOne ctx tenant [⟨"id", id⟩], [repo.PrimitiveCall.DeleteOne tenant [⟨"id", id⟩]])

/-- The method `DeleteAllByApplicationID`, with the primitive calls it makes. -/
def DeleteAllByApplicationID (r : repository) (ctx : Context) (tenant applicationID : String) :
    Option GoError × List repo.PrimitiveCall :=
  (r.Deleter.DeleteMany ctx tenant [⟨"app_id", applicationID⟩],
    [repo.PrimitiveCall.DeleteMany tenant [⟨"app_id", applicationID⟩]])

/-- The conversion loop of `ListByApplicationID`: entities are converted in
order and appended to `items`; the first conversion error ends the loop. -/
def convertAll (conv : Converter) : List Row → List model.Document →
    Except GoError (List model.Document)
  | [], items => Except.ok items
  | entity :: rest, items =>
    match conv.FromEntity entity with
    | Except.error err => Except.error err
    | Except.ok docModel => convertAll conv rest (items ++ [docModel])

/-- The extra condition `ListByApplicationID` hands to `List`. -/
def appCondition (applicationID : String) : String :=
  "app_id" ++ " = " ++ pq.QuoteLiteral applicationID

/-- The method `ListByApplicationID`, with the calls made on the transaction
handle. -/
def ListByApplicationID (r : repository) (pg : pagination.Functions) (ctx : Context)
    (tenant applicationID : String) (pageSize : Int) (cursor : String) :
    (Option model.DocumentPage × Option GoError) × List Call :=
  let res := r.PageableQuerier.List pg ctx tenant pageSize cursor "id" [] [appCondition applicationID]
  match res.err with
  | some err => ((none, some err), res.calls)
  | none =>
    match convertAll r.conv res.dest [] with
    | Except.error err =>
      ((none, errors.Wrap (some err) "while converting Document entity to model"), res.calls)
    | Except.ok items =>
      ((some { Data := items, TotalCount := res.totalCount, PageInfo := res.page }, none), res.calls)

end repository

end document

/-! ## The FetchRequest repository -/

namespace fetchrequest

open persistence

/-- The constant `fetchRequestTable`. -/
def fetchRequestTable : String := "public.fetch_requests"

/-- The constant `documentIDColumn`. -/
def documentIDColumn : String := "document_id"

/-- The constant `apiDefIDColumn`. -/
def apiDefIDColumn : String := "api_def_id"

/-- The constant `eventAPIDefIDColumn`. -/
def eventAPIDefIDColumn : String := "event_api_def_id"

/-- The variable `fetchRequestColumns`. -/
def fetchRequestColumns : List String :=
  ["id", "tenant_id", apiDefIDColumn, eventAPIDefIDColumn, documentIDColumn, "url", "auth", "mode",
    "filter", "status_condition", "status_timestamp"]

/-- The interface `Converter`; an entity is a row. -/
structure Converter where
  ToEntity : model.FetchRequest → Except GoError Row
  FromEntity : Row → Except GoError model.FetchRequest

/-- The struct `repository`, with its embedded primitives. -/
structure repository where
  Creator : repo.Creator
  SingleGetter : repo.SingleGetter
  Deleter : repo.Deleter
  conv : Converter

/-- The constructor `NewRepository`. -/
def NewRepository (prims : repo.Constructors) (conv : Converter) : repository :=
  { Creator := repo.NewCreator fetchRequestTable fetchRequestColumns
    SingleGetter := prims.NewSingleGetter fetchRequestTable "tenant_id" fetchRequestColumns
    Deleter := prims.NewDeleter fetchRequestTable "tenant_id"
    conv := conv }

namespace repository

/-- The method `referenceObjectFieldName`: a switch over the three reference
kinds. -/
def referenceObjectFieldName (_r : repository) (objectType : model.FetchRequestReferenceObjectType) :
    String × Option GoError :=
  if objectType = model.DocumentFetchRequestReference then (documentIDColumn, none)
  else if objectType = model.APIFetchRequestReference then (apiDefIDColumn, none)
  else if objectType = model.EventAPIFetchRequestReference then (eventAPIDefIDColumn, none)
  else ("", errors.New "Invalid type of the Fetch Request reference object")

/-- The method `GetByReferenceObjectID`, with the primitive calls it makes. -/
def GetByReferenceObjectID (r : repository) (ctx : Context) (tenant : String)
    (objectType : model.FetchRequestReferenceObjectType) (objectID : String) :
    (Option model.FetchRequest × Option GoError) × List repo.PrimitiveCall :=
  match r.referenceObjectFieldName objectType with
  | (_, some err) => ((none, some err), [])
  | (fieldName, none) =>
    match r.SingleGetter.Get ctx tenant [⟨fieldName, objectID⟩] [] with
    | (_, some err) => ((none, some err), [repo.PrimitiveCall.Get tenant [⟨fieldName, objectID⟩]])
    | (entity, none) =>
      match r.conv.FromEntity entity with
      | Except.error err =>
        ((none, errors.Wrap (some err) "while creating FetchRequest model from entity"),
          [repo.PrimitiveCall.Get tenant [⟨fieldName, objectID⟩]])
      | Except.ok frModel =>
        ((some frModel, none), [repo.PrimitiveCall.Get tenant [⟨fieldName, objectID⟩]])

/-- The method `Delete`, with the primitive calls it makes. -/
def Delete (r : repository) (ctx : Context) (tenant id : String) :
    Option GoError × List repo.PrimitiveCall :=
  (r.Deleter.DeleteOne ctx tenant [⟨"id", id⟩], [repo.PrimitiveCall.DeleteOne tenant [⟨"id", id⟩]])

/-- The method `DeleteByReferenceObjectID`, with the primitive calls it makes. -/
def DeleteByReferenceObjectID (r : repository) (ctx : Context) (tenant : String)
    (objectType : model.FetchRequestReferenceObjectType) (objectID : String) :
    Option GoError × List repo.PrimitiveCall :=
  match r.referenceObjectFieldName objectType with
  | (_, some err) => (some err, [])
  | (fieldName, none) =>
    (r.Deleter.DeleteMany ctx tenant [⟨fieldName, objectID⟩],
      [repo.PrimitiveCall.DeleteMany tenant [⟨fieldName, objectID⟩]])

end repository

end fetchrequest

/-! ## The application repository on the transaction handle -/

namespace labelfilter

/-- The struct `labelfilter.LabelFilter`. -/
structure LabelFilter where
  Key : String
  Query : Option String
deriving DecidableEq, Repr

end labelfilter

namespace model

/-- The type `model.LabelableObject` of the objects that carry labels. -/
inductive LabelableObject where
  | ApplicationLabelableObject
  | RuntimeLabelableObject
deriving DecidableEq, Repr

/-- Modelled from the spec: the constant `model.ScenariosKey` (package model is
not among the sources), the reserved label key. -/
def ScenariosKey : String := "scenarios"

end model

namespace label

/-- The type `label.SetCombination` of the ways filters are combined. -/
inductive SetCombination where
  | IntersectSet
  | UnionSet
deriving DecidableEq, Repr

end label

namespace application

open persistence

/-- The page `ListByScenarios` returns when its select fails. -/
def emptyPage : model.ApplicationPage :=
  { Data := []
    TotalCount := 0
    PageInfo := { StartCursor := "", EndCursor := "", HasNextPage := false } }

/-- The query `ListByScenarios` formats for one scenario value. -/
def scenarioQuery (scenarioValue : String) : String :=
  "$[*] ? (@ == " ++ String.singleton (Char.ofNat 34) ++ scenarioValue ++
    String.singleton (Char.ofNat 34) ++ ")"

/-- The method `inMemoryRepository.ListByScenarios`, with the calls it makes on
the transaction handle.  The function `label.FilterQuery` is not among the
sources and is a parameter; the page size and the cursor are ignored by the
source. -/
def ListByScenarios (r : inMemoryRepository)
    (FilterQuery : model.LabelableObject → label.SetCombination → String →
      List labelfilter.LabelFilter → Except GoError String)
    (ctx : Context) (tenantUUID : String) (scenarios : List String) (_pageSize : Option Int)
    (_cursor : Option String) : (Option model.ApplicationPage × Option GoError) × List Call :=
  match FromCtx ctx with
  | Except.error err => ((none, errors.Wrap (some err) "while fetching DB from context"), [])
  | Except.ok persist =>
    let scenariosFilers : List labelfilter.LabelFilter :=
      scenarios.foldl
        (fun filters scenarioValue =>
          filters ++ [{ Key := model.ScenariosKey, Query := some (scenarioQuery scenarioValue) }])
        []
    match FilterQuery model.LabelableObject.ApplicationLabelableObject
        label.SetCombination.UnionSet tenantUUID scenariosFilers with
    | Except.error err => ((none, errors.Wrap (some err) "while creating filter query"), [])
    | Except.ok stmt =>
      match persist.SelectStrings stmt [] with
      | Except.error _ => ((some emptyPage, none), [Call.Select stmt []])
      | Except.ok apps =>
        let items : List model.Application :=
          apps.foldl
            (fun items id =>
              match r.store.lookup id with
              | some app => items ++ [app]
              | none => items)
            []
        ((some
            { Data := items
              TotalCount := items.length
              PageInfo := { StartCursor := "", EndCursor := "", HasNextPage := false } },
          none),
          [Call.Select stmt []])

end application

/-! ## Creating documents -/

namespace document

open persistence

namespace repository

/-- The method `Create`, with the calls it makes on the transaction handle. -/
def Create (r : repository) (ctx : Context) (item : Option model.Document) :
    Option GoError × List Call :=
  match item with
  | none => (errors.New "Document cannot be empty", [])
  | some item =>
    match r.conv.ToEntity item with
    | Except.error err =>
      (errors.Wrap (some err) "while creating Document entity from model", [])
    | Except.ok entity => r.Creator.Create ctx (some entity)

/-- What `CreateMany` returns (`err`), the documents it passed to `Create`, in
order, and the calls made on the transaction handle. -/
structure CreateManyResult where
  err : Option GoError
  passed : List model.Document
  calls : List Call
deriving DecidableEq, Repr

/-- The method `CreateMany`: the loop over the items, left at the first nil
item or failed `Create`.  Every `Create` runs on the context as the statements
executed for the items before have left it. -/
def CreateMany (r : repository) (ctx : TxContext) :
    List (Option model.Document) → CreateManyResult
  | [] => ⟨none, [], []⟩
  | item :: rest =>
    match item with
    | none => ⟨errors.New "Document cannot be empty", [], []⟩
    | some doc =>
      match r.Create ctx.now (some doc) with
      | (some err, calls) =>
        ⟨errors.Wrap (some err) ("while creating Document with ID " ++ doc.ID), [doc], calls⟩
      | (none, calls) =>
        let res := CreateMany r (ctx.after calls) rest
        ⟨res.err, doc :: res.passed, calls ++ res.calls⟩

/-- The context on which the item that follows the given documents is
reached: the one left by creating them in order. -/
def contextAfter (r : repository) (ctx : TxContext) : List model.Document → TxContext
  | [] => ctx
  | doc :: rest => contextAfter r (ctx.after (r.Create ctx.now (some doc)).2) rest

/-- The statements executed by creating the given documents in order, each on
the context left by those before. -/
def createCalls (r : repository) (ctx : TxContext) : List model.Document → List Call
  | [] => []
  | doc :: rest =>
    (r.Create ctx.now (some doc)).2 ++
      createCalls r (ctx.after (r.Create ctx.now (some doc)).2) rest

end repository

end document

/-! ## Reading a quoted literal -/

namespace pq

/-- Where the reading of a string constant stands: in its body, after a single
quote that either closes it or starts a doubled quote, or after a backslash. -/
inductive ReadState where
  | body
  | afterQuote
  | afterBackslash
deriving DecidableEq, Repr

/-- The value of a string constant whose opening quote has been read, by the
lexical rules of the database: two single quotes stand for one, a single quote
closes the constant, and in an escape string constant (`escapes`) a backslash
stands in front of a backslash or a quote taken literally.  The value is given
only when the constant closes exactly at the end of the text. -/
def readBody (escapes : Bool) : ReadState → List Char → Option (List Char)
  | ReadState.body, [] => none
  | ReadState.afterQuote, [] => some []
  | ReadState.afterBackslash, [] => none
  | ReadState.body, c :: cs =>
    if c = Char.ofNat 39 then readBody escapes ReadState.afterQuote cs
    else if escapes = true ∧ c = Char.ofNat 92 then readBody escapes ReadState.afterBackslash cs
    else (readBody escapes ReadState.body cs).map (fun v => c :: v)
  | ReadState.afterQuote, c :: cs =>
    if c = Char.ofNat 39 then (readBody escapes ReadState.body cs).map (fun v => c :: v)
    else none
  | ReadState.afterBackslash, c :: cs =>
    if c = Char.ofNat 92 ∨ c = Char.ofNat 39 then
      (readBody escapes ReadState.body cs).map (fun v => c :: v)
    else none

/-- The value a text stands for when the whole text is one string constant: a
plain one in single quotes, or an escape one opened by a blank, `E` and a
quote. -/
def readLiteral (text : String) : Option String :=
  match text.data with
  | ' ' :: 'E' :: q :: cs =>
    if q = Char.ofNat 39 then (readBody true ReadState.body cs).map String.mk else none
  | q :: cs =>
    if q = Char.ofNat 39 then (readBody false ReadState.body cs).map String.mk else none
  | [] => none

end pq

/-! ## Labels and label definitions -/

namespace label

/-- Modelled from the spec: a label (the label packages are not among the
sources), stored under tenant, owner entity and key, with a value of any
kind. -/
structure Label (V : Type) where
  Tenant : String
  ObjectType : model.LabelableObject
  ObjectID : String
  Key : String
  Value : V
deriving DecidableEq, Repr

/-- Modelled from the spec: a label definition (the label definition packages
are not among the sources), stored under tenant and key, with an optional
schema. -/
structure LabelDefinition (S : Type) where
  Tenant : String
  Key : String
  Schema : Option S
deriving DecidableEq, Repr

/-- Modelled from the spec: the stored labels and label definitions. -/
structure State (V S : Type) where
  labels : List (Label V)
  definitions : List (LabelDefinition S)
deriving DecidableEq, Repr

/-- Whether a label is the one of the entity under the key in the tenant. -/
def Label.isAt {V : Type} (l : Label V) (tenant entityID key : String) : Bool :=
  l.Tenant == tenant && l.ObjectID == entityID && l.Key == key

/-- Whether a label uses the key in the tenant. -/
def Label.uses {V : Type} (l : Label V) (tenant key : String) : Bool :=
  l.Tenant == tenant && l.Key == key

/-- Whether a label definition is the one of the key in the tenant. -/
def LabelDefinition.isAt {S : Type} (d : LabelDefinition S) (tenant key : String) : Bool :=
  d.Tenant == tenant && d.Key == key

/-- Modelled from the spec: reading a label definition; it fails as not
existing when the tenant has none under the key. -/
def getLabelDefinition {V S : Type} (st : State V S) (tenant key : String) :
    Except GoError (LabelDefinition S) :=
  match st.definitions.find? (fun d => d.isAt tenant key) with
  | some d => Except.ok d
  | none =>
    Except.error (GoError.errorString ("label definition with key '" ++ key ++ "' does not exist"))

/-- Modelled from the spec: `deleteLabel(tenant, entityID, key)`.  The reserved
key `scenarios` can never be deleted from an entity this way: the operation is
rejected and nothing changes.  Under any other key the label of the entity is
removed and handed back; there being none is the not-found failure. -/
def deleteLabel {V S : Type} (st : State V S) (tenant entityID key : String) :
    State V S × Option (Label V) × Option GoError :=
  if key = model.ScenariosKey then
    (st, none, errors.New "scenarios label can not be deleted from application")
  else
    match st.labels.find? (fun l => l.isAt tenant entityID key) with
    | none => (st, none, errors.New "label not found")
    | some l =>
      ({ st with labels := st.labels.filter (fun l => !l.isAt tenant entityID key) }, some l, none)

/-- Modelled from the spec: `deleteLabelDefinition(tenant, key, cascade)`.  The
reserved key `scenarios` always has a definition with a non-null schema, so its
definition is never deleted: the operation is rejected and nothing changes.
Under any other key, if labels still reference the key and `cascade` is false
it fails with the definition-in-use error and nothing changes; otherwise all
dependent labels are deleted, then the definition.  Deleting a definition that
does not exist is the not-existing failure. -/
def deleteLabelDefinition {V S : Type} (st : State V S) (tenant key : String) (cascade : Bool) :
    State V S × Option GoError :=
  if key = model.ScenariosKey then
    (st, errors.New "label definition with key scenarios can not be deleted")
  else
    match getLabelDefinition st tenant key with
    | Except.error err => (st, some err)
    | Except.ok _ =>
      if st.labels.any (fun l => l.uses tenant key) && !cascade then
        (st,
          errors.New "could not delete label definition, it is already used by at least one label")
      else
        ({ labels := st.labels.filter (fun l => !l.uses tenant key)
           definitions := st.definitions.filter (fun d => !d.isAt tenant key) },
          none)

end label

/-! ## Setting labels and updating label definitions -/

namespace label

/-- The schema-validation library, which is not part of the repository, and
the two views of schemas and values the engine needs for the reserved key:
`validate schema value` is `none` when the value satisfies the schema and the
validation error otherwise, `itemsEnum schema` is the enum of the items of the
schema, `entries value` the entries of a value that is a list of strings. -/
structure Validation (V S : Type) where
  validate : S → V → Option String
  itemsEnum : S → Option (List String)
  entries : V → Option (List String)

/-- Modelled from the spec: the literal default value of the reserved key. -/
def DefaultScenario : String := "DEFAULT"

/-- A text in double quotes. -/
def quoted (s : String) : String :=
  String.singleton (Char.ofNat 34) ++ s ++ String.singleton (Char.ofNat 34)

/-- The name of a kind of labelable object in error messages. -/
def objectTypeName : model.LabelableObject → String
  | model.LabelableObject.ApplicationLabelableObject => "Application"
  | model.LabelableObject.RuntimeLabelableObject => "Runtime"

/-- Modelled from the spec: the check of every existing label value under the
key against a schema; it gives the first label under the key in the tenant
whose value does not satisfy the schema, with the validation error. -/
def firstIncompatible {V S : Type} (vl : Validation V S) (schema : S) (tenant key : String) :
    List (Label V) → Option (Label V × String)
  | [] => none
  | l :: rest =>
    if l.uses tenant key then
      match vl.validate schema l.Value with
      | some msg => some (l, msg)
      | none => firstIncompatible vl schema tenant key rest
    else firstIncompatible vl schema tenant key rest

/-- Modelled from the spec: whether the enum of a schema contains the literal
default value; a schema without an items enum does not. -/
def enumHasDefault {V S : Type} (vl : Validation V S) (schema : S) : Bool :=
  match vl.itemsEnum schema with
  | some enum => enum.contains DefaultScenario
  | none => false

/-- Modelled from the spec: the compatibility error of `updateLabelDefinition`,
with the text `TestEditLabelDefinition` expects: it names the key and the
offending entity and ends with the validation error. -/
def incompatibleError {V : Type} (key : String) (l : Label V) (msg : String) : GoError :=
  GoError.errorString
    ("label with key " ++ quoted key ++ " is not valid against new schema for " ++
      objectTypeName l.ObjectType ++ " with ID " ++ quoted l.ObjectID ++ ": " ++ msg)

/-- Modelled from the spec: the error of `updateLabelDefinition` for a schema of
the reserved key whose enum omits the default value, with the leading part of
the text `TestDeleteDefaultValueInScenariosLabelDefinition` expects (the text
goes on with the enum items that do not match). -/
def enumError (key : String) : GoError :=
  GoError.errorString
    ("while validating Label Definition: while validating schema for key " ++ key ++
      ": items.enum: At least one of the items must match")

/-- Modelled from the spec: `updateLabelDefinition(tenant, key, newSchema)`.
For the reserved key `scenarios` any schema whose enum omits the literal
default value is rejected.  Every existing label value under the key is checked
against the new schema; on the first incompatible value it fails with a
compatibility error naming the offending entity and the key, and nothing is
written.  Otherwise the new schema is stored.  Updating a definition that does
not exist is the not-existing failure. -/
def updateLabelDefinition {V S : Type} (vl : Validation V S) (st : State V S)
    (tenant key : String) (newSchema : S) : State V S × Option GoError :=
  if key = model.ScenariosKey ∧ enumHasDefault vl newSchema = false then
    (st, some (enumError key))
  else
    match getLabelDefinition st tenant key with
    | Except.error err => (st, some err)
    | Except.ok _ =>
      match firstIncompatible vl newSchema tenant key st.labels with
      | some (l, msg) => (st, some (incompatibleError key l msg))
      | none =>
        ({ st with
            definitions :=
              st.definitions.map
                (fun d => if d.isAt tenant key then { d with Schema := some newSchema } else d) },
          none)

/-- Modelled from the spec: whether a value may be the scenarios label under a
schema: it is a list with at least one entry, and every entry appears in the
enum of the schema. -/
def scenariosAllowed {V S : Type} (vl : Validation V S) (schema : Option S) (value : V) : Bool :=
  match vl.entries value, schema.bind vl.itemsEnum with
  | some es, some enum => !es.isEmpty && es.all (fun e => enum.contains e)
  | _, _ => false

/-- Modelled from the spec: `setLabel(tenant, entityID, key, value)` on an
entity of the given kind.  If the key has no definition, one with a null schema
is created; if its definition has a schema, the value is validated against it
and a validation error is reported verbatim, the write being rejected; the
reserved key `scenarios` additionally requires a list of at least one entry,
all of them in the enum.  The label replaces the one the entity had under the
key. -/
def setLabel {V S : Type} (vl : Validation V S) (st : State V S) (tenant : String)
    (objectType : model.LabelableObject) (entityID key : String) (value : V) :
    State V S × Option GoError :=
  let schema : Option S :=
    (st.definitions.find? (fun d => d.isAt tenant key)).bind (fun d => d.Schema)
  match schema.bind (fun s => vl.validate s value) with
  | some msg => (st, some (GoError.errorString msg))
  | none =>
    if key = model.ScenariosKey ∧ scenariosAllowed vl schema value = false then
      (st,
        errors.New "scenarios label must hold at least one scenario, each one of the enum")
    else
      ({ labels :=
            st.labels.filter (fun l => !l.isAt tenant entityID key) ++
              [⟨tenant, objectType, entityID, key, value⟩]
         definitions :=
            match st.definitions.find? (fun d => d.isAt tenant key) with
            | some _ => st.definitions
            | none => st.definitions ++ [⟨tenant, key, none⟩] },
        none)

end label

/-! ## Statements as the specification words them -/

namespace repo

/-- The count statement as the specification words it: the unpaginated data
statement with its select list replaced by `COUNT(*)`. -/
def countStatementSpec (g : PageableQuerier) (additionalConditions : List String) : String :=
  buildSelectStatement "COUNT(*)" g.tableName g.tenantColumn additionalConditions

/-- The insert statement as the specification words it: every declared column
once, in declared order, and at the same position the placeholder made of a
colon and the column name. -/
def insertStatementSpec (tableName : String) (columns : List String) : String :=
  "INSERT INTO " ++ tableName ++ " ( " ++ strings.Join columns ", " ++ " ) VALUES ( " ++
    strings.Join (columns.map (fun col => ":" ++ col)) ", " ++ " )"

end repo

/-! ## Sample tables and transaction handles -/

namespace sample

open persistence

/-- A pagination clause builder of the shape the spec describes: an ORDER BY
with LIMIT and OFFSET, refused for a page size below 1. -/
def convert (pageSize offset : Int) (orderedColumn : String) : Except GoError String :=
  if pageSize < 1 then Except.error (GoError.errorString "page size cannot be smaller than 1")
  else
    Except.ok ("ORDER BY " ++ orderedColumn ++ " LIMIT " ++ strconv.Itoa pageSize ++ " OFFSET " ++
      strconv.Itoa offset)

/-- A transaction handle over an unchanging table of filtered, ordered rows,
answering a select for the page at `offset` of size `pageSize` and a count;
every execution succeeds. -/
def tableHandle (table : List Row) (offset pageSize : Nat) : PersistenceOp :=
  { Select := fun _ _ _ => Except.ok ((table.drop offset).take pageSize)
    SelectStrings := fun _ _ => Except.ok []
    Get := fun _ _ => Except.ok (table.length : Int)
    NamedExec := fun _ _ => none }

/-- A transaction handle whose every execution fails with the given error. -/
def failingHandle (err : GoError) : PersistenceOp :=
  { Select := fun _ _ _ => Except.error err
    SelectStrings := fun _ _ => Except.error err
    Get := fun _ _ => Except.error err
    NamedExec := fun _ _ => some err }

/-- The context of a transaction whose handle answers the same whatever has
been executed. -/
def steady (persist : PersistenceOp) : TxContext :=
  ⟨some (fun _ => persist)⟩

/-- The context of a transaction on an empty table keyed by the column `id`:
the insert of a row whose `id` has been inserted before is refused as a unique
violation, every other execution succeeds. -/
def keyedTable : TxContext :=
  ⟨some (fun executed =>
    { Select := fun _ _ _ => Except.ok []
      SelectStrings := fun _ _ => Except.ok []
      Get := fun _ _ => Except.ok 0
      NamedExec := fun _ row =>
        if executed.any (fun c =>
            match c with
            | Call.NamedExec _ arg => arg.lookup "id" == row.lookup "id"
            | _ => false)
        then some (GoError.pqError UniqueViolation)
        else none })⟩

/-- A table of three rows. -/
def threeRows : List Row :=
  [[("id", "1")], [("id", "2")], [("id", "3")]]

/-- The pageable querier of a two-column table. -/
def querier : repo.PageableQuerier :=
  repo.NewPageableQuerier "public.documents" "tenant_id" ["id", "tenant_id"]

/-- Constructors of primitives that find nothing and delete without error. -/
def constructors : repo.Constructors :=
  { NewExistQuerier := fun _ _ => ⟨fun _ _ _ => (false, none)⟩
    NewSingleGetter := fun _ _ _ => ⟨fun _ _ _ dest => (dest, none)⟩
    NewDeleter := fun _ _ => ⟨fun _ _ _ => none, fun _ _ _ => none⟩ }

/-- A converter between documents and rows of four columns. -/
def documentConverter : document.Converter :=
  { ToEntity := fun d =>
      Except.ok [("id", d.ID), ("tenant_id", d.Tenant), ("app_id", d.ApplicationID),
        ("title", d.Title)]
    FromEntity := fun row =>
      Except.ok
        { ID := (row.lookup "id").getD ""
          Tenant := (row.lookup "tenant_id").getD ""
          ApplicationID := (row.lookup "app_id").getD ""
          Title := (row.lookup "title").getD "" } }

/-- A document repository over the sample primitives and converter. -/
def documents : document.repository :=
  document.NewRepository constructors documentConverter

/-- Labels and a label definition under the key `foo`: one label on an
application, one on a runtime, and a label under another key. -/
def labelState : label.State String String :=
  { labels :=
      [⟨"t1", model.LabelableObject.ApplicationLabelableObject, "app1", "foo", "app"⟩,
        ⟨"t1", model.LabelableObject.RuntimeLabelableObject, "rtm1", "foo", "rtm"⟩,
        ⟨"t1", model.LabelableObject.ApplicationLabelableObject, "app1", "scenarios", "DEFAULT"⟩]
    definitions := [⟨"t1", "foo", some "schema"⟩, ⟨"t1", "scenarios", some "enum"⟩] }

/-- A validation for labels that are lists of strings: a schema is the enum of
its items, and a value satisfies it when it has an entry and all its entries
are in the enum. -/
def listValidation : label.Validation (List String) (List String) :=
  { validate := fun enum value =>
      if value.isEmpty then some "(root): Array must have at least 1 items"
      else if value.all (fun e => enum.contains e) then none
      else some "items: must be one of the enum"
    itemsEnum := fun enum => some enum
    entries := fun value => some value }

/-- A tenant with a scenarios definition of enum `DEFAULT`, `A` and two
applications labelled with scenarios. -/
def scenariosState : label.State (List String) (List String) :=
  { labels :=
      [⟨"t1", model.LabelableObject.ApplicationLabelableObject, "app1", "scenarios", ["DEFAULT"]⟩,
        ⟨"t1", model.LabelableObject.ApplicationLabelableObject, "app2", "scenarios", ["A"]⟩]
    definitions := [⟨"t1", "scenarios", some ["DEFAULT", "A"]⟩] }

/-- A tenant with a definition under the key `foo` and the scenarios
definition, an application labelled under `foo` and one labelled with the
scenario `A` only. -/
def fooState : label.State (List String) (List String) :=
  { labels :=
      [⟨"t1", model.LabelableObject.ApplicationLabelableObject, "app1", "foo", ["bar"]⟩,
        ⟨"t1", model.LabelableObject.ApplicationLabelableObject, "app2", "scenarios", ["A"]⟩]
    definitions := [⟨"t1", "foo", some ["bar", "baz"]⟩, ⟨"t1", "scenarios", some ["DEFAULT", "A"]⟩] }

end sample

/-! ## Theorems: the in-memory application repository -/

namespace application

/-- What `Update` leaves in the store: the old store, or the old store with
the item filed under its ID. -/
theorem update_store (r : inMemoryRepository) (item : model.Application) :
    (r.Update (some item)).1 = r ∨ (r.Update (some item)).1 = ⟨r.store.insert item.ID item⟩ := by
  unfold inMemoryRepository.Update
  cases hl : r.store.lookup item.ID with
  | none => left; simp [hl]
  | some old =>
    by_cases hn : old.Name = item.Name
    · right; simp [hl, hn]
    · by_cases hf : r.findApplicationNameWithinTenant item.Tenant item.Name = true
      · left; simp [hl, hn, hf]
      · right; simp [hl, hn, hf]

/-- What `Create` leaves in the store. -/
theorem create_store (r : inMemoryRepository) (item : model.Application) :
    (r.Create (some item)).1 = r ∨ (r.Create (some item)).1 = ⟨r.store.insert item.ID item⟩ := by
  unfold inMemoryRepository.Create
  by_cases hf : r.findApplicationNameWithinTenant item.Tenant item.Name = true
  · left; simp [hf]
  · right; simp [hf]

/-- Filing an item under its own ID keeps the store keyed by ID. -/
theorem keyedByID_insert (r : inMemoryRepository) (item : model.Application)
    (h : KeyedByID r) : KeyedByID ⟨r.store.insert item.ID item⟩ := by
  intro k a hk
  by_cases hki : k = item.ID
  · subst hki
    simp only [AList.lookup_insert] at hk
    cases hk
    rfl
  · rw [AList.lookup_insert_ne hki] at hk
    exact h k a hk

/-- Every reachable store is keyed by ID. -/
theorem reachable_keyedByID {r : inMemoryRepository} (h : Reachable r) : KeyedByID r := by
  induction h with
  | new =>
    intro k a hk
    simp [NewRepository] at hk
  | create r item _ ih =>
    cases item with
    | none => exact ih
    | some item =>
      rcases create_store r item with h | h
      · rw [h]; exact ih
      · rw [h]; exact keyedByID_insert r item ih
  | update r item _ ih =>
    cases item with
    | none => exact ih
    | some item =>
      rcases update_store r item with h | h
      · rw [h]; exact ih
      · rw [h]; exact keyedByID_insert r item ih
  | delete r item _ ih =>
    cases item with
    | none => exact ih
    | some item =>
      intro k a hk
      by_cases hki : k = item.ID
      · subst hki
        simp [inMemoryRepository.Delete] at hk
      · simp only [inMemoryRepository.Delete] at hk
        rw [AList.lookup_erase_ne hki] at hk
        exact ih k a hk

/-- C1: in every store the repository can hold, an application E stored for
tenant T1 is invisible to a different tenant T2: `GetByID(T2, E.ID)` fails
with 'application not found', `Exists(T2, E.ID)` is false, and the page that
`List(T2, ...)` returns does not contain E. -/
theorem tenant_isolation_read (r : inMemoryRepository) (hr : Reachable r) (T1 T2 : String)
    (hne : T1 ≠ T2) (k : String) (E : model.Application) (hE : r.store.lookup k = some E)
    (hT : E.Tenant = T1) (filter : List (String × Option String)) (pageSize : Option Int)
    (cursor : Option String) :
    r.GetByID T2 E.ID = (none, errors.New "application not found") ∧
    r.Exists T2 E.ID = (false, none) ∧
    ∃ page, r.List T2 filter pageSize cursor = (some page, none) ∧ E ∉ page.Data := by
  have hk : E.ID = k := reachable_keyedByID hr k E hE
  have hT2 : E.Tenant ≠ T2 := by rw [hT]; exact hne
  refine ⟨?_, ?_, ?_⟩
  · rw [← hk] at hE
    simp [inMemoryRepository.GetByID, hE, hT2]
  · rw [← hk] at hE
    simp [inMemoryRepository.Exists, hE, hT2]
  · refine ⟨_, rfl, ?_⟩
    simp only [List.mem_map, List.mem_filter, not_exists, not_and, and_imp]
    intro x _ hx hxe
    rw [hxe] at hx
    exact hT2 (by simpa using hx)

/-- C1 at a store holding one application of tenant t1, read by tenant t2. -/
theorem tenant_isolation_read_witness :
    (NewRepository.Create (some ⟨"a1", "t1", "app", "d"⟩)).1.GetByID "t2"
        (model.Application.mk "a1" "t1" "app" "d").ID =
      (none, errors.New "application not found") ∧
    (NewRepository.Create (some ⟨"a1", "t1", "app", "d"⟩)).1.Exists "t2"
        (model.Application.mk "a1" "t1" "app" "d").ID = (false, none) ∧
    ∃ page, (NewRepository.Create (some ⟨"a1", "t1", "app", "d"⟩)).1.List "t2" [] none none =
        (some page, none) ∧ model.Application.mk "a1" "t1" "app" "d" ∉ page.Data :=
  tenant_isolation_read (NewRepository.Create (some ⟨"a1", "t1", "app", "d"⟩)).1
    (Reachable.create _ _ Reachable.new) "t1" "t2" (by decide) "a1" ⟨"a1", "t1", "app", "d"⟩
    (by decide) rfl [] none none

end application

/-! ## Theorems: `PageableQuerier.List` -/

namespace repo

open persistence

/-- The one call `getTotalCount` makes. -/
theorem getTotalCount_calls (g : PageableQuerier) (persist : PersistenceOp) (query tenant : String) :
    (g.getTotalCount persist query tenant).2 = [Call.Get (g.countStatement query) [tenant]] := by
  unfold PageableQuerier.getTotalCount
  cases hg : persist.Get (g.countStatement query) [tenant] <;> simp [hg]

/-- When `getTotalCount` returns no error, it returns what the count query
gave. -/
theorem getTotalCount_ok (g : PageableQuerier) (persist : PersistenceOp) (query tenant : String)
    (n : Int) (h : (g.getTotalCount persist query tenant).1 = (n, none)) :
    persist.Get (g.countStatement query) [tenant] = Except.ok n := by
  unfold PageableQuerier.getTotalCount at h
  cases hg : persist.Get (g.countStatement query) [tenant] with
  | error e => simp [hg, errors.Wrap] at h
  | ok m =>
    simp [hg] at h
    rw [h]

/-- A `List` call that returns no error went through every step: the
transaction handle was present, the cursor decoded to `offset`, the pagination
clause was built, and the select and the count both succeeded; the result is
assembled from what those steps gave. -/
theorem List_success (g : PageableQuerier) (pg : pagination.Functions) (ctx : Context)
    (tenant : String) (pageSize : Int) (cursor orderByColumn : String) (dest : List Row)
    (additionalConditions : List String)
    (h : (g.List pg ctx tenant pageSize cursor orderByColumn dest additionalConditions).err = none) :
    ∃ persist offset paginationSQL rows totalCount,
      FromCtx ctx = Except.ok persist ∧
      pg.DecodeOffsetCursor cursor = Except.ok offset ∧
      pg.ConvertOffsetLimitAndOrderedColumnToSQL pageSize offset orderByColumn =
        Except.ok paginationSQL ∧
      persist.Select dest (g.stmtWithoutPagination additionalConditions ++ " " ++ paginationSQL)
        [tenant] = Except.ok rows ∧
      persist.Get (g.countStatement (g.stmtWithoutPagination additionalConditions)) [tenant] =
        Except.ok totalCount ∧
      g.List pg ctx tenant pageSize cursor orderByColumn dest additionalConditions =
        ⟨some
          { StartCursor := cursor
            EndCursor :=
              if totalCount > GoInt.add offset (rows.length : Int) then
                pg.EncodeNextOffsetCursor offset pageSize
              else ""
            HasNextPage := decide (totalCount > GoInt.add offset (rows.length : Int)) },
          totalCount, none, rows,
          [Call.Select (g.stmtWithoutPagination additionalConditions ++ " " ++ paginationSQL)
              [tenant],
            Call.Get (g.countStatement (g.stmtWithoutPagination additionalConditions))
              [tenant]]⟩ := by
  unfold PageableQuerier.List at h ⊢
  cases h1 : FromCtx ctx with
  | error e => simp [h1] at h
  | ok persist =>
    cases h2 : pg.DecodeOffsetCursor cursor with
    | error e => simp [h1, h2, errors.Wrap] at h
    | ok offset =>
      cases h3 : pg.ConvertOffsetLimitAndOrderedColumnToSQL pageSize offset orderByColumn with
      | error e => simp [h1, h2, h3, errors.Wrap] at h
      | ok paginationSQL =>
        cases h4 : persist.Select dest
            (g.stmtWithoutPagination additionalConditions ++ " " ++ paginationSQL) [tenant] with
        | error e => simp [h1, h2, h3, h4, errors.Wrap] at h
        | ok rows =>
          have hc := getTotalCount_calls g persist
            (g.stmtWithoutPagination additionalConditions) tenant
          rcases h5 : g.getTotalCount persist
              (g.stmtWithoutPagination additionalConditions) tenant with ⟨⟨n, e⟩, calls⟩
          rw [h5] at hc
          simp only at hc
          cases e with
          | some e => simp [h1, h2, h3, h4, h5] at h
          | none =>
            have hg := getTotalCount_ok g persist _ tenant n (by rw [h5])
            refine ⟨persist, offset, paginationSQL, rows, n, ?_, ?_, ?_, h4, hg, ?_⟩
            · rfl
            · rfl
            · exact h3
            · simp [h1, h2, h3, h4, h5, hc]

/-- The calls of any `List` call: none, the select alone, or the select
followed by the count, each bound to the tenant alone. -/
theorem List_calls (g : PageableQuerier) (pg : pagination.Functions) (ctx : Context)
    (tenant : String) (pageSize : Int) (cursor orderByColumn : String) (dest : List Row)
    (additionalConditions : List String) :
    (g.List pg ctx tenant pageSize cursor orderByColumn dest additionalConditions).calls = [] ∨
    (∃ s, (g.List pg ctx tenant pageSize cursor orderByColumn dest additionalConditions).calls =
      [Call.Select s [tenant]]) ∨
    (∃ s t, (g.List pg ctx tenant pageSize cursor orderByColumn dest additionalConditions).calls =
      [Call.Select s [tenant], Call.Get t [tenant]]) := by
  unfold PageableQuerier.List
  cases h1 : FromCtx ctx with
  | error e => left; rfl
  | ok persist =>
    cases h2 : pg.DecodeOffsetCursor cursor with
    | error e => left; rfl
    | ok offset =>
      cases h3 : pg.ConvertOffsetLimitAndOrderedColumnToSQL pageSize offset orderByColumn with
      | error e => left; simp only [h3]
      | ok paginationSQL =>
        cases h4 : persist.Select dest
            (g.stmtWithoutPagination additionalConditions ++ " " ++ paginationSQL) [tenant] with
        | error e => right; left; exact ⟨_, by simp only [h1, h2, h3, h4]; rfl⟩
        | ok rows =>
          have hc := getTotalCount_calls g persist
            (g.stmtWithoutPagination additionalConditions) tenant
          rcases h5 : g.getTotalCount persist
              (g.stmtWithoutPagination additionalConditions) tenant with ⟨⟨n, e⟩, calls⟩
          rw [h5] at hc
          simp only at hc
          right; right
          cases e with
          | some e => exact ⟨_, _, by simp only [h1, h2, h3, h4, h5, hc]; rfl⟩
          | none => exact ⟨_, _, by simp only [h1, h2, h3, h4, h5, hc]; rfl⟩

end repo

/-! ## Theorems: the tenant reaches every primitive -/

namespace repo

open persistence

/-- What `List` returns once the transaction handle is there, the cursor is
decoded and the pagination clause is built: it is made of the answers of the
handle to the paginated select and to the count, both bound to the tenant.  A
failed select ends the call, then a failed count does, and otherwise the rows
and the count are those answers. -/
theorem List_of_answers (g : PageableQuerier) (pg : pagination.Functions) (ctx : Context)
    (persist : PersistenceOp) (tenant : String) (pageSize : Int)
    (cursor orderByColumn : String) (dest : List Row) (additionalConditions : List String)
    (offset : Int) (sql : String)
    (hp : FromCtx ctx = Except.ok persist)
    (hd : pg.DecodeOffsetCursor cursor = Except.ok offset)
    (hc : pg.ConvertOffsetLimitAndOrderedColumnToSQL pageSize offset orderByColumn =
      Except.ok sql) :
    (∀ e, persist.Select dest (g.stmtWithoutPagination additionalConditions ++ " " ++ sql)
        [tenant] = Except.error e →
      g.List pg ctx tenant pageSize cursor orderByColumn dest additionalConditions =
        ⟨none, -1, some (GoError.withMessage e "while fetching list of objects from DB"), dest,
          [Call.Select (g.stmtWithoutPagination additionalConditions ++ " " ++ sql)
            [tenant]]⟩) ∧
    (∀ rows e, persist.Select dest (g.stmtWithoutPagination additionalConditions ++ " " ++ sql)
        [tenant] = Except.ok rows →
      persist.Get (g.countStatement (g.stmtWithoutPagination additionalConditions)) [tenant] =
        Except.error e →
      g.List pg ctx tenant pageSize cursor orderByColumn dest additionalConditions =
        ⟨none, -1, some (GoError.withMessage e "while counting objects"), rows,
          [Call.Select (g.stmtWithoutPagination additionalConditions ++ " " ++ sql) [tenant],
            Call.Get (g.countStatement (g.stmtWithoutPagination additionalConditions))
              [tenant]]⟩) ∧
    (∀ rows totalCount,
      persist.Select dest (g.stmtWithoutPagination additionalConditions ++ " " ++ sql)
        [tenant] = Except.ok rows →
      persist.Get (g.countStatement (g.stmtWithoutPagination additionalConditions)) [tenant] =
        Except.ok totalCount →
      g.List pg ctx tenant pageSize cursor orderByColumn dest additionalConditions =
        ⟨some
          { StartCursor := cursor
            EndCursor :=
              if totalCount > GoInt.add offset (rows.length : Int) then
                pg.EncodeNextOffsetCursor offset pageSize
              else ""
            HasNextPage := decide (totalCount > GoInt.add offset (rows.length : Int)) },
          totalCount, none, rows,
          [Call.Select (g.stmtWithoutPagination additionalConditions ++ " " ++ sql) [tenant],
            Call.Get (g.countStatement (g.stmtWithoutPagination additionalConditions))
              [tenant]]⟩) := by
  refine ⟨?_, ?_, ?_⟩
  · intro e hsel
    unfold PageableQuerier.List
    simp only [hp, hd, hc, hsel, errors.Wrap]
  · intro rows e hsel hget
    unfold PageableQuerier.List
    simp only [hp, hd, hc, hsel, PageableQuerier.getTotalCount, hget, errors.Wrap]
  · intro rows totalCount hsel hget
    unfold PageableQuerier.List
    simp only [hp, hd, hc, hsel, PageableQuerier.getTotalCount, hget]

end repo

namespace document

open persistence

/-- What `GetByID` returns is made of the answer of `SingleGetter.Get` called
with the context, the tenant and the condition on `id`. -/
theorem GetByID_of_Get (r : repository) (ctx : Context) (tenant id : String) :
    (∀ entity err, r.SingleGetter.Get ctx tenant [⟨"id", id⟩] [] = (entity, some err) →
      r.GetByID ctx tenant id =
        ((none, some err), [repo.PrimitiveCall.Get tenant [⟨"id", id⟩]])) ∧
    (∀ entity err, r.SingleGetter.Get ctx tenant [⟨"id", id⟩] [] = (entity, none) →
      r.conv.FromEntity entity = Except.error err →
      r.GetByID ctx tenant id =
        ((none, some (GoError.withMessage err "while converting Document entity to model")),
          [repo.PrimitiveCall.Get tenant [⟨"id", id⟩]])) ∧
    (∀ entity docModel, r.SingleGetter.Get ctx tenant [⟨"id", id⟩] [] = (entity, none) →
      r.conv.FromEntity entity = Except.ok docModel →
      r.GetByID ctx tenant id =
        ((some docModel, none), [repo.PrimitiveCall.Get tenant [⟨"id", id⟩]])) := by
  refine ⟨?_, ?_, ?_⟩
  · intro entity err h
    simp only [repository.GetByID, h]
  · intro entity err h hconv
    simp only [repository.GetByID, h, hconv, errors.Wrap]
  · intro entity docModel h hconv
    simp only [repository.GetByID, h, hconv]

/-- What `ListByApplicationID` returns is made of what `List` returns when
called with the context, the tenant, the page size, the cursor and the
condition on the application. -/
theorem ListByApplicationID_of_List (r : repository) (pg : pagination.Functions)
    (ctx : Context) (tenant applicationID : String) (pageSize : Int) (cursor : String) :
    (∀ err,
      (r.PageableQuerier.List pg ctx tenant pageSize cursor "id" []
        [repository.appCondition applicationID]).err = some err →
      r.ListByApplicationID pg ctx tenant applicationID pageSize cursor =
        ((none, some err),
          (r.PageableQuerier.List pg ctx tenant pageSize cursor "id" []
            [repository.appCondition applicationID]).calls)) ∧
    (∀ err,
      (r.PageableQuerier.List pg ctx tenant pageSize cursor "id" []
        [repository.appCondition applicationID]).err = none →
      repository.convertAll r.conv
        (r.PageableQuerier.List pg ctx tenant pageSize cursor "id" []
          [repository.appCondition applicationID]).dest [] = Except.error err →
      r.ListByApplicationID pg ctx tenant applicationID pageSize cursor =
        ((none, some (GoError.withMessage err "while converting Document entity to model")),
          (r.PageableQuerier.List pg ctx tenant pageSize cursor "id" []
            [repository.appCondition applicationID]).calls)) ∧
    (∀ items,
      (r.PageableQuerier.List pg ctx tenant pageSize cursor "id" []
        [repository.appCondition applicationID]).err = none →
      repository.convertAll r.conv
        (r.PageableQuerier.List pg ctx tenant pageSize cursor "id" []
          [repository.appCondition applicationID]).dest [] = Except.ok items →
      r.ListByApplicationID pg ctx tenant applicationID pageSize cursor =
        ((some
            { Data := items
              TotalCount :=
                (r.PageableQuerier.List pg ctx tenant pageSize cursor "id" []
                  [repository.appCondition applicationID]).totalCount
              PageInfo :=
                (r.PageableQuerier.List pg ctx tenant pageSize cursor "id" []
                  [repository.appCondition applicationID]).page },
            none),
          (r.PageableQuerier.List pg ctx tenant pageSize cursor "id" []
            [repository.appCondition applicationID]).calls)) := by
  refine ⟨?_, ?_, ?_⟩
  · intro err h
    simp only [repository.ListByApplicationID, h]
  · intro err h hconv
    simp only [repository.ListByApplicationID, h, hconv, errors.Wrap]
  · intro items h hconv
    simp only [repository.ListByApplicationID, h, hconv]

end document

namespace fetchrequest

open persistence

/-- What `GetByReferenceObjectID` returns: the mapping error and no call when
the reference kind is not mapped to a column, and otherwise what is made of
the answer of `SingleGetter.Get` called with the context, the tenant and the
one condition that the mapped column equals the object ID. -/
theorem GetByReferenceObjectID_of_Get (r : repository) (ctx : Context) (tenant : String)
    (objectType : model.FetchRequestReferenceObjectType) (objectID : String) :
    (∀ fieldName err, r.referenceObjectFieldName objectType = (fieldName, some err) →
      r.GetByReferenceObjectID ctx tenant objectType objectID = ((none, some err), [])) ∧
    (∀ fieldName entity err, r.referenceObjectFieldName objectType = (fieldName, none) →
      r.SingleGetter.Get ctx tenant [⟨fieldName, objectID⟩] [] = (entity, some err) →
      r.GetByReferenceObjectID ctx tenant objectType objectID =
        ((none, some err), [repo.PrimitiveCall.Get tenant [⟨fieldName, objectID⟩]])) ∧
    (∀ fieldName entity err, r.referenceObjectFieldName objectType = (fieldName, none) →
      r.SingleGetter.Get ctx tenant [⟨fieldName, objectID⟩] [] = (entity, none) →
      r.conv.FromEntity entity = Except.error err →
      r.GetByReferenceObjectID ctx tenant objectType objectID =
        ((none,
            some (GoError.withMessage err "while creating FetchRequest model from entity")),
          [repo.PrimitiveCall.Get tenant [⟨fieldName, objectID⟩]])) ∧
    (∀ fieldName entity frModel, r.referenceObjectFieldName objectType = (fieldName, none) →
      r.SingleGetter.Get ctx tenant [⟨fieldName, objectID⟩] [] = (entity, none) →
      r.conv.FromEntity entity = Except.ok frModel →
      r.GetByReferenceObjectID ctx tenant objectType objectID =
        ((some frModel, none), [repo.PrimitiveCall.Get tenant [⟨fieldName, objectID⟩]])) := by
  refine ⟨?_, ?_, ?_, ?_⟩
  · intro fieldName err h0
    simp only [repository.GetByReferenceObjectID, h0]
  · intro fieldName entity err h0 h
    simp only [repository.GetByReferenceObjectID, h0, h]
  · intro fieldName entity err h0 h hconv
    simp only [repository.GetByReferenceObjectID, h0, h, hconv, errors.Wrap]
  · intro fieldName entity frModel h0 h hconv
    simp only [repository.GetByReferenceObjectID, h0, h, hconv]

/-- What `DeleteByReferenceObjectID` returns: the mapping error and no call
when the reference kind is not mapped to a column, and otherwise the answer of
`Deleter.DeleteMany` called with the context, the tenant and the one condition
that the mapped column equals the object ID. -/
theorem DeleteByReferenceObjectID_of_DeleteMany (r : repository) (ctx : Context)
    (tenant : String) (objectType : model.FetchRequestReferenceObjectType)
    (objectID : String) :
    (∀ fieldName err, r.referenceObjectFieldName objectType = (fieldName, some err) →
      r.DeleteByReferenceObjectID ctx tenant objectType objectID = (some err, [])) ∧
    (∀ fieldName, r.referenceObjectFieldName objectType = (fieldName, none) →
      r.DeleteByReferenceObjectID ctx tenant objectType objectID =
        (r.Deleter.DeleteMany ctx tenant [⟨fieldName, objectID⟩],
          [repo.PrimitiveCall.DeleteMany tenant [⟨fieldName, objectID⟩]])) := by
  refine ⟨?_, ?_⟩
  · intro fieldName err h0
    simp only [repository.DeleteByReferenceObjectID, h0]
  · intro fieldName h0
    simp only [repository.DeleteByReferenceObjectID, h0]

end fetchrequest

/-- The calls `ListByApplicationID` makes are those of its `List` call. -/
theorem document.ListByApplicationID_calls (r : document.repository) (pg : pagination.Functions)
    (ctx : persistence.Context) (tenant applicationID : String) (pageSize : Int)
    (cursor : String) :
    (r.ListByApplicationID pg ctx tenant applicationID pageSize cursor).2 =
      (r.PageableQuerier.List pg ctx tenant pageSize cursor "id" []
        [document.repository.appCondition applicationID]).calls := by
  unfold document.repository.ListByApplicationID
  cases h1 : (r.PageableQuerier.List pg ctx tenant pageSize cursor "id" []
      [document.repository.appCondition applicationID]).err with
  | some e => simp only [h1]
  | none =>
    cases h2 : document.repository.convertAll r.conv
        (r.PageableQuerier.List pg ctx tenant pageSize cursor "id" []
          [document.repository.appCondition applicationID]).dest [] with
    | error e => simp only [h1, h2]
    | ok items => simp only [h1, h2]

/-- C2: every tenant-taking read or delete path hands the caller's tenant on
unchanged.  `PageableQuerier.List` executes its paginated select and its count
bound to the tenant alone: every statement it executes is bound to it, a
successful call executed exactly these two, and what `List` returns is made of
the answers of the handle to these two executions.  The Document operations
`Exists`, `GetByID`, `Delete`, `DeleteAllByApplicationID`,
`ListByApplicationID` and the FetchRequest operations `GetByReferenceObjectID`,
`Delete`, `DeleteByReferenceObjectID` call their primitive with the context and
the tenant they received: what each returns is made of the answer of the
primitive to the call with that tenant, the call is the only one made, and when
the reference kind is unknown no primitive is called at all. -/
theorem tenant_passed_unchanged (g : repo.PageableQuerier) (pg : pagination.Functions)
    (ctx : persistence.Context) (tenant : String) (pageSize : Int)
    (cursor orderByColumn : String) (dest : List persistence.Row)
    (additionalConditions : List String) (dr : document.repository)
    (fr : fetchrequest.repository) (id applicationID objectID : String)
    (objectType : model.FetchRequestReferenceObjectType) :
    (∀ c ∈ (g.List pg ctx tenant pageSize cursor orderByColumn dest additionalConditions).calls,
      c.boundArgs = [tenant]) ∧
    ((g.List pg ctx tenant pageSize cursor orderByColumn dest additionalConditions).err = none →
      ∃ s t, (g.List pg ctx tenant pageSize cursor orderByColumn dest additionalConditions).calls =
        [persistence.Call.Select s [tenant], persistence.Call.Get t [tenant]]) ∧
    (∀ (persist : persistence.PersistenceOp) (offset : Int) (sql : String),
      persistence.FromCtx ctx = Except.ok persist →
      pg.DecodeOffsetCursor cursor = Except.ok offset →
      pg.ConvertOffsetLimitAndOrderedColumnToSQL pageSize offset orderByColumn = Except.ok sql →
      (∀ e, persist.Select dest (g.stmtWithoutPagination additionalConditions ++ " " ++ sql)
          [tenant] = Except.error e →
        g.List pg ctx tenant pageSize cursor orderByColumn dest additionalConditions =
          ⟨none, -1, some (GoError.withMessage e "while fetching list of objects from DB"), dest,
            [persistence.Call.Select (g.stmtWithoutPagination additionalConditions ++ " " ++ sql)
              [tenant]]⟩) ∧
      (∀ rows e, persist.Select dest (g.stmtWithoutPagination additionalConditions ++ " " ++ sql)
          [tenant] = Except.ok rows →
        persist.Get (g.countStatement (g.stmtWithoutPagination additionalConditions)) [tenant] =
          Except.error e →
        g.List pg ctx tenant pageSize cursor orderByColumn dest additionalConditions =
          ⟨none, -1, some (GoError.withMessage e "while counting objects"), rows,
            [persistence.Call.Select (g.stmtWithoutPagination additionalConditions ++ " " ++ sql) [tenant],
              persistence.Call.Get (g.countStatement (g.stmtWithoutPagination additionalConditions))
                [tenant]]⟩) ∧
      (∀ rows totalCount,
        persist.Select dest (g.stmtWithoutPagination additionalConditions ++ " " ++ sql)
          [tenant] = Except.ok rows →
        persist.Get (g.countStatement (g.stmtWithoutPagination additionalConditions)) [tenant] =
          Except.ok totalCount →
        g.List pg ctx tenant pageSize cursor orderByColumn dest additionalConditions =
          ⟨some
            { StartCursor := cursor
              EndCursor :=
                if totalCount > GoInt.add offset (rows.length : Int) then
                  pg.EncodeNextOffsetCursor offset pageSize
                else ""
              HasNextPage := decide (totalCount > GoInt.add offset (rows.length : Int)) },
            totalCount, none, rows,
            [persistence.Call.Select (g.stmtWithoutPagination additionalConditions ++ " " ++ sql) [tenant],
              persistence.Call.Get (g.countStatement (g.stmtWithoutPagination additionalConditions))
                [tenant]]⟩)) ∧
    dr.Exists ctx tenant id =
      (dr.ExistQuerier.Exists ctx tenant [⟨"id", id⟩],
        [repo.PrimitiveCall.Exists tenant [⟨"id", id⟩]]) ∧
    ((∀ entity err, dr.SingleGetter.Get ctx tenant [⟨"id", id⟩] [] = (entity, some err) →
      dr.GetByID ctx tenant id =
        ((none, some err), [repo.PrimitiveCall.Get tenant [⟨"id", id⟩]])) ∧
    (∀ entity err, dr.SingleGetter.Get ctx tenant [⟨"id", id⟩] [] = (entity, none) →
      dr.conv.FromEntity entity = Except.error err →
      dr.GetByID ctx tenant id =
        ((none, some (GoError.withMessage err "while converting Document entity to model")),
          [repo.PrimitiveCall.Get tenant [⟨"id", id⟩]])) ∧
    (∀ entity docModel, dr.SingleGetter.Get ctx tenant [⟨"id", id⟩] [] = (entity, none) →
      dr.conv.FromEntity entity = Except.ok docModel →
      dr.GetByID ctx tenant id =
        ((some docModel, none), [repo.PrimitiveCall.Get tenant [⟨"id", id⟩]]))) ∧
    dr.Delete ctx tenant id =
      (dr.Deleter.DeleteOne ctx tenant [⟨"id", id⟩],
        [repo.PrimitiveCall.DeleteOne tenant [⟨"id", id⟩]]) ∧
    dr.DeleteAllByApplicationID ctx tenant applicationID =
      (dr.Deleter.DeleteMany ctx tenant [⟨"app_id", applicationID⟩],
        [repo.PrimitiveCall.DeleteMany tenant [⟨"app_id", applicationID⟩]]) ∧
    (∀ c ∈ (dr.ListByApplicationID pg ctx tenant applicationID pageSize cursor).2,
      c.boundArgs = [tenant]) ∧
    ((∀ err,
      (dr.PageableQuerier.List pg ctx tenant pageSize cursor "id" []
        [document.repository.appCondition applicationID]).err = some err →
      dr.ListByApplicationID pg ctx tenant applicationID pageSize cursor =
        ((none, some err),
          (dr.PageableQuerier.List pg ctx tenant pageSize cursor "id" []
            [document.repository.appCondition applicationID]).calls)) ∧
    (∀ err,
      (dr.PageableQuerier.List pg ctx tenant pageSize cursor "id" []
        [document.repository.appCondition applicationID]).err = none →
      document.repository.convertAll dr.conv
        (dr.PageableQuerier.List pg ctx tenant pageSize cursor "id" []
          [document.repository.appCondition applicationID]).dest [] = Except.error err →
      dr.ListByApplicationID pg ctx tenant applicationID pageSize cursor =
        ((none, some (GoError.withMessage err "while converting Document entity to model")),
          (dr.PageableQuerier.List pg ctx tenant pageSize cursor "id" []
            [document.repository.appCondition applicationID]).calls)) ∧
    (∀ items,
      (dr.PageableQuerier.List pg ctx tenant pageSize cursor "id" []
        [document.repository.appCondition applicationID]).err = none →
      document.repository.convertAll dr.conv
        (dr.PageableQuerier.List pg ctx tenant pageSize cursor "id" []
          [document.repository.appCondition applicationID]).dest [] = Except.ok items →
      dr.ListByApplicationID pg ctx tenant applicationID pageSize cursor =
        ((some
            { Data := items
              TotalCount :=
                (dr.PageableQuerier.List pg ctx tenant pageSize cursor "id" []
                  [document.repository.appCondition applicationID]).totalCount
              PageInfo :=
                (dr.PageableQuerier.List pg ctx tenant pageSize cursor "id" []
                  [document.repository.appCondition applicationID]).page },
            none),
          (dr.PageableQuerier.List pg ctx tenant pageSize cursor "id" []
            [document.repository.appCondition applicationID]).calls))) ∧
    ((∀ fieldName err, fr.referenceObjectFieldName objectType = (fieldName, some err) →
      fr.GetByReferenceObjectID ctx tenant objectType objectID = ((none, some err), [])) ∧
    (∀ fieldName entity err, fr.referenceObjectFieldName objectType = (fieldName, none) →
      fr.SingleGetter.Get ctx tenant [⟨fieldName, objectID⟩] [] = (entity, some err) →
      fr.GetByReferenceObjectID ctx tenant objectType objectID =
        ((none, some err), [repo.PrimitiveCall.Get tenant [⟨fieldName, objectID⟩]])) ∧
    (∀ fieldName entity err, fr.referenceObjectFieldName objectType = (fieldName, none) →
      fr.SingleGetter.Get ctx tenant [⟨fieldName, objectID⟩] [] = (entity, none) →
      fr.conv.FromEntity entity = Except.error err →
      fr.GetByReferenceObjectID ctx tenant objectType objectID =
        ((none,
            some (GoError.withMessage err "while creating FetchRequest model from entity")),
          [repo.PrimitiveCall.Get tenant [⟨fieldName, objectID⟩]])) ∧
    (∀ fieldName entity frModel, fr.referenceObjectFieldName objectType = (fieldName, none) →
      fr.SingleGetter.Get ctx tenant [⟨fieldName, objectID⟩] [] = (entity, none) →
      fr.conv.FromEntity entity = Except.ok frModel →
      fr.GetByReferenceObjectID ctx tenant objectType objectID =
        ((some frModel, none), [repo.PrimitiveCall.Get tenant [⟨fieldName, objectID⟩]]))) ∧
    fr.Delete ctx tenant id =
      (fr.Deleter.DeleteOne ctx tenant [⟨"id", id⟩],
        [repo.PrimitiveCall.DeleteOne tenant [⟨"id", id⟩]]) ∧
    ((∀ fieldName err, fr.referenceObjectFieldName objectType = (fieldName, some err) →
      fr.DeleteByReferenceObjectID ctx tenant objectType objectID = (some err, [])) ∧
    (∀ fieldName, fr.referenceObjectFieldName objectType = (fieldName, none) →
      fr.DeleteByReferenceObjectID ctx tenant objectType objectID =
        (fr.Deleter.DeleteMany ctx tenant [⟨fieldName, objectID⟩],
          [repo.PrimitiveCall.DeleteMany tenant [⟨fieldName, objectID⟩]]))) := by
  have hList : ∀ (g : repo.PageableQuerier) (orderByColumn : String) (dest : List persistence.Row)
      (conds : List String),
      ∀ c ∈ (g.List pg ctx tenant pageSize cursor orderByColumn dest conds).calls,
        c.boundArgs = [tenant] := by
    intro g orderByColumn dest conds c hc
    rcases repo.List_calls g pg ctx tenant pageSize cursor orderByColumn dest conds with
      h | ⟨s, h⟩ | ⟨s, t, h⟩
    · rw [h] at hc; simp at hc
    · rw [h] at hc
      simp only [List.mem_singleton] at hc
      rw [hc]; rfl
    · rw [h] at hc
      simp only [List.mem_cons, List.mem_singleton, List.not_mem_nil, or_false] at hc
      rcases hc with hc | hc <;> rw [hc] <;> rfl
  refine ⟨hList g orderByColumn dest additionalConditions, ?_, ?_, rfl,
    document.GetByID_of_Get dr ctx tenant id, rfl, rfl, ?_,
    document.ListByApplicationID_of_List dr pg ctx tenant applicationID pageSize cursor,
    fetchrequest.GetByReferenceObjectID_of_Get fr ctx tenant objectType objectID, rfl,
    fetchrequest.DeleteByReferenceObjectID_of_DeleteMany fr ctx tenant objectType objectID⟩
  · intro h
    obtain ⟨persist, offset, sql, rows, n, -, -, -, -, -, hres⟩ :=
      repo.List_success g pg ctx tenant pageSize cursor orderByColumn dest additionalConditions h
    exact ⟨_, _, by rw [hres]⟩
  · intro persist offset sql hp hd hc
    exact repo.List_of_answers g pg ctx persist tenant pageSize cursor orderByColumn dest
      additionalConditions offset sql hp hd hc
  · rw [document.ListByApplicationID_calls]
    exact hList _ _ _ _

/-! ## Theorems: pages and cursors -/

namespace GoInt

/-- A sum that fits the 64-bit range is not changed by the wrap-around. -/
theorem add_eq (a b : Int) (hlo : -(2 ^ 63) ≤ a + b) (hhi : a + b < 2 ^ 63) :
    add a b = a + b := by
  unfold add wrap
  rw [Int.emod_eq_of_lt (by omega) (by omega)]
  omega

end GoInt

namespace repo

open persistence

/-- C3: for every successful `List` call, with `offset` the decoded cursor,
`totalCount` the result of the count query and the destination as the select
left it, the returned page has `HasNextPage = true` if and only if
`totalCount > offset + dest.Len()`; the sum is the Go `int` sum, which is the
sum of integers whenever that fits the `int` range. -/
theorem List_hasNextPage_iff (g : PageableQuerier) (pg : pagination.Functions) (ctx : Context)
    (tenant : String) (pageSize : Int) (cursor orderByColumn : String) (dest : List Row)
    (additionalConditions : List String)
    (h : (g.List pg ctx tenant pageSize cursor orderByColumn dest additionalConditions).err = none) :
    ∃ persist offset totalCount page,
      FromCtx ctx = Except.ok persist ∧
      pg.DecodeOffsetCursor cursor = Except.ok offset ∧
      persist.Get (g.countStatement (g.stmtWithoutPagination additionalConditions)) [tenant] =
        Except.ok totalCount ∧
      (g.List pg ctx tenant pageSize cursor orderByColumn dest additionalConditions).totalCount =
        totalCount ∧
      (g.List pg ctx tenant pageSize cursor orderByColumn dest additionalConditions).page =
        some page ∧
      (page.HasNextPage = true ↔
        totalCount > GoInt.add offset
          ((g.List pg ctx tenant pageSize cursor orderByColumn dest
            additionalConditions).dest.length : Int)) ∧
      (-(2 ^ 63) ≤ offset + ((g.List pg ctx tenant pageSize cursor orderByColumn dest
          additionalConditions).dest.length : Int) →
        offset + ((g.List pg ctx tenant pageSize cursor orderByColumn dest
          additionalConditions).dest.length : Int) < 2 ^ 63 →
        (page.HasNextPage = true ↔
          totalCount > offset +
            ((g.List pg ctx tenant pageSize cursor orderByColumn dest
              additionalConditions).dest.length : Int))) := by
  obtain ⟨persist, offset, sql, rows, n, h1, h2, -, -, h5, hres⟩ :=
    List_success g pg ctx tenant pageSize cursor orderByColumn dest additionalConditions h
  rw [hres]
  refine ⟨persist, offset, n, _, h1, h2, h5, rfl, rfl, by simp, ?_⟩
  intro hlo hhi
  simp only at hlo hhi
  rw [← GoInt.add_eq offset _ hlo hhi]
  simp

/-- C3 on the first page of size two of a table of three rows. -/
theorem List_hasNextPage_iff_witness :
    ∃ persist offset totalCount page,
      FromCtx ⟨some (sample.tableHandle sample.threeRows 0 2)⟩ = Except.ok persist ∧
      (pagination.specified sample.convert).DecodeOffsetCursor "" = Except.ok offset ∧
      persist.Get (sample.querier.countStatement (sample.querier.stmtWithoutPagination []))
        ["t1"] = Except.ok totalCount ∧
      (sample.querier.List (pagination.specified sample.convert)
        ⟨some (sample.tableHandle sample.threeRows 0 2)⟩ "t1" 2 "" "id" [] []).totalCount =
        totalCount ∧
      (sample.querier.List (pagination.specified sample.convert)
        ⟨some (sample.tableHandle sample.threeRows 0 2)⟩ "t1" 2 "" "id" [] []).page =
        some page ∧
      (page.HasNextPage = true ↔
        totalCount > GoInt.add offset
          ((sample.querier.List (pagination.specified sample.convert)
            ⟨some (sample.tableHandle sample.threeRows 0 2)⟩ "t1" 2 "" "id" []
            []).dest.length : Int)) ∧
      (-(2 ^ 63) ≤ offset + ((sample.querier.List (pagination.specified sample.convert)
          ⟨some (sample.tableHandle sample.threeRows 0 2)⟩ "t1" 2 "" "id" []
          []).dest.length : Int) →
        offset + ((sample.querier.List (pagination.specified sample.convert)
          ⟨some (sample.tableHandle sample.threeRows 0 2)⟩ "t1" 2 "" "id" []
          []).dest.length : Int) < 2 ^ 63 →
        (page.HasNextPage = true ↔
          totalCount > offset +
            ((sample.querier.List (pagination.specified sample.convert)
              ⟨some (sample.tableHandle sample.threeRows 0 2)⟩ "t1" 2 "" "id" []
              []).dest.length : Int))) :=
  List_hasNextPage_iff sample.querier (pagination.specified sample.convert)
    ⟨some (sample.tableHandle sample.threeRows 0 2)⟩ "t1" 2 "" "id" [] [] (by decide)

/-- C4, counterexample: on a table of three rows, the cursor for offset 10
gives a successful `List` call with an empty page, `HasNextPage = false` and
`TotalCount = 3`, which is not `len(Data) + offset = 10`. -/
theorem List_lastPage_totalCount_counterexample :
    pagination.DecodeOffsetCursor "10" = Except.ok 10 ∧
    (sample.querier.List (pagination.specified sample.convert)
      ⟨some (sample.tableHandle sample.threeRows 10 2)⟩ "t1" 2 "10" "id" [] []).err = none ∧
    (sample.querier.List (pagination.specified sample.convert)
      ⟨some (sample.tableHandle sample.threeRows 10 2)⟩ "t1" 2 "10" "id" [] []).page =
      some ⟨"10", "", false⟩ ∧
    (sample.querier.List (pagination.specified sample.convert)
      ⟨some (sample.tableHandle sample.threeRows 10 2)⟩ "t1" 2 "10" "id" [] []).dest = [] ∧
    (sample.querier.List (pagination.specified sample.convert)
      ⟨some (sample.tableHandle sample.threeRows 10 2)⟩ "t1" 2 "10" "id" [] []).totalCount = 3 ∧
    ¬ ((sample.querier.List (pagination.specified sample.convert)
      ⟨some (sample.tableHandle sample.threeRows 10 2)⟩ "t1" 2 "10" "id" [] []).totalCount =
        (((sample.querier.List (pagination.specified sample.convert)
          ⟨some (sample.tableHandle sample.threeRows 10 2)⟩ "t1" 2 "10" "id" []
          []).dest.length : Int) + 10)) :=
  ⟨rfl, by decide, by decide, by decide, by decide, by decide⟩

/-- What the comparison in `List` gives for any successful call with decoded
offset `offset`, whatever the handle answers: when the returned `HasNextPage`
is false, `TotalCount <= offset + len(Data)`; and when `HasNextPage` is true,
`TotalCount > offset + len(Data)`; the sum is the Go `int` sum, which is the
sum of integers whenever that fits the `int` range. -/
theorem List_totalCount_bounds (g : PageableQuerier) (pg : pagination.Functions) (ctx : Context)
    (tenant : String) (pageSize : Int) (cursor orderByColumn : String) (dest : List Row)
    (additionalConditions : List String)
    (h : (g.List pg ctx tenant pageSize cursor orderByColumn dest additionalConditions).err = none) :
    ∃ offset page,
      pg.DecodeOffsetCursor cursor = Except.ok offset ∧
      (g.List pg ctx tenant pageSize cursor orderByColumn dest additionalConditions).page =
        some page ∧
      (page.HasNextPage = false →
        (g.List pg ctx tenant pageSize cursor orderByColumn dest additionalConditions).totalCount ≤
          GoInt.add offset ((g.List pg ctx tenant pageSize cursor orderByColumn dest
            additionalConditions).dest.length : Int)) ∧
      (page.HasNextPage = true →
        (g.List pg ctx tenant pageSize cursor orderByColumn dest additionalConditions).totalCount >
          GoInt.add offset ((g.List pg ctx tenant pageSize cursor orderByColumn dest
            additionalConditions).dest.length : Int)) ∧
      (-(2 ^ 63) ≤ offset + ((g.List pg ctx tenant pageSize cursor orderByColumn dest
          additionalConditions).dest.length : Int) →
        offset + ((g.List pg ctx tenant pageSize cursor orderByColumn dest
          additionalConditions).dest.length : Int) < 2 ^ 63 →
        (page.HasNextPage = false →
          (g.List pg ctx tenant pageSize cursor orderByColumn dest
            additionalConditions).totalCount ≤
            offset + ((g.List pg ctx tenant pageSize cursor orderByColumn dest
              additionalConditions).dest.length : Int)) ∧
        (page.HasNextPage = true →
          (g.List pg ctx tenant pageSize cursor orderByColumn dest
            additionalConditions).totalCount >
            offset + ((g.List pg ctx tenant pageSize cursor orderByColumn dest
              additionalConditions).dest.length : Int))) := by
  obtain ⟨persist, offset, sql, rows, n, -, h2, -, -, -, hres⟩ :=
    List_success g pg ctx tenant pageSize cursor orderByColumn dest additionalConditions h
  rw [hres]
  have hF : decide (n > GoInt.add offset (rows.length : Int)) = false →
      n ≤ GoInt.add offset (rows.length : Int) := by
    intro hf
    simp only [decide_eq_false_iff_not, not_lt, gt_iff_lt] at hf
    exact hf
  have hT : decide (n > GoInt.add offset (rows.length : Int)) = true →
      n > GoInt.add offset (rows.length : Int) := by
    intro ht
    simpa using ht
  refine ⟨offset, _, h2, rfl, hF, hT, ?_⟩
  intro hlo hhi
  simp only at hlo hhi
  rw [← GoInt.add_eq offset _ hlo hhi]
  exact ⟨hF, hT⟩

end repo

/-! ## Theorems: the cursor codec -/

namespace strconv

/-- A digit character is a digit and carries its value. -/
theorem digitChar_spec :
    ∀ d : Fin 10, (digitChar d).isDigit = true ∧ (digitChar d).toNat - 48 = d := by
  decide

/-- Formatting puts only digits in front of digits. -/
theorem formatNat_all_isDigit (fuel : Nat) :
    ∀ (n : Nat) (acc : List Char), acc.all Char.isDigit = true →
      (formatNat fuel n acc).all Char.isDigit = true := by
  induction fuel with
  | zero => intro n acc h; exact h
  | succ fuel ih =>
    intro n acc h
    unfold formatNat
    by_cases hn : n < 10
    · simp only [hn, if_true, List.all_cons, Bool.and_eq_true]
      exact ⟨(digitChar_spec ⟨n, hn⟩).1, h⟩
    · simp only [hn, if_false]
      apply ih
      simp only [List.all_cons, Bool.and_eq_true]
      exact ⟨(digitChar_spec ⟨n % 10, Nat.mod_lt n (by norm_num)⟩).1, h⟩

/-- Reading the formatted digits of `n` and then `acc` is reading `acc` from
the value `n`. -/
theorem foldl_formatNat (fuel : Nat) :
    ∀ (n : Nat) (acc : List Char), n < fuel →
      (formatNat fuel n acc).foldl (fun a c => 10 * a + (c.toNat - 48)) 0 =
        acc.foldl (fun a c => 10 * a + (c.toNat - 48)) n := by
  induction fuel with
  | zero => intro n acc h; exact absurd h (Nat.not_lt_zero n)
  | succ fuel ih =>
    intro n acc h
    unfold formatNat
    by_cases hn : n < 10
    · simp only [hn, if_true, List.foldl_cons]
      rw [(digitChar_spec ⟨n, hn⟩).2]
      simp
    · simp only [hn, if_false]
      have hlt : n / 10 < fuel := by omega
      rw [ih (n / 10) _ hlt]
      simp only [List.foldl_cons]
      rw [(digitChar_spec ⟨n % 10, Nat.mod_lt n (by norm_num)⟩).2]
      simp only []
      rw [Nat.div_add_mod]

/-- Formatting with fuel left yields at least one character. -/
theorem formatNat_ne_nil (fuel n : Nat) (acc : List Char) : formatNat (fuel + 1) n acc ≠ [] := by
  induction fuel generalizing n acc with
  | zero =>
    unfold formatNat
    by_cases hn : n < 10
    · simp [hn]
    · simp [hn, formatNat]
  | succ fuel ih =>
    unfold formatNat
    by_cases hn : n < 10
    · simp [hn]
    · simp only [hn, if_false]
      exact ih _ _

/-- The text of a natural number reads back as that number. -/
theorem digitsValue_natText (n : Nat) : digitsValue (natText n) = n := by
  unfold digitsValue natText
  rw [foldl_formatNat (n + 1) n [] (Nat.lt_succ_self n)]
  rfl

end strconv

namespace pagination

/-- The codec of the spec on a non-negative sum: the cursor for `offset` and
`pageSize` decodes to `offset + pageSize`. -/
theorem decode_encode (offset pageSize : Int) (h : 0 ≤ offset + pageSize) :
    DecodeOffsetCursor (EncodeNextOffsetCursor offset pageSize) =
      Except.ok (offset + pageSize) := by
  obtain ⟨n, hn⟩ := Int.eq_ofNat_of_zero_le h
  unfold EncodeNextOffsetCursor
  rw [hn]
  have hne : (String.mk (strconv.natText n)) ≠ "" := by
    intro hc
    have := congrArg String.data hc
    exact strconv.formatNat_ne_nil n n [] this
  have hall : (strconv.natText n).all Char.isDigit = true :=
    strconv.formatNat_all_isDigit (n + 1) n [] rfl
  show DecodeOffsetCursor (String.mk (strconv.natText n)) = _
  unfold DecodeOffsetCursor
  rw [if_neg hne]
  simp only [hall, if_true, strconv.digitsValue_natText]
  rfl

/-- The decoder of the spec yields non-negative offsets only. -/
theorem decode_nonneg (cursor : String) (offset : Int)
    (h : DecodeOffsetCursor cursor = Except.ok offset) : 0 ≤ offset := by
  unfold DecodeOffsetCursor at h
  by_cases h1 : cursor = ""
  · simp only [h1, if_true, Except.ok.injEq] at h
    omega
  · by_cases h2 : cursor.data.all Char.isDigit = true
    · simp only [h1, h2, if_true, if_false, Except.ok.injEq] at h
      rw [← h]
      exact Int.ofNat_nonneg _
    · simp [h1, h2] at h

end pagination

namespace repo

open persistence

/-- C6: for every successful `List` call with decoded offset `offset`, the
page's `StartCursor` is the cursor argument unchanged; when `HasNextPage` is
true the `EndCursor` is `EncodeNextOffsetCursor(offset, pageSize)`, which under
the codec of the spec and a non-negative page size is a cursor that decodes to
`offset + pageSize`; and when `HasNextPage` is false the `EndCursor` is the
empty string. -/
theorem List_cursors (g : PageableQuerier) (pg : pagination.Functions) (ctx : Context)
    (tenant : String) (pageSize : Int) (cursor orderByColumn : String) (dest : List Row)
    (additionalConditions : List String)
    (h : (g.List pg ctx tenant pageSize cursor orderByColumn dest additionalConditions).err = none) :
    ∃ offset page,
      pg.DecodeOffsetCursor cursor = Except.ok offset ∧
      (g.List pg ctx tenant pageSize cursor orderByColumn dest additionalConditions).page =
        some page ∧
      page.StartCursor = cursor ∧
      (page.HasNextPage = true → page.EndCursor = pg.EncodeNextOffsetCursor offset pageSize) ∧
      (page.HasNextPage = true → pg.DecodeOffsetCursor = pagination.DecodeOffsetCursor →
        pg.EncodeNextOffsetCursor = pagination.EncodeNextOffsetCursor → 0 ≤ pageSize →
        pagination.DecodeOffsetCursor page.EndCursor = Except.ok (offset + pageSize)) ∧
      (page.HasNextPage = false → page.EndCursor = "") := by
  obtain ⟨persist, offset, sql, rows, n, -, h2, -, -, -, hres⟩ :=
    List_success g pg ctx tenant pageSize cursor orderByColumn dest additionalConditions h
  rw [hres]
  refine ⟨offset, _, h2, rfl, rfl, ?_, ?_, ?_⟩
  · intro ht
    have ht' : n > GoInt.add offset (rows.length : Int) := by simpa using ht
    simp only [if_pos ht']
  · intro ht hd he hP
    have ht' : n > GoInt.add offset (rows.length : Int) := by simpa using ht
    simp only [if_pos ht']
    rw [hd] at h2
    have ho := pagination.decode_nonneg cursor offset h2
    rw [he]
    exact pagination.decode_encode offset pageSize (by omega)
  · intro hf
    have hf' : ¬ n > GoInt.add offset (rows.length : Int) := by simpa using hf
    simp only [if_neg hf']

/-- C6 on the first page of size two of a table of three rows. -/
theorem List_cursors_witness :
    ∃ offset page,
      (pagination.specified sample.convert).DecodeOffsetCursor "" = Except.ok offset ∧
      (sample.querier.List (pagination.specified sample.convert)
        ⟨some (sample.tableHandle sample.threeRows 0 2)⟩ "t1" 2 "" "id" [] []).page =
        some page ∧
      page.StartCursor = "" ∧
      (page.HasNextPage = true →
        page.EndCursor = (pagination.specified sample.convert).EncodeNextOffsetCursor offset 2) ∧
      (page.HasNextPage = true →
        (pagination.specified sample.convert).DecodeOffsetCursor =
          pagination.DecodeOffsetCursor →
        (pagination.specified sample.convert).EncodeNextOffsetCursor =
          pagination.EncodeNextOffsetCursor → (0 : Int) ≤ 2 →
        pagination.DecodeOffsetCursor page.EndCursor = Except.ok (offset + 2)) ∧
      (page.HasNextPage = false → page.EndCursor = "") :=
  List_cursors sample.querier (pagination.specified sample.convert)
    ⟨some (sample.tableHandle sample.threeRows 0 2)⟩ "t1" 2 "" "id" [] [] (by decide)

/-- C7: cursor round trip under the codec of the spec.  For every offset
`o >= 0` and page size `P >= 1`, `DecodeOffsetCursor(EncodeNextOffsetCursor(o,
P))` succeeds and returns `o + P`; hence a `List` call given that cursor
behaves exactly as a call whose cursor decodes to the offset `o + P`. -/
theorem cursor_round_trip (o P : Int) (ho : 0 ≤ o) (hP : 1 ≤ P) :
    pagination.DecodeOffsetCursor (pagination.EncodeNextOffsetCursor o P) =
      Except.ok (o + P) ∧
    ∀ (g : PageableQuerier) (convert : Int → Int → String → Except GoError String)
      (ctx : Context) (tenant : String) (pageSize : Int) (orderByColumn : String)
      (dest : List Row) (additionalConditions : List String),
      g.List (pagination.specified convert) ctx tenant pageSize
          (pagination.EncodeNextOffsetCursor o P) orderByColumn dest additionalConditions =
        g.List ⟨fun _ => Except.ok (o + P), pagination.EncodeNextOffsetCursor, convert⟩ ctx tenant
          pageSize (pagination.EncodeNextOffsetCursor o P) orderByColumn dest
          additionalConditions := by
  have hrt := pagination.decode_encode o P (by omega)
  refine ⟨hrt, ?_⟩
  intro g convert ctx tenant pageSize orderByColumn dest additionalConditions
  unfold PageableQuerier.List
  simp only [pagination.specified, hrt]

/-- C7 at offset 0 and page size 2. -/
theorem cursor_round_trip_witness :
    pagination.DecodeOffsetCursor (pagination.EncodeNextOffsetCursor 0 2) =
      Except.ok (0 + 2) ∧
    ∀ (g : PageableQuerier) (convert : Int → Int → String → Except GoError String)
      (ctx : Context) (tenant : String) (pageSize : Int) (orderByColumn : String)
      (dest : List Row) (additionalConditions : List String),
      g.List (pagination.specified convert) ctx tenant pageSize
          (pagination.EncodeNextOffsetCursor 0 2) orderByColumn dest additionalConditions =
        g.List ⟨fun _ => Except.ok (0 + 2), pagination.EncodeNextOffsetCursor, convert⟩ ctx tenant
          pageSize (pagination.EncodeNextOffsetCursor 0 2) orderByColumn dest
          additionalConditions :=
  cursor_round_trip 0 2 (by decide) (by decide)

/-- C8, counterexample: with no transaction handle in the context, `List`
given the malformed cursor `abc` returns the error of the missing handle, which
does not wrap the decode error. -/
theorem List_malformed_cursor_counterexample :
    pagination.DecodeOffsetCursor "abc" =
      Except.error (GoError.errorString "cursor is not correct") ∧
    (sample.querier.List (pagination.specified sample.convert) ⟨none⟩ "t1" 2 "abc" "id" []
      []).err = some (GoError.errorString "no transaction in context") ∧
    (sample.querier.List (pagination.specified sample.convert) ⟨none⟩ "t1" 2 "abc" "id" []
      []).err ≠
      errors.Wrap (some (GoError.errorString "cursor is not correct"))
        "while decoding page cursor" :=
  ⟨rfl, by decide, by decide⟩

/-- C8, amended: when the context carries a transaction handle, for every
cursor that the cursor decoder rejects, `List` returns the decode error wrapped
with 'while decoding page cursor', a nil page and total count -1, and executes
neither the select nor the count statement. -/
theorem List_malformed_cursor (g : PageableQuerier) (pg : pagination.Functions) (ctx : Context)
    (persist : PersistenceOp) (tenant : String) (pageSize : Int)
    (cursor orderByColumn : String) (dest : List Row) (additionalConditions : List String)
    (decodeErr : GoError) (hp : FromCtx ctx = Except.ok persist)
    (hd : pg.DecodeOffsetCursor cursor = Except.error decodeErr) :
    (g.List pg ctx tenant pageSize cursor orderByColumn dest additionalConditions).err =
      errors.Wrap (some decodeErr) "while decoding page cursor" ∧
    (g.List pg ctx tenant pageSize cursor orderByColumn dest additionalConditions).err =
      some (GoError.withMessage decodeErr "while decoding page cursor") ∧
    (g.List pg ctx tenant pageSize cursor orderByColumn dest additionalConditions).page = none ∧
    (g.List pg ctx tenant pageSize cursor orderByColumn dest additionalConditions).totalCount =
      -1 ∧
    (g.List pg ctx tenant pageSize cursor orderByColumn dest additionalConditions).calls = [] := by
  unfold PageableQuerier.List
  simp [hp, hd, errors.Wrap]

/-- C8 as amended, on the malformed cursor `abc` with a transaction handle
present. -/
theorem List_malformed_cursor_witness :
    (sample.querier.List (pagination.specified sample.convert)
      ⟨some (sample.tableHandle sample.threeRows 0 2)⟩ "t1" 2 "abc" "id" [] []).err =
      errors.Wrap (some (GoError.errorString "cursor is not correct"))
        "while decoding page cursor" ∧
    (sample.querier.List (pagination.specified sample.convert)
      ⟨some (sample.tableHandle sample.threeRows 0 2)⟩ "t1" 2 "abc" "id" [] []).err =
      some (GoError.withMessage (GoError.errorString "cursor is not correct")
        "while decoding page cursor") ∧
    (sample.querier.List (pagination.specified sample.convert)
      ⟨some (sample.tableHandle sample.threeRows 0 2)⟩ "t1" 2 "abc" "id" [] []).page = none ∧
    (sample.querier.List (pagination.specified sample.convert)
      ⟨some (sample.tableHandle sample.threeRows 0 2)⟩ "t1" 2 "abc" "id" [] []).totalCount =
      -1 ∧
    (sample.querier.List (pagination.specified sample.convert)
      ⟨some (sample.tableHandle sample.threeRows 0 2)⟩ "t1" 2 "abc" "id" [] []).calls = [] :=
  List_malformed_cursor sample.querier (pagination.specified sample.convert)
    ⟨some (sample.tableHandle sample.threeRows 0 2)⟩ (sample.tableHandle sample.threeRows 0 2)
    "t1" 2 "abc" "id" [] [] (GoError.errorString "cursor is not correct") rfl rfl

end repo

/-! ## Theorems: the count statement -/

namespace strings

/-- A character that differs from the first character of `old` is stepped
over. -/
theorem replaceFirst_skip (c x : Char) (rest new xs : List Char) (h : x ≠ c) :
    replaceFirst (c :: rest) new (x :: xs) = x :: replaceFirst (c :: rest) new xs := by
  have hb : (c == x) = false := by
    simp only [beq_eq_false_iff_ne, ne_eq]
    exact fun hcx => h hcx.symm
  simp [replaceFirst, List.isPrefixOf, hb]

/-- An occurrence at the very start is replaced. -/
theorem replaceFirst_hit (old new xs : List Char) (h : old ≠ []) :
    replaceFirst old new (old ++ xs) = new ++ xs := by
  cases old with
  | nil => exact absurd rfl h
  | cons c rest =>
    have hp : (c :: rest).isPrefixOf (c :: (rest ++ xs)) = true := by
      rw [List.isPrefixOf_iff_prefix]
      exact List.prefix_append (c :: rest) xs
    have hd : List.drop (c :: rest).length (c :: (rest ++ xs)) = xs :=
      List.drop_left (c :: rest) xs
    show replaceFirst (c :: rest) new (c :: (rest ++ xs)) = new ++ xs
    rw [replaceFirst, if_pos hp, hd]

/-- Where the first occurrence of `old` is the one after `pre`, it is the one
replaced. -/
theorem replaceFirst_first_occurrence (old new post : List Char) (hold : old ≠ []) :
    ∀ pre : List Char,
      (∀ i, i < pre.length → old.isPrefixOf ((pre ++ (old ++ post)).drop i) = false) →
      replaceFirst old new (pre ++ (old ++ post)) = pre ++ (new ++ post) := by
  intro pre
  induction pre with
  | nil =>
    intro _
    exact replaceFirst_hit old new post hold
  | cons x pre ih =>
    intro h
    have h0 : old.isPrefixOf (x :: (pre ++ (old ++ post))) = false := h 0 (Nat.succ_pos _)
    have ih' := ih (fun i hi => h (i + 1) (Nat.succ_lt_succ hi))
    show replaceFirst old new (x :: (pre ++ (old ++ post))) = x :: (pre ++ (new ++ post))
    rw [replaceFirst, h0, ih']
    simp

/-- An empty `old` is found at the very start: `new` is put in front. -/
theorem replaceFirst_empty (new s : List Char) : replaceFirst [] new s = new ++ s := by
  cases s with
  | nil => simp [replaceFirst]
  | cons c cs => simp [replaceFirst, List.isPrefixOf]

end strings

namespace repo

/-- The statement of `buildSelectStatement` starts with the keyword and the
select list; what follows does not depend on the select list. -/
theorem buildSelectStatement_data (tableName tenantColumn : String)
    (additionalConditions : List String) :
    ∃ tail : List Char, ∀ cols : String,
      (buildSelectStatement cols tableName tenantColumn additionalConditions).data =
        "SELECT ".data ++ (cols.data ++ tail) := by
  unfold buildSelectStatement
  induction additionalConditions using List.reverseRecOn with
  | nil =>
    refine ⟨(" FROM " ++ tableName ++ " WHERE " ++ tenantColumn ++ "=$1").data, ?_⟩
    intro cols
    simp [String.data_append, List.append_assoc]
  | append_singleton conds cond ih =>
    obtain ⟨tail, ht⟩ := ih
    refine ⟨tail ++ (" AND ".data ++ cond.data), ?_⟩
    intro cols
    rw [List.foldl_append]
    simp only [List.foldl_cons, List.foldl_nil, String.data_append]
    rw [ht cols]
    simp [List.append_assoc]

/-- Where the select list starts with a character that does not occur in the
keyword `SELECT` and its blank, the count statement is the data statement with
the select list replaced by `COUNT(*)`. -/
theorem countStatement_eq_spec (g : PageableQuerier) (additionalConditions : List String)
    (c : Char) (rest : List Char) (hcols : g.selectedColumns.data = c :: rest)
    (hc : c ∉ "SELECT ".data) :
    g.countStatement (g.stmtWithoutPagination additionalConditions) =
      countStatementSpec g additionalConditions := by
  obtain ⟨tail, ht⟩ :=
    buildSelectStatement_data g.tableName g.tenantColumn additionalConditions
  unfold PageableQuerier.countStatement PageableQuerier.stmtWithoutPagination countStatementSpec
    strings.Replace1
  apply String.ext
  rw [ht "COUNT(*)", ht g.selectedColumns, hcols]
  have hS : 'S' ≠ c := fun h => hc (by rw [← h]; decide)
  have hE : 'E' ≠ c := fun h => hc (by rw [← h]; decide)
  have hL : 'L' ≠ c := fun h => hc (by rw [← h]; decide)
  have hC : 'C' ≠ c := fun h => hc (by rw [← h]; decide)
  have hT : 'T' ≠ c := fun h => hc (by rw [← h]; decide)
  have hB : ' ' ≠ c := fun h => hc (by rw [← h]; decide)
  show strings.replaceFirst (c :: rest) "COUNT(*)".data
      ('S' :: 'E' :: 'L' :: 'E' :: 'C' :: 'T' :: ' ' :: (c :: rest ++ tail)) = _
  rw [strings.replaceFirst_skip _ _ _ _ _ hS, strings.replaceFirst_skip _ _ _ _ _ hE,
    strings.replaceFirst_skip _ _ _ _ _ hL, strings.replaceFirst_skip _ _ _ _ _ hE,
    strings.replaceFirst_skip _ _ _ _ _ hC, strings.replaceFirst_skip _ _ _ _ _ hT,
    strings.replaceFirst_skip _ _ _ _ _ hB,
    strings.replaceFirst_hit (c :: rest) _ tail (List.cons_ne_nil c rest)]
  rfl

/-- Whatever the text of the unpaginated statement, when the first occurrence
of the column text in it is the select list, the count statement is that
statement with the select list replaced by `COUNT(*)`. -/
theorem countStatement_first_occurrence (g : PageableQuerier) (pre post : String)
    (hne : g.selectedColumns.data ≠ [])
    (hfirst : ∀ i, i < pre.data.length →
      g.selectedColumns.data.isPrefixOf
        ((pre.data ++ (g.selectedColumns.data ++ post.data)).drop i) = false) :
    g.countStatement (pre ++ g.selectedColumns ++ post) = pre ++ "COUNT(*)" ++ post := by
  unfold PageableQuerier.countStatement strings.Replace1
  apply String.ext
  simp only [String.data_append, List.append_assoc]
  exact strings.replaceFirst_first_occurrence _ _ _ hne _ hfirst

/-- Whatever the text of the unpaginated statement, for the empty column text
the count statement is that statement with `COUNT(*)` put in front. -/
theorem countStatement_empty_columns (g : PageableQuerier) (query : String)
    (h : g.selectedColumns = "") : g.countStatement query = "COUNT(*)" ++ query := by
  unfold PageableQuerier.countStatement strings.Replace1
  apply String.ext
  rw [h]
  exact strings.replaceFirst_empty _ _

/-- The count statement of the Document repository is the data statement with
the select list replaced, for every application condition. -/
theorem document_countStatement (additionalConditions : List String) :
    (NewPageableQuerier document.documentTable "tenant_id"
      document.documentColumns).countStatement
        ((NewPageableQuerier document.documentTable "tenant_id"
          document.documentColumns).stmtWithoutPagination additionalConditions) =
      countStatementSpec
        (NewPageableQuerier document.documentTable "tenant_id" document.documentColumns)
        additionalConditions :=
  countStatement_eq_spec _ additionalConditions 'i'
    (strings.Join document.documentColumns ", ").data.tail (by decide) (by decide)

/-- C5, counterexample: for the one-column list `T`, whose text occurs inside
the keyword `SELECT`, the data statement selects `T` while the count statement
is `SELECCOUNT(*) T FROM ...`, which is not the data statement with its select
list replaced by `COUNT(*)`; and for the empty column list the count statement
is the data statement with `COUNT(*)` put in front. -/
theorem countStatement_select_list_counterexample :
    (NewPageableQuerier "public.things" "tenant_id" ["T"]).stmtWithoutPagination [] =
      "SELECT T FROM public.things WHERE tenant_id=$1" ∧
    (NewPageableQuerier "public.things" "tenant_id" ["T"]).countStatement
        ((NewPageableQuerier "public.things" "tenant_id" ["T"]).stmtWithoutPagination []) =
      "SELECCOUNT(*) T FROM public.things WHERE tenant_id=$1" ∧
    countStatementSpec (NewPageableQuerier "public.things" "tenant_id" ["T"]) [] =
      "SELECT COUNT(*) FROM public.things WHERE tenant_id=$1" ∧
    (NewPageableQuerier "public.things" "tenant_id" ["T"]).countStatement
        ((NewPageableQuerier "public.things" "tenant_id" ["T"]).stmtWithoutPagination []) ≠
      countStatementSpec (NewPageableQuerier "public.things" "tenant_id" ["T"]) [] ∧
    (NewPageableQuerier "public.things" "tenant_id" []).countStatement
        ((NewPageableQuerier "public.things" "tenant_id" []).stmtWithoutPagination []) =
      "COUNT(*)" ++
        (NewPageableQuerier "public.things" "tenant_id" []).stmtWithoutPagination [] := by
  refine ⟨by decide, by decide, by decide, by decide, by decide⟩

/-- C5, amended: for every `PageableQuerier` whose column text is not empty
and occurs in the unpaginated data statement first at its select list, and any
additional conditions, the statement `List` uses to compute the total count is
the unpaginated data statement with only its select list replaced by
`COUNT(*)`, the `FROM` clause and the `WHERE` clause being identical.  This
holds whatever the text around the select list is; for the statement that
starts with the keyword `SELECT` it holds for every column list that starts
with a character other than those of the keyword and its blank, and so for the
columns of the Document repository. -/
theorem countStatement_select_list (g : PageableQuerier) (additionalConditions : List String) :
    (∀ pre post : String, g.selectedColumns.data ≠ [] →
      (∀ i, i < pre.data.length →
        g.selectedColumns.data.isPrefixOf
          ((pre.data ++ (g.selectedColumns.data ++ post.data)).drop i) = false) →
      g.countStatement (pre ++ g.selectedColumns ++ post) = pre ++ "COUNT(*)" ++ post) ∧
    (∀ (c : Char) (rest : List Char), g.selectedColumns.data = c :: rest →
      c ∉ "SELECT ".data →
      g.countStatement (g.stmtWithoutPagination additionalConditions) =
        countStatementSpec g additionalConditions) ∧
    (NewPageableQuerier document.documentTable "tenant_id"
      document.documentColumns).countStatement
        ((NewPageableQuerier document.documentTable "tenant_id"
          document.documentColumns).stmtWithoutPagination additionalConditions) =
      countStatementSpec
        (NewPageableQuerier document.documentTable "tenant_id" document.documentColumns)
        additionalConditions :=
  ⟨fun pre post hne hfirst => countStatement_first_occurrence g pre post hne hfirst,
    fun c rest hcols hc => countStatement_eq_spec g additionalConditions c rest hcols hc,
    document_countStatement additionalConditions⟩

/-- C5 as amended, on the querier of the Document repository with the
condition on an application: its column text starts with `i`. -/
theorem countStatement_select_list_witness :
    (NewPageableQuerier document.documentTable "tenant_id"
        document.documentColumns).selectedColumns.data =
      'i' :: (strings.Join document.documentColumns ", ").data.tail ∧
    'i' ∉ "SELECT ".data ∧
    (NewPageableQuerier document.documentTable "tenant_id"
      document.documentColumns).countStatement
        ((NewPageableQuerier document.documentTable "tenant_id"
          document.documentColumns).stmtWithoutPagination [document.repository.appCondition "a1"]) =
      countStatementSpec
        (NewPageableQuerier document.documentTable "tenant_id" document.documentColumns)
        [document.repository.appCondition "a1"] :=
  ⟨by decide, by decide,
    (countStatement_select_list
      (NewPageableQuerier document.documentTable "tenant_id" document.documentColumns)
      [document.repository.appCondition "a1"]).2.1 'i' (strings.Join document.documentColumns ", ").data.tail
      (by decide) (by decide)⟩

end repo

/-! ## Theorems: `Creator.Create` -/

namespace repo

open persistence

/-- The loop of `Create` appends one placeholder per column, in order. -/
theorem foldl_values (columns acc : List String) :
    columns.foldl (fun values col => values ++ [":" ++ col]) acc =
      acc ++ columns.map (fun col => ":" ++ col) := by
  induction columns generalizing acc with
  | nil => simp
  | cons col rest ih =>
    simp only [List.foldl_cons, List.map_cons]
    rw [ih]
    simp

/-- The placeholders of a creator: a colon in front of every column name. -/
theorem Creator.values_eq_map (c : Creator) :
    c.values = c.columns.map (fun col => ":" ++ col) := by
  unfold Creator.values
  rw [foldl_values]
  rfl

/-- The calls `Create` makes: none, or the one execution of its statement
with the entity. -/
theorem Creator.Create_calls (c : Creator) (ctx : Context) (dbEntity : Option Row) :
    (c.Create ctx dbEntity).2 = [] ∨
    ∃ entity persist, dbEntity = some entity ∧ FromCtx ctx = Except.ok persist ∧
      (c.Create ctx dbEntity).2 = [Call.NamedExec c.stmt entity] := by
  unfold Creator.Create
  cases dbEntity with
  | none => left; rfl
  | some entity =>
    cases hp : FromCtx ctx with
    | error e => left; rfl
    | ok persist =>
      right
      refine ⟨entity, persist, rfl, rfl, ?_⟩
      simp only []
      split
      · split <;> rfl
      · rfl

/-- C9: for every creator with table name `t` and column list `c1..cn`, the
statement `Create` executes is exactly
`INSERT INTO t ( c1, ..., cn ) VALUES ( :c1, ..., :cn )`: the value list has
one entry per declared column, in declared order, each the placeholder `:`
followed by the column name at the same position; every call `Create` makes
carries this statement, and with a non-nil entity and a transaction handle it
executes it exactly once, with the entity. -/
theorem Create_statement (tableName : String) (columns : List String) (ctx : Context)
    (dbEntity : Option Row) :
    (NewCreator tableName columns).stmt = insertStatementSpec tableName columns ∧
    (NewCreator tableName columns).values.length = columns.length ∧
    (∀ (i : Nat) (col : String), columns[i]? = some col →
      (NewCreator tableName columns).values[i]? = some (":" ++ col)) ∧
    (∀ call ∈ ((NewCreator tableName columns).Create ctx dbEntity).2,
      call.stmt = insertStatementSpec tableName columns) ∧
    (∀ (entity : Row) (persist : PersistenceOp), FromCtx ctx = Except.ok persist →
      ((NewCreator tableName columns).Create ctx (some entity)).2 =
        [Call.NamedExec (insertStatementSpec tableName columns) entity]) := by
  have hv := Creator.values_eq_map (NewCreator tableName columns)
  have hs : (NewCreator tableName columns).stmt = insertStatementSpec tableName columns := by
    unfold Creator.stmt insertStatementSpec
    rw [hv]
    rfl
  refine ⟨hs, ?_, ?_, ?_, ?_⟩
  · rw [hv]; simp [NewCreator]
  · intro i col hi
    rw [hv]
    simp only [NewCreator, List.getElem?_map, hi, Option.map_some']
  · intro call hcall
    rcases Creator.Create_calls (NewCreator tableName columns) ctx dbEntity with
      h | ⟨entity, persist, -, -, h⟩
    · rw [h] at hcall; simp at hcall
    · rw [h] at hcall
      simp only [List.mem_singleton] at hcall
      rw [hcall, ← hs]
      rfl
  · intro entity persist hp
    rcases Creator.Create_calls (NewCreator tableName columns) ctx (some entity) with
      h | ⟨entity', persist', he, -, h⟩
    · exfalso
      unfold Creator.Create at h
      simp only [hp] at h
      split at h
      · split at h <;> simp at h
      · simp at h
    · cases he
      rw [h, hs]

/-- The statement of a creator of a two-column table. -/
theorem Create_statement_sample :
    (NewCreator "public.documents" ["id", "tenant_id"]).stmt =
      "INSERT INTO public.documents ( id, tenant_id ) VALUES ( :id, :tenant_id )" := by
  decide

/-- C10: for a non-nil entity and a present transaction handle, `Create`
returns the distinguished not-unique error if and only if the storage call
failed with a PostgreSQL error whose code is the unique-violation code; every
other storage failure is returned wrapped with the table name, which is a
different error than the not-unique one. -/
theorem Create_notUnique_iff (c : Creator) (ctx : Context) (persist : PersistenceOp)
    (entity : Row) (hp : FromCtx ctx = Except.ok persist) :
    ((c.Create ctx (some entity)).1 = some GoError.notUniqueError ↔
      persist.NamedExec c.stmt entity = some (GoError.pqError UniqueViolation)) ∧
    (∀ e : GoError, persist.NamedExec c.stmt entity = some e →
      e ≠ GoError.pqError UniqueViolation →
      (c.Create ctx (some entity)).1 =
          some (GoError.withMessage e ("while inserting row to '" ++ c.tableName ++ "' table")) ∧
        (c.Create ctx (some entity)).1 ≠ some GoError.notUniqueError) := by
  unfold Creator.Create
  simp only [hp]
  cases hx : persist.NamedExec c.stmt entity with
  | none => simp [errors.Wrap]
  | some e =>
    cases e with
    | pqError code =>
      by_cases hc : code = UniqueViolation
      · simp [hc]
      · simp [hc, errors.Wrap]
    | errorString msg => simp [errors.Wrap]
    | withMessage cause msg => simp [errors.Wrap]
    | notUniqueError => simp [errors.Wrap]

/-- C10 on a transaction handle whose execution fails with the
unique-violation code. -/
theorem Create_notUnique_iff_witness :
    (((NewCreator "public.documents" ["id", "tenant_id"]).Create
        ⟨some (sample.failingHandle (GoError.pqError UniqueViolation))⟩ (some [("id", "1")])).1 =
        some GoError.notUniqueError ↔
      (sample.failingHandle (GoError.pqError UniqueViolation)).NamedExec
        (NewCreator "public.documents" ["id", "tenant_id"]).stmt [("id", "1")] =
        some (GoError.pqError UniqueViolation)) ∧
    (∀ e : GoError,
      (sample.failingHandle (GoError.pqError UniqueViolation)).NamedExec
        (NewCreator "public.documents" ["id", "tenant_id"]).stmt [("id", "1")] = some e →
      e ≠ GoError.pqError UniqueViolation →
      ((NewCreator "public.documents" ["id", "tenant_id"]).Create
        ⟨some (sample.failingHandle (GoError.pqError UniqueViolation))⟩ (some [("id", "1")])).1 =
          some (GoError.withMessage e
            ("while inserting row to '" ++
              (NewCreator "public.documents" ["id", "tenant_id"]).tableName ++ "' table")) ∧
        ((NewCreator "public.documents" ["id", "tenant_id"]).Create
          ⟨some (sample.failingHandle (GoError.pqError UniqueViolation))⟩
          (some [("id", "1")])).1 ≠ some GoError.notUniqueError) :=
  Create_notUnique_iff (NewCreator "public.documents" ["id", "tenant_id"])
    ⟨some (sample.failingHandle (GoError.pqError UniqueViolation))⟩
    (sample.failingHandle (GoError.pqError UniqueViolation)) [("id", "1")] rfl

end repo

/-! ## Theorems: the transaction handle is required -/

/-- Without a transaction handle in the context, `FromCtx` fails. -/
theorem persistence.FromCtx_none (ctx : persistence.Context) (h : ctx.persist = none) :
    ∃ err, persistence.FromCtx ctx = Except.error err := by
  unfold persistence.FromCtx
  rw [h]
  exact ⟨_, rfl⟩

/-- C11: when the context carries no transaction handle, `Creator.Create`
called with a non-nil entity, `PageableQuerier.List` and the application
repository's `ListByScenarios` each return an error and execute no
statement. -/
theorem no_transaction_handle (ctx : persistence.Context) (h : ctx.persist = none)
    (c : repo.Creator) (entity : persistence.Row) (g : repo.PageableQuerier)
    (pg : pagination.Functions) (tenant : String) (pageSize : Int)
    (cursor orderByColumn : String) (dest : List persistence.Row)
    (additionalConditions : List String) (r : application.inMemoryRepository)
    (FilterQuery : model.LabelableObject → label.SetCombination → String →
      List labelfilter.LabelFilter → Except GoError String)
    (tenantUUID : String) (scenarios : List String) (pageSizeRef : Option Int)
    (cursorRef : Option String) :
    (∃ err, c.Create ctx (some entity) = (some err, [])) ∧
    (∃ err,
      (g.List pg ctx tenant pageSize cursor orderByColumn dest additionalConditions).err =
        some err ∧
      (g.List pg ctx tenant pageSize cursor orderByColumn dest additionalConditions).page =
        none ∧
      (g.List pg ctx tenant pageSize cursor orderByColumn dest additionalConditions).calls =
        []) ∧
    (∃ err, application.ListByScenarios r FilterQuery ctx tenantUUID scenarios pageSizeRef
      cursorRef = ((none, some err), [])) := by
  obtain ⟨e, he⟩ := persistence.FromCtx_none ctx h
  refine ⟨⟨e, ?_⟩, ⟨e, ?_⟩, ⟨GoError.withMessage e "while fetching DB from context", ?_⟩⟩
  · unfold repo.Creator.Create
    simp only [he]
  · unfold repo.PageableQuerier.List
    simp only [he, and_self]
  · unfold application.ListByScenarios
    simp only [he, errors.Wrap]

/-- C11 on the context without a transaction handle. -/
theorem no_transaction_handle_witness :
    (∃ err, (repo.NewCreator "public.documents" ["id"]).Create ⟨none⟩ (some [("id", "1")]) =
      (some err, [])) ∧
    (∃ err,
      (sample.querier.List (pagination.specified sample.convert) ⟨none⟩ "t1" 2 "" "id" []
        []).err = some err ∧
      (sample.querier.List (pagination.specified sample.convert) ⟨none⟩ "t1" 2 "" "id" []
        []).page = none ∧
      (sample.querier.List (pagination.specified sample.convert) ⟨none⟩ "t1" 2 "" "id" []
        []).calls = []) ∧
    (∃ err, application.ListByScenarios application.NewRepository
      (fun _ _ _ _ => Except.ok "SELECT app_id FROM labels") ⟨none⟩ "t1" ["DEFAULT"] none
      none = ((none, some err), [])) :=
  no_transaction_handle ⟨none⟩ rfl (repo.NewCreator "public.documents" ["id"]) [("id", "1")]
    sample.querier (pagination.specified sample.convert) "t1" 2 "" "id" [] []
    application.NewRepository (fun _ _ _ _ => Except.ok "SELECT app_id FROM labels") "t1"
    ["DEFAULT"] none none

/-! ## Theorems: reference kinds -/

/-- C12: `referenceObjectFieldName` is total: it returns `document_id` for the
Document reference kind, `api_def_id` for the API reference kind and
`event_api_def_id` for the EventAPI reference kind, three pairwise distinct
columns, so that kinds with the same column are the same kind; and for every
other value of the reference type it returns an error and the empty column
name. -/
theorem referenceObjectFieldName_total (r : fetchrequest.repository)
    (objectType : model.FetchRequestReferenceObjectType) :
    r.referenceObjectFieldName model.DocumentFetchRequestReference = ("document_id", none) ∧
    r.referenceObjectFieldName model.APIFetchRequestReference = ("api_def_id", none) ∧
    r.referenceObjectFieldName model.EventAPIFetchRequestReference =
      ("event_api_def_id", none) ∧
    (fetchrequest.documentIDColumn ≠ fetchrequest.apiDefIDColumn ∧
      fetchrequest.documentIDColumn ≠ fetchrequest.eventAPIDefIDColumn ∧
      fetchrequest.apiDefIDColumn ≠ fetchrequest.eventAPIDefIDColumn) ∧
    (∀ other : model.FetchRequestReferenceObjectType,
      (r.referenceObjectFieldName objectType).2 = none →
      (r.referenceObjectFieldName other).2 = none →
      (r.referenceObjectFieldName objectType).1 = (r.referenceObjectFieldName other).1 →
      objectType = other) ∧
    (objectType ≠ model.DocumentFetchRequestReference →
      objectType ≠ model.APIFetchRequestReference →
      objectType ≠ model.EventAPIFetchRequestReference →
      r.referenceObjectFieldName objectType =
        ("", errors.New "Invalid type of the Fetch Request reference object")) ∧
    ((r.referenceObjectFieldName objectType).2 = none ↔
      (objectType = model.DocumentFetchRequestReference ∨
        objectType = model.APIFetchRequestReference ∨
        objectType = model.EventAPIFetchRequestReference)) := by
  have hcases : ∀ t : model.FetchRequestReferenceObjectType,
      (t = model.DocumentFetchRequestReference ∧
        r.referenceObjectFieldName t = ("document_id", none)) ∨
      (t = model.APIFetchRequestReference ∧
        r.referenceObjectFieldName t = ("api_def_id", none)) ∨
      (t = model.EventAPIFetchRequestReference ∧
        r.referenceObjectFieldName t = ("event_api_def_id", none)) ∨
      (t ≠ model.DocumentFetchRequestReference ∧ t ≠ model.APIFetchRequestReference ∧
        t ≠ model.EventAPIFetchRequestReference ∧
        r.referenceObjectFieldName t =
          ("", errors.New "Invalid type of the Fetch Request reference object")) := by
    intro t
    unfold fetchrequest.repository.referenceObjectFieldName
    by_cases h1 : t = model.DocumentFetchRequestReference
    · left; exact ⟨h1, by rw [if_pos h1]; rfl⟩
    · by_cases h2 : t = model.APIFetchRequestReference
      · right; left; exact ⟨h2, by rw [if_neg h1, if_pos h2]; rfl⟩
      · by_cases h3 : t = model.EventAPIFetchRequestReference
        · right; right; left; exact ⟨h3, by rw [if_neg h1, if_neg h2, if_pos h3]; rfl⟩
        · right; right; right
          exact ⟨h1, h2, h3, by rw [if_neg h1, if_neg h2, if_neg h3]⟩
  refine ⟨rfl, rfl, rfl, ⟨by decide, by decide, by decide⟩, ?_, ?_, ?_⟩
  · intro other ho hoth heq
    rcases hcases objectType with ⟨h1, e1⟩ | ⟨h1, e1⟩ | ⟨h1, e1⟩ | ⟨-, -, -, e1⟩ <;>
      rcases hcases other with ⟨h2, e2⟩ | ⟨h2, e2⟩ | ⟨h2, e2⟩ | ⟨-, -, -, e2⟩ <;>
      rw [e1] at ho heq <;> rw [e2] at hoth heq <;>
      first
        | (exfalso; revert heq; decide)
        | (exfalso; revert ho; simp [errors.New]; done)
        | (exfalso; revert hoth; simp [errors.New]; done)
        | (rw [h1, h2])
  · intro h1 h2 h3
    rcases hcases objectType with ⟨h, -⟩ | ⟨h, -⟩ | ⟨h, -⟩ | ⟨-, -, -, e⟩
    · exact absurd h h1
    · exact absurd h h2
    · exact absurd h h3
    · exact e
  · constructor
    · intro hn
      rcases hcases objectType with ⟨h, -⟩ | ⟨h, -⟩ | ⟨h, -⟩ | ⟨-, -, -, e⟩
      · exact Or.inl h
      · exact Or.inr (Or.inl h)
      · exact Or.inr (Or.inr h)
      · rw [e] at hn; simp [errors.New] at hn
    · intro hk
      rcases hk with h | h | h <;> rw [h] <;> rfl

/-! ## Theorems: creating many documents -/

namespace document

open persistence

/-- The loop goes on after an item whose `Create` returns no error, on the
context left by the statements of that `Create`. -/
theorem CreateMany_cons_ok (r : repository) (ctx : TxContext) (doc : model.Document)
    (rest : List (Option model.Document)) (h : (r.Create ctx.now (some doc)).1 = none) :
    r.CreateMany ctx (some doc :: rest) =
      ⟨(r.CreateMany (ctx.after (r.Create ctx.now (some doc)).2) rest).err,
        doc :: (r.CreateMany (ctx.after (r.Create ctx.now (some doc)).2) rest).passed,
        (r.Create ctx.now (some doc)).2 ++
          (r.CreateMany (ctx.after (r.Create ctx.now (some doc)).2) rest).calls⟩ := by
  rcases hc : r.Create ctx.now (some doc) with ⟨e, calls⟩
  rw [hc] at h
  simp only at h
  subst h
  simp only [repository.CreateMany, hc]

/-- The loop is left at an item whose `Create` returns an error: nothing is
executed for the items after it. -/
theorem CreateMany_cons_fail (r : repository) (ctx : TxContext) (doc : model.Document)
    (rest : List (Option model.Document)) (cause : GoError)
    (h : (r.Create ctx.now (some doc)).1 = some cause) :
    r.CreateMany ctx (some doc :: rest) =
      ⟨some (GoError.withMessage cause ("while creating Document with ID " ++ doc.ID)), [doc],
        (r.Create ctx.now (some doc)).2⟩ := by
  rcases hc : r.Create ctx.now (some doc) with ⟨e, calls⟩
  rw [hc] at h
  simp only at h
  subst h
  simp only [repository.CreateMany, hc, errors.Wrap]

/-- The statements of creating two runs of documents one after the other. -/
theorem createCalls_append (r : repository) (ctx : TxContext) (a b : List model.Document) :
    r.createCalls ctx (a ++ b) = r.createCalls ctx a ++ r.createCalls (r.contextAfter ctx a) b := by
  induction a generalizing ctx with
  | nil => rfl
  | cons d a ih =>
    show (r.Create ctx.now (some d)).2 ++
        r.createCalls (ctx.after (r.Create ctx.now (some d)).2) (a ++ b) =
      ((r.Create ctx.now (some d)).2 ++
        r.createCalls (ctx.after (r.Create ctx.now (some d)).2) a) ++
        r.createCalls (r.contextAfter (ctx.after (r.Create ctx.now (some d)).2) a) b
    rw [ih, List.append_assoc]

/-- While every `Create` succeeds, `CreateMany` passes the documents to
`Create` in order and goes on with the rest on the context they leave. -/
theorem CreateMany_append (r : repository) (ctx : TxContext) (pre : List model.Document)
    (rest : List (Option model.Document))
    (h : ∀ p d q, pre = p ++ d :: q → (r.Create (r.contextAfter ctx p).now (some d)).1 = none) :
    r.CreateMany ctx (pre.map some ++ rest) =
      ⟨(r.CreateMany (r.contextAfter ctx pre) rest).err,
        pre ++ (r.CreateMany (r.contextAfter ctx pre) rest).passed,
        r.createCalls ctx pre ++ (r.CreateMany (r.contextAfter ctx pre) rest).calls⟩ := by
  induction pre generalizing ctx with
  | nil => rfl
  | cons d pre ih =>
    have hd : (r.Create ctx.now (some d)).1 = none := h [] d pre rfl
    have ih' := ih (ctx.after (r.Create ctx.now (some d)).2)
      (fun p d' q hp => h (d :: p) d' q (by rw [hp]; rfl))
    simp only [List.map_cons, List.cons_append]
    rw [CreateMany_cons_ok r ctx d _ hd, ih']
    simp only [repository.contextAfter, repository.createCalls, List.cons_append,
      List.append_assoc]

/-- A list of items is a run of documents whose `Create` succeeds, each on the
context left by those before, followed by nothing or by a first item that is
nil or whose `Create` fails. -/
theorem split_at_first_failure (r : repository) (ctx : TxContext)
    (items : List (Option model.Document)) :
    ∃ pre rest, items = pre.map some ++ rest ∧
      (∀ p d q, pre = p ++ d :: q →
        (r.Create (r.contextAfter ctx p).now (some d)).1 = none) ∧
      (rest = [] ∨ ∃ bad post, rest = bad :: post ∧
        (bad = none ∨ ∃ d cause, bad = some d ∧
          (r.Create (r.contextAfter ctx pre).now (some d)).1 = some cause)) := by
  induction items generalizing ctx with
  | nil => exact ⟨[], [], rfl, (fun p d q hp => by cases p <;> cases hp), Or.inl rfl⟩
  | cons x items ih =>
    cases x with
    | none =>
      exact ⟨[], none :: items, rfl, (fun p d q hp => by cases p <;> cases hp),
        Or.inr ⟨none, items, rfl, Or.inl rfl⟩⟩
    | some doc =>
      cases hc : (r.Create ctx.now (some doc)).1 with
      | some cause =>
        exact ⟨[], some doc :: items, rfl, (fun p d q hp => by cases p <;> cases hp),
          Or.inr ⟨some doc, items, rfl, Or.inr ⟨doc, cause, rfl, hc⟩⟩⟩
      | none =>
        obtain ⟨pre, rest, hi, hpre, hrest⟩ := ih (ctx.after (r.Create ctx.now (some doc)).2)
        refine ⟨doc :: pre, rest, by rw [hi]; rfl, ?_, hrest⟩
        intro p d q hp
        cases p with
        | nil =>
          simp only [List.nil_append, List.cons.injEq] at hp
          rw [← hp.1]
          exact hc
        | cons d0 p =>
          simp only [List.cons_append, List.cons.injEq] at hp
          rw [← hp.1]
          exact hpre p d q hp.2

/-- What `CreateMany` returns on a list split at its first item that is nil
or whose `Create` fails. -/
theorem CreateMany_split (r : repository) (ctx : TxContext) (pre : List model.Document)
    (bad : Option model.Document) (post : List (Option model.Document))
    (hpre : ∀ p d q, pre = p ++ d :: q →
      (r.Create (r.contextAfter ctx p).now (some d)).1 = none) :
    (bad = none →
      r.CreateMany ctx (pre.map some ++ bad :: post) =
        ⟨some (GoError.errorString "Document cannot be empty"), pre, r.createCalls ctx pre⟩) ∧
    (∀ d cause, bad = some d →
      (r.Create (r.contextAfter ctx pre).now (some d)).1 = some cause →
      r.CreateMany ctx (pre.map some ++ bad :: post) =
        ⟨some (GoError.withMessage cause ("while creating Document with ID " ++ d.ID)),
          pre ++ [d], r.createCalls ctx (pre ++ [d])⟩) := by
  constructor
  · intro hb
    rw [CreateMany_append r ctx pre _ hpre, hb]
    simp [repository.CreateMany, errors.New]
  · intro d cause hb hc
    rw [CreateMany_append r ctx pre _ hpre, hb, CreateMany_cons_fail r _ d post cause hc,
      createCalls_append]
    simp [repository.createCalls]

/-- What `CreateMany` returns when every item is a document whose `Create`
succeeds. -/
theorem CreateMany_all (r : repository) (ctx : TxContext) (docs : List model.Document)
    (h : ∀ p d q, docs = p ++ d :: q →
      (r.Create (r.contextAfter ctx p).now (some d)).1 = none) :
    r.CreateMany ctx (docs.map some) = ⟨none, docs, r.createCalls ctx docs⟩ := by
  have ha := CreateMany_append r ctx docs [] h
  rw [List.append_nil] at ha
  rw [ha]
  simp [repository.CreateMany]

/-- C13: for every list of documents, `CreateMany` processes the items in list
order and stops at the first item that is nil or whose `Create` fails, every
`Create` being run on the transaction as the items before have left it: every
document before that item has been passed to `Create`, the item itself unless
it is nil, and no item after it, the statements executed being exactly those of
creating these documents in order; `CreateMany` returns nil if and only if
every item is non-nil and every `Create` succeeded, in particular for the
empty list; and every list is of one of the two kinds. -/
theorem CreateMany_stops_at_first_failure (r : repository) (ctx : TxContext)
    (items : List (Option model.Document)) :
    (∀ pre bad post, items = pre.map some ++ bad :: post →
      (∀ p d q, pre = p ++ d :: q →
        (r.Create (r.contextAfter ctx p).now (some d)).1 = none) →
      (bad = none ∨ ∃ d, bad = some d ∧
        (r.Create (r.contextAfter ctx pre).now (some d)).1 ≠ none) →
      (r.CreateMany ctx items).err ≠ none ∧
        (r.CreateMany ctx items).passed = pre ++ bad.toList ∧
        (r.CreateMany ctx items).calls = r.createCalls ctx (pre ++ bad.toList)) ∧
    (∀ docs, items = docs.map some →
      (∀ p d q, docs = p ++ d :: q →
        (r.Create (r.contextAfter ctx p).now (some d)).1 = none) →
      (r.CreateMany ctx items).err = none ∧ (r.CreateMany ctx items).passed = docs ∧
        (r.CreateMany ctx items).calls = r.createCalls ctx docs) ∧
    ((r.CreateMany ctx items).err = none ↔
      ∃ docs, items = docs.map some ∧
        ∀ p d q, docs = p ++ d :: q →
          (r.Create (r.contextAfter ctx p).now (some d)).1 = none) ∧
    ((∃ docs, items = docs.map some ∧
        ∀ p d q, docs = p ++ d :: q →
          (r.Create (r.contextAfter ctx p).now (some d)).1 = none) ∨
      ∃ pre bad post, items = pre.map some ++ bad :: post ∧
        (∀ p d q, pre = p ++ d :: q →
          (r.Create (r.contextAfter ctx p).now (some d)).1 = none) ∧
        (bad = none ∨ ∃ d, bad = some d ∧
          (r.Create (r.contextAfter ctx pre).now (some d)).1 ≠ none)) ∧
    r.CreateMany ctx [] = ⟨none, [], []⟩ := by
  have hstop : ∀ pre bad post, items = pre.map some ++ bad :: post →
      (∀ p d q, pre = p ++ d :: q →
        (r.Create (r.contextAfter ctx p).now (some d)).1 = none) →
      (bad = none ∨ ∃ d, bad = some d ∧
        (r.Create (r.contextAfter ctx pre).now (some d)).1 ≠ none) →
      (r.CreateMany ctx items).err ≠ none ∧
        (r.CreateMany ctx items).passed = pre ++ bad.toList ∧
        (r.CreateMany ctx items).calls = r.createCalls ctx (pre ++ bad.toList) := by
    intro pre bad post hi hpre hbad
    have hs := CreateMany_split r ctx pre bad post hpre
    rcases hbad with hb | ⟨d, hb, hne⟩
    · rw [hi, hs.1 hb, hb]
      simp
    · cases hc : (r.Create (r.contextAfter ctx pre).now (some d)).1 with
      | none => exact absurd hc hne
      | some cause =>
        rw [hi, hs.2 d cause hb hc, hb]
        simp
  have hall : ∀ docs, items = docs.map some →
      (∀ p d q, docs = p ++ d :: q →
        (r.Create (r.contextAfter ctx p).now (some d)).1 = none) →
      (r.CreateMany ctx items).err = none ∧ (r.CreateMany ctx items).passed = docs ∧
        (r.CreateMany ctx items).calls = r.createCalls ctx docs := by
    intro docs hi h
    rw [hi, CreateMany_all r ctx docs h]
    exact ⟨rfl, rfl, rfl⟩
  have hcover : (∃ docs, items = docs.map some ∧
        ∀ p d q, docs = p ++ d :: q →
          (r.Create (r.contextAfter ctx p).now (some d)).1 = none) ∨
      ∃ pre bad post, items = pre.map some ++ bad :: post ∧
        (∀ p d q, pre = p ++ d :: q →
          (r.Create (r.contextAfter ctx p).now (some d)).1 = none) ∧
        (bad = none ∨ ∃ d, bad = some d ∧
          (r.Create (r.contextAfter ctx pre).now (some d)).1 ≠ none) := by
    obtain ⟨pre, rest, hi, hpre, hrest⟩ := split_at_first_failure r ctx items
    rcases hrest with hr | ⟨bad, post, hr, hbad⟩
    · left
      refine ⟨pre, ?_, hpre⟩
      rw [hi, hr, List.append_nil]
    · right
      refine ⟨pre, bad, post, by rw [hi, hr], hpre, ?_⟩
      rcases hbad with hb | ⟨d, cause, hb, hc⟩
      · exact Or.inl hb
      · exact Or.inr ⟨d, hb, by rw [hc]; simp⟩
  refine ⟨hstop, hall, ?_, hcover, rfl⟩
  constructor
  · intro hnone
    rcases hcover with h | ⟨pre, bad, post, hi, hpre, hbad⟩
    · exact h
    · exact absurd hnone (hstop pre bad post hi hpre hbad).1
  · rintro ⟨docs, hi, h⟩
    exact (hall docs hi h).1

/-- The same document twice on a table keyed by `id`: the first insert goes
through, the second is refused because of the first, and `CreateMany` has
passed both to `Create` and fails naming the document. -/
theorem CreateMany_repeated_document :
    (sample.documents.Create sample.keyedTable.now (some ⟨"d1", "t1", "app1", "first"⟩)).1 =
      none ∧
    (sample.documents.CreateMany sample.keyedTable
      [some ⟨"d1", "t1", "app1", "first"⟩, some ⟨"d1", "t1", "app1", "first"⟩]).err =
      some (GoError.withMessage GoError.notUniqueError "while creating Document with ID d1") ∧
    (sample.documents.CreateMany sample.keyedTable
      [some ⟨"d1", "t1", "app1", "first"⟩, some ⟨"d1", "t1", "app1", "first"⟩]).passed =
      [⟨"d1", "t1", "app1", "first"⟩, ⟨"d1", "t1", "app1", "first"⟩] ∧
    (sample.documents.CreateMany sample.keyedTable
      [some ⟨"d1", "t1", "app1", "first"⟩, some ⟨"d1", "t1", "app1", "first"⟩]).calls.length =
      2 := by
  refine ⟨by decide, by decide, by decide, by decide⟩

end document

namespace document

open persistence

/-- C14, counterexample: on a batch whose second item is nil, `CreateMany`
creates the first document and returns the error 'Document cannot be empty',
which names no item ID: it is not a wrapped error with the ID of any
document. -/
theorem CreateMany_error_counterexample :
    (sample.documents.CreateMany (sample.steady (sample.tableHandle [] 0 0))
      [some ⟨"d1", "t1", "app1", "first"⟩, none]).err =
      some (GoError.errorString "Document cannot be empty") ∧
    (sample.documents.CreateMany (sample.steady (sample.tableHandle [] 0 0))
      [some ⟨"d1", "t1", "app1", "first"⟩, none]).passed = [⟨"d1", "t1", "app1", "first"⟩] ∧
    (sample.documents.CreateMany (sample.steady (sample.tableHandle [] 0 0))
      [some ⟨"d1", "t1", "app1", "first"⟩, none]).calls =
      (sample.documents.Create (sample.steady (sample.tableHandle [] 0 0)).now
        (some ⟨"d1", "t1", "app1", "first"⟩)).2 ∧
    ¬ ∃ (d : model.Document) (cause : GoError),
      (sample.documents.CreateMany (sample.steady (sample.tableHandle [] 0 0))
        [some ⟨"d1", "t1", "app1", "first"⟩, none]).err =
        some (GoError.withMessage cause ("while creating Document with ID " ++ d.ID)) := by
  have h : (sample.documents.CreateMany (sample.steady (sample.tableHandle [] 0 0))
      [some ⟨"d1", "t1", "app1", "first"⟩, none]).err =
      some (GoError.errorString "Document cannot be empty") := by decide
  refine ⟨h, by decide, rfl, ?_⟩
  rintro ⟨d, cause, hd⟩
  rw [h] at hd
  cases hd

/-- C14, amended: whenever document `CreateMany` returns an error, the batch
was aborted at the first item that is nil or whose `Create` failed, every
`Create` being run on the transaction as the items before have left it: the
statements executed are those of creating the documents before that item and
the item itself, and none for any item after it; for a nil item the error is
'Document cannot be empty', and for an item whose `Create` failed the error
reports which item failed: it is the error of that `Create` wrapped with the
message 'while creating Document with ID' followed by the ID of that item. -/
theorem CreateMany_error_reports_item (r : repository) (ctx : TxContext)
    (items : List (Option model.Document)) (e : GoError)
    (h : (r.CreateMany ctx items).err = some e) :
    ∃ pre bad post, items = pre.map some ++ bad :: post ∧
      (∀ p d q, pre = p ++ d :: q →
        (r.Create (r.contextAfter ctx p).now (some d)).1 = none) ∧
      (r.CreateMany ctx items).passed = pre ++ bad.toList ∧
      (r.CreateMany ctx items).calls = r.createCalls ctx (pre ++ bad.toList) ∧
      ((bad = none ∧ e = GoError.errorString "Document cannot be empty") ∨
        ∃ d cause, bad = some d ∧
          (r.Create (r.contextAfter ctx pre).now (some d)).1 = some cause ∧
          e = GoError.withMessage cause ("while creating Document with ID " ++ d.ID)) := by
  obtain ⟨pre, rest, hi, hpre, hrest⟩ := split_at_first_failure r ctx items
  rcases hrest with hr | ⟨bad, post, hr, hbad⟩
  · rw [hi, hr, List.append_nil, CreateMany_all r ctx pre hpre] at h
    cases h
  · have hs := CreateMany_split r ctx pre bad post hpre
    rw [hr] at hi
    refine ⟨pre, bad, post, hi, hpre, ?_⟩
    rcases hbad with hb | ⟨d, cause, hb, hc⟩
    · rw [hi, hs.1 hb] at h ⊢
      rw [hb]
      refine ⟨by simp, by simp, Or.inl ⟨rfl, ?_⟩⟩
      exact (Option.some.inj h).symm
    · rw [hi, hs.2 d cause hb hc] at h ⊢
      rw [hb]
      refine ⟨by simp, by simp, Or.inr ⟨d, cause, rfl, hc, ?_⟩⟩
      exact (Option.some.inj h).symm

/-- C14 as amended, on the same document twice on a table keyed by `id`: the
second insert is refused because of the first, and the error names the
document. -/
theorem CreateMany_error_reports_item_witness :
    (sample.documents.CreateMany sample.keyedTable
      [some ⟨"d1", "t1", "app1", "first"⟩, some ⟨"d1", "t1", "app1", "first"⟩]).err =
      some (GoError.withMessage GoError.notUniqueError "while creating Document with ID d1") ∧
    ∃ pre bad post,
      [some (model.Document.mk "d1" "t1" "app1" "first"), some ⟨"d1", "t1", "app1", "first"⟩] =
        pre.map some ++ bad :: post ∧
      (∀ p d q, pre = p ++ d :: q →
        (sample.documents.Create (sample.documents.contextAfter sample.keyedTable p).now
          (some d)).1 = none) ∧
      (sample.documents.CreateMany sample.keyedTable
        [some ⟨"d1", "t1", "app1", "first"⟩, some ⟨"d1", "t1", "app1", "first"⟩]).passed =
        pre ++ bad.toList ∧
      (sample.documents.CreateMany sample.keyedTable
        [some ⟨"d1", "t1", "app1", "first"⟩, some ⟨"d1", "t1", "app1", "first"⟩]).calls =
        sample.documents.createCalls sample.keyedTable (pre ++ bad.toList) ∧
      ((bad = none ∧
          GoError.withMessage GoError.notUniqueError "while creating Document with ID d1" =
            GoError.errorString "Document cannot be empty") ∨
        ∃ d cause, bad = some d ∧
          (sample.documents.Create (sample.documents.contextAfter sample.keyedTable pre).now
            (some d)).1 = some cause ∧
          GoError.withMessage GoError.notUniqueError "while creating Document with ID d1" =
            GoError.withMessage cause ("while creating Document with ID " ++ d.ID)) :=
  ⟨by decide,
    CreateMany_error_reports_item sample.documents sample.keyedTable
      [some ⟨"d1", "t1", "app1", "first"⟩, some ⟨"d1", "t1", "app1", "first"⟩]
      (GoError.withMessage GoError.notUniqueError "while creating Document with ID d1")
      (by decide)⟩

end document

/-! ## Theorems: the quoted application ID -/

namespace pq

/-- Doubling a character, one character at a time. -/
theorem doubleChar_cons (c x : Char) (s : List Char) :
    doubleChar c (x :: s) = (if x = c then [c, c] else [x]) ++ doubleChar c s := by
  simp [doubleChar]

/-- Doubling distributes over concatenation. -/
theorem doubleChar_append (c : Char) (s t : List Char) :
    doubleChar c (s ++ t) = doubleChar c s ++ doubleChar c t := by
  simp [doubleChar]

/-- Doubling one character neither adds nor removes another one. -/
theorem mem_doubleChar (c x : Char) (s : List Char) : x ∈ doubleChar c s ↔ x ∈ s := by
  induction s with
  | nil => simp [doubleChar]
  | cons y s ih =>
    rw [doubleChar_cons, List.mem_append, ih, List.mem_cons]
    by_cases hy : y = c
    · simp [hy]
    · simp [hy]

/-- A plain string constant with its quotes doubled reads back as the value. -/
theorem readBody_plain (s : List Char) :
    readBody false ReadState.body (doubleChar (Char.ofNat 39) s ++ [Char.ofNat 39]) =
      some s := by
  induction s with
  | nil => simp [doubleChar, readBody]
  | cons c s ih =>
    rw [doubleChar_cons]
    by_cases hc : c = Char.ofNat 39
    · simp only [hc, if_true, List.cons_append, List.nil_append, readBody, ih, Option.map_some']
    · simp only [hc, if_false, List.cons_append, List.nil_append, readBody, ih, Option.map_some',
        Bool.false_eq_true, false_and]

/-- An escape string constant with its quotes and then its backslashes doubled
reads back as the value. -/
theorem readBody_escape (s : List Char) :
    readBody true ReadState.body
      (doubleChar (Char.ofNat 92) (doubleChar (Char.ofNat 39) s) ++ [Char.ofNat 39]) =
      some s := by
  have hne : Char.ofNat 39 ≠ Char.ofNat 92 := by decide
  induction s with
  | nil => simp [doubleChar, readBody]
  | cons c s ih =>
    rw [doubleChar_cons, doubleChar_append]
    by_cases hq : c = Char.ofNat 39
    · have hd : doubleChar (Char.ofNat 92) [Char.ofNat 39, Char.ofNat 39] =
          [Char.ofNat 39, Char.ofNat 39] := by
        simp [doubleChar, hne]
      simp only [hq, if_true, hd, List.cons_append, List.nil_append, readBody, ih,
        Option.map_some']
    · by_cases hb : c = Char.ofNat 92
      · have hd : doubleChar (Char.ofNat 92) [Char.ofNat 92] =
            [Char.ofNat 92, Char.ofNat 92] := by
          simp [doubleChar]
        simp only [hb, hne.symm, if_false, if_true, hd, List.cons_append, List.nil_append,
          readBody, ih, Option.map_some', and_self, true_or]
      · have hd : doubleChar (Char.ofNat 92) [c] = [c] := by
          simp [doubleChar, hb]
        simp only [hq, hb, if_false, hd, List.cons_append, List.nil_append, readBody, ih,
          Option.map_some', and_false]

/-- The text `QuoteLiteral` produces: the plain form for a value without a
backslash, the escape form otherwise. -/
theorem QuoteLiteral_data (literal : String) :
    (Char.ofNat 92 ∉ literal.data →
      (QuoteLiteral literal).data =
        Char.ofNat 39 :: (doubleChar (Char.ofNat 39) literal.data ++ [Char.ofNat 39])) ∧
    (Char.ofNat 92 ∈ literal.data →
      (QuoteLiteral literal).data =
        ' ' :: 'E' :: Char.ofNat 39 ::
          (doubleChar (Char.ofNat 92) (doubleChar (Char.ofNat 39) literal.data) ++
            [Char.ofNat 39])) := by
  unfold QuoteLiteral
  constructor
  · intro h
    have h' : Char.ofNat 92 ∉ doubleChar (Char.ofNat 39) literal.data := by
      rw [mem_doubleChar]; exact h
    simp only [h', if_false]
    rfl
  · intro h
    have h' : Char.ofNat 92 ∈ doubleChar (Char.ofNat 39) literal.data := by
      rw [mem_doubleChar]; exact h
    simp only [h', if_true]
    rfl

/-- Reading what `QuoteLiteral` wrote gives the value back. -/
theorem readLiteral_QuoteLiteral (literal : String) :
    readLiteral (QuoteLiteral literal) = some literal := by
  unfold readLiteral
  by_cases h : Char.ofNat 92 ∈ literal.data
  · rw [(QuoteLiteral_data literal).2 h]
    simp only [if_true, readBody_escape, Option.map_some']
  · rw [(QuoteLiteral_data literal).1 h]
    have hq : Char.ofNat 39 ≠ ' ' := by decide
    split
    · rename_i q cs heq
      exact absurd (List.cons.inj heq).1 hq
    · rename_i q cs _ heq
      obtain ⟨h1, h2⟩ := List.cons.inj heq
      rw [← h1, ← h2]
      simp only [if_true, readBody_plain, Option.map_some']
    · rename_i heq
      exact absurd heq (List.cons_ne_nil _ _)

end pq

/-- C15: for every applicationID string, the extra condition that Document
`ListByApplicationID` appends to the `List` statement is `app_id = ` followed
by one quoted string literal as `pq.QuoteLiteral` writes it: the value in
single quotes with every single quote doubled, and for a value with a backslash
every backslash doubled and the literal opened by ` E`; read as a string
constant, the literal ends exactly at its last character and yields
applicationID, so no character of applicationID ends the literal. -/
theorem appCondition_quoted (r : document.repository) (applicationID : String)
    (pg : pagination.Functions) (ctx : persistence.Context) (tenant : String) (pageSize : Int)
    (cursor : String) :
    document.repository.appCondition applicationID =
      "app_id = " ++ pq.QuoteLiteral applicationID ∧
    (r.ListByApplicationID pg ctx tenant applicationID pageSize cursor).2 =
      (r.PageableQuerier.List pg ctx tenant pageSize cursor "id" []
        ["app_id = " ++ pq.QuoteLiteral applicationID]).calls ∧
    r.PageableQuerier.stmtWithoutPagination ["app_id = " ++ pq.QuoteLiteral applicationID] =
      r.PageableQuerier.stmtWithoutPagination [] ++ " AND " ++ "app_id = " ++
        pq.QuoteLiteral applicationID ∧
    (Char.ofNat 92 ∉ applicationID.data →
      (pq.QuoteLiteral applicationID).data =
        Char.ofNat 39 :: (pq.doubleChar (Char.ofNat 39) applicationID.data ++ [Char.ofNat 39])) ∧
    (Char.ofNat 92 ∈ applicationID.data →
      (pq.QuoteLiteral applicationID).data =
        ' ' :: 'E' :: Char.ofNat 39 ::
          (pq.doubleChar (Char.ofNat 92) (pq.doubleChar (Char.ofNat 39) applicationID.data) ++
            [Char.ofNat 39])) ∧
    pq.readLiteral (pq.QuoteLiteral applicationID) = some applicationID := by
  have hc : document.repository.appCondition applicationID =
      "app_id = " ++ pq.QuoteLiteral applicationID := by
    unfold document.repository.appCondition
    rfl
  refine ⟨hc, ?_, ?_, (pq.QuoteLiteral_data applicationID).1, (pq.QuoteLiteral_data applicationID).2,
    pq.readLiteral_QuoteLiteral applicationID⟩
  · rw [document.ListByApplicationID_calls, hc]
  · simp only [repo.PageableQuerier.stmtWithoutPagination, repo.buildSelectStatement,
      List.foldl_cons, List.foldl_nil, String.append_assoc]

/-- The condition for an application ID with a quote in it, and a text that
is more than one literal. -/
theorem appCondition_sample :
    document.repository.appCondition "a'b" = "app_id = 'a''b'" ∧
    pq.readLiteral "'a''b'" = some "a'b" ∧
    pq.readLiteral "'a' OR ''='" = none := by
  decide

/-! ## Theorems: writes and listings of the in-memory application repository -/

namespace application

open persistence

/-- An operation on an item with another ID leaves the entry under `k` as it
is. -/
theorem other_id_untouched (r : inMemoryRepository) (k : String) (item : model.Application)
    (h : k ≠ item.ID) :
    (r.Create (some item)).1.store.lookup k = r.store.lookup k ∧
    (r.Update (some item)).1.store.lookup k = r.store.lookup k ∧
    (r.Delete (some item)).1.store.lookup k = r.store.lookup k := by
  refine ⟨?_, ?_, ?_⟩
  · rcases create_store r item with hc | hc <;> rw [hc]
    exact AList.lookup_insert_ne h
  · rcases update_store r item with hc | hc <;> rw [hc]
    exact AList.lookup_insert_ne h
  · simp only [inMemoryRepository.Delete]
    exact AList.lookup_erase_ne h

/-- C16, evaluation at the failing inputs: in the store holding the application
`a1` of tenant `t1`, a `Delete`, an `Update` and a `Create` called with an item
of tenant `t2` that carries the ID `a1` each succeed and remove or replace the
application of tenant `t1`, while `GetByID` under tenant `t2` does not find
it. -/
theorem mutation_across_tenants_failing_input :
    (NewRepository.Create (some ⟨"a1", "t1", "app", "d"⟩)).1.store.lookup "a1" =
      some ⟨"a1", "t1", "app", "d"⟩ ∧
    (NewRepository.Create (some ⟨"a1", "t1", "app", "d"⟩)).1.GetByID "t2" "a1" =
      (none, errors.New "application not found") ∧
    ((NewRepository.Create (some ⟨"a1", "t1", "app", "d"⟩)).1.Delete
      (some ⟨"a1", "t2", "other", "x"⟩)).2 = none ∧
    ((NewRepository.Create (some ⟨"a1", "t1", "app", "d"⟩)).1.Delete
      (some ⟨"a1", "t2", "other", "x"⟩)).1.store.lookup "a1" = none ∧
    ((NewRepository.Create (some ⟨"a1", "t1", "app", "d"⟩)).1.Update
      (some ⟨"a1", "t2", "other", "x"⟩)).2 = none ∧
    ((NewRepository.Create (some ⟨"a1", "t1", "app", "d"⟩)).1.Update
      (some ⟨"a1", "t2", "other", "x"⟩)).1.store.lookup "a1" =
      some ⟨"a1", "t2", "other", "x"⟩ ∧
    ((NewRepository.Create (some ⟨"a1", "t1", "app", "d"⟩)).1.Create
      (some ⟨"a1", "t2", "other", "x"⟩)).2 = none ∧
    ((NewRepository.Create (some ⟨"a1", "t1", "app", "d"⟩)).1.Create
      (some ⟨"a1", "t2", "other", "x"⟩)).1.store.lookup "a1" =
      some ⟨"a1", "t2", "other", "x"⟩ := by
  decide

/-- When the select of `ListByScenarios` fails, the failure is dropped: the
method returns the empty page and no error. -/
theorem ListByScenarios_select_error (r : inMemoryRepository)
    (FilterQuery : model.LabelableObject → label.SetCombination → String →
      List labelfilter.LabelFilter → Except GoError String)
    (ctx : Context) (persist : PersistenceOp) (tenantUUID : String) (scenarios : List String)
    (pageSize : Option Int) (cursor : Option String) (stmt : String) (e : GoError)
    (hp : FromCtx ctx = Except.ok persist)
    (hq : ∀ filters, FilterQuery model.LabelableObject.ApplicationLabelableObject
      label.SetCombination.UnionSet tenantUUID filters = Except.ok stmt)
    (hs : persist.SelectStrings stmt [] = Except.error e) :
    ListByScenarios r FilterQuery ctx tenantUUID scenarios pageSize cursor =
      ((some emptyPage, none), [Call.Select stmt []]) := by
  unfold ListByScenarios
  simp only [hp, hq, hs]

/-- C17, evaluation at the failing input: on a transaction handle whose select
fails with 'connection lost', `ListByScenarios` executes the scenario query
and returns the empty page with a nil error; the failure does not reach the
caller. -/
theorem ListByScenarios_failing_input :
    (sample.failingHandle (GoError.errorString "connection lost")).SelectStrings
      "SELECT app_id FROM labels" [] =
      Except.error (GoError.errorString "connection lost") ∧
    ListByScenarios (NewRepository.Create (some ⟨"a1", "t1", "app", "d"⟩)).1
      (fun _ _ _ _ => Except.ok "SELECT app_id FROM labels")
      ⟨some (sample.failingHandle (GoError.errorString "connection lost"))⟩ "t1" ["DEFAULT"]
      none none =
      ((some ⟨[], 0, ⟨"", "", false⟩⟩, none), [Call.Select "SELECT app_id FROM labels" []]) :=
  ⟨rfl, by decide⟩

/-- C18: for every store and tenant, the in-memory `List` never fails and
returns a page whose `Data` holds exactly the stored applications whose
`Tenant` equals the given tenant, each exactly once: it lists the entries
under a duplicate-free list of exactly the keys of that tenant, and in a
reachable store no application is listed twice; `TotalCount = len(Data)`,
`HasNextPage = false` and both cursors are empty, whatever filter, page size
and cursor are passed. -/
theorem List_exact (r : inMemoryRepository) (tenant : String)
    (filter : List (String × Option String)) (pageSize : Option Int) (cursor : Option String) :
    ∃ page, r.List tenant filter pageSize cursor = (some page, none) ∧
      (∀ a, a ∈ page.Data ↔ ∃ k, r.store.lookup k = some a ∧ a.Tenant = tenant) ∧
      (∃ keys : List String, keys.Nodup ∧
        (∀ k, k ∈ keys ↔ ∃ a, r.store.lookup k = some a ∧ a.Tenant = tenant) ∧
        page.Data = keys.filterMap (fun k => r.store.lookup k)) ∧
      (Reachable r → page.Data.Nodup) ∧
      page.TotalCount = page.Data.length ∧
      page.PageInfo = ⟨"", "", false⟩ := by
  have hmem : ∀ (e : Sigma (fun _ : String => model.Application)),
      e ∈ r.store.entries ↔ r.store.lookup e.1 = some e.2 := by
    intro e
    rw [← Option.mem_def, AList.mem_lookup_iff]
  refine ⟨_, rfl, ?_, ⟨(r.store.entries.filter (fun item => item.2.Tenant == tenant)).map
    (fun item => item.1), ?_, ?_, ?_⟩, ?_, rfl, rfl⟩
  · intro a
    simp only [List.mem_map, List.mem_filter, beq_iff_eq]
    constructor
    · rintro ⟨e, ⟨he, ht⟩, rfl⟩
      exact ⟨e.1, (hmem e).mp he, ht⟩
    · rintro ⟨k, hk, ht⟩
      exact ⟨⟨k, a⟩, ⟨(hmem ⟨k, a⟩).mpr hk, ht⟩, rfl⟩
  · have hnd : (r.store.entries.map (fun item => item.1)).Nodup := r.store.nodupKeys
    exact List.Nodup.sublist (List.Sublist.map _ (List.filter_sublist _)) hnd
  · intro k
    simp only [List.mem_map, List.mem_filter, beq_iff_eq]
    constructor
    · rintro ⟨e, ⟨he, ht⟩, rfl⟩
      exact ⟨e.2, (hmem e).mp he, ht⟩
    · rintro ⟨a, hk, ht⟩
      exact ⟨⟨k, a⟩, ⟨(hmem ⟨k, a⟩).mpr hk, ht⟩, rfl⟩
  · rw [List.filterMap_map]
    symm
    rw [List.filterMap_eq_map_iff_forall_eq_some]
    intro e he
    exact (hmem e).mp (List.mem_filter.mp he).1
  · intro hr
    have hk := reachable_keyedByID hr
    apply List.Nodup.map_on
    · intro x hx y hy hxy
      have hx' := (hmem x).mp (List.mem_filter.mp hx).1
      have hy' := (hmem y).mp (List.mem_filter.mp hy).1
      have h1 := hk x.1 x.2 hx'
      have h2 := hk y.1 y.2 hy'
      have hkey : x.1 = y.1 := by rw [← h1, ← h2, hxy]
      cases x with
      | mk xk xv =>
        cases y with
        | mk yk yv =>
          simp only at hkey hxy
          subst hkey
          subst hxy
          rfl
    · exact List.Nodup.filter _ r.store.nodupKeys.nodup

end application

/-! ## Theorems: deleting labels and label definitions -/

namespace label

/-- A label uses a key in a tenant when its tenant and key are these. -/
theorem Label.uses_iff {V : Type} (l : Label V) (tenant key : String) :
    l.uses tenant key = true ↔ l.Tenant = tenant ∧ l.Key = key := by
  simp [Label.uses]

/-- A label definition is the one of a key in a tenant when its tenant and key
are these. -/
theorem LabelDefinition.isAt_iff {S : Type} (d : LabelDefinition S) (tenant key : String) :
    d.isAt tenant key = true ↔ d.Tenant = tenant ∧ d.Key = key := by
  simp [LabelDefinition.isAt]

/-- A stored label definition can be read. -/
theorem getLabelDefinition_of_exists {V S : Type} (st : State V S) (tenant key : String)
    (h : ∃ d ∈ st.definitions, d.Tenant = tenant ∧ d.Key = key) :
    ∃ d, getLabelDefinition st tenant key = Except.ok d := by
  unfold getLabelDefinition
  cases hf : st.definitions.find? (fun d => d.isAt tenant key) with
  | some d => exact ⟨d, rfl⟩
  | none =>
    obtain ⟨d, hd, ht⟩ := h
    have := List.find?_eq_none.mp hf d hd
    exact absurd ((LabelDefinition.isAt_iff d tenant key).mpr ht) this

/-- Reading a label definition that is not stored fails as not existing. -/
theorem getLabelDefinition_of_not_exists {V S : Type} (st : State V S) (tenant key : String)
    (h : ∀ d ∈ st.definitions, ¬ (d.Tenant = tenant ∧ d.Key = key)) :
    getLabelDefinition st tenant key =
      Except.error
        (GoError.errorString ("label definition with key '" ++ key ++ "' does not exist")) := by
  unfold getLabelDefinition
  have hf : st.definitions.find? (fun d => d.isAt tenant key) = none := by
    rw [List.find?_eq_none]
    intro d hd hat
    exact h d hd ((LabelDefinition.isAt_iff d tenant key).mp hat)
  rw [hf]

/-- What a deletion that goes through leaves, under a key other than the
reserved one: the labels that do not use the key and the definitions under
other keys. -/
theorem deleteLabelDefinition_done {V S : Type} (st : State V S) (tenant key : String)
    (cascade : Bool) (hkey : key ≠ model.ScenariosKey)
    (h : ∃ d ∈ st.definitions, d.Tenant = tenant ∧ d.Key = key)
    (hgo : (st.labels.any (fun l => l.uses tenant key) && !cascade) = false) :
    deleteLabelDefinition st tenant key cascade =
      ({ labels := st.labels.filter (fun l => !l.uses tenant key)
         definitions := st.definitions.filter (fun d => !d.isAt tenant key) },
        none) := by
  obtain ⟨d, hd⟩ := getLabelDefinition_of_exists st tenant key h
  unfold deleteLabelDefinition
  rw [if_neg hkey, hd]
  simp only [hgo, Bool.false_eq_true, if_false]

/-- C19: deleting the label with the reserved key `scenarios` from an entity is
always rejected: for every application, `deleteLabel(tenant, applicationID,
"scenarios")` fails with the error 'scenarios label can not be deleted from
application', and every label, the entity's scenarios label among them, is
left in place. -/
theorem deleteLabel_scenarios_rejected {V S : Type} (st : State V S)
    (tenant applicationID : String) :
    deleteLabel st tenant applicationID "scenarios" =
      (st, none,
        some (GoError.errorString "scenarios label can not be deleted from application")) ∧
    (∀ l ∈ st.labels, l ∈ (deleteLabel st tenant applicationID "scenarios").1.labels) := by
  have h : deleteLabel st tenant applicationID "scenarios" =
      (st, none,
        some (GoError.errorString "scenarios label can not be deleted from application")) := by
    unfold deleteLabel
    rw [if_pos (by rfl)]
    rfl
  refine ⟨h, ?_⟩
  intro l hl
  rw [h]
  exact hl

/-- C20, counterexample: the tenant has the `scenarios` definition and an
application labelled under `scenarios`; the deletion of that definition with
`cascade = true` removes nothing: it is rejected, every label and the
definition remain and the definition can still be read; and when no label uses
the key `scenarios`, the deletion with `cascade = false` does not succeed
either. -/
theorem deleteLabelDefinition_cascade_counterexample :
    (∃ d ∈ sample.labelState.definitions, d.Tenant = "t1" ∧ d.Key = "scenarios") ∧
    (∃ l ∈ sample.labelState.labels, l.Tenant = "t1" ∧ l.Key = "scenarios") ∧
    deleteLabelDefinition sample.labelState "t1" "scenarios" true =
      (sample.labelState,
        some (GoError.errorString "label definition with key scenarios can not be deleted")) ∧
    getLabelDefinition (deleteLabelDefinition sample.labelState "t1" "scenarios" true).1 "t1"
        "scenarios" =
      Except.ok ⟨"t1", "scenarios", some "enum"⟩ ∧
    deleteLabelDefinition
        ({ labels := [], definitions := sample.labelState.definitions } : State String String)
        "t1" "scenarios" false =
      ({ labels := [], definitions := sample.labelState.definitions },
        some (GoError.errorString "label definition with key scenarios can not be deleted")) :=
  ⟨by decide, by decide, by decide, rfl, by decide⟩

/-- C20, amended: deleting a label definition under a key other than the
reserved key `scenarios` whose key is used by at least one label: with
`cascade = false` the deletion fails with 'could not delete label definition,
it is already used by at least one label' and every label and the definition
remain; with `cascade = true` it removes every label with that key from every
entity and the definition itself, keeps all other labels and definitions, and
reading the definition afterwards fails as not existing; and when no label
uses the key, deletion with `cascade = false` succeeds. -/
theorem deleteLabelDefinition_cascade {V S : Type} (st : State V S) (tenant key : String)
    (hkey : key ≠ model.ScenariosKey)
    (hdef : ∃ d ∈ st.definitions, d.Tenant = tenant ∧ d.Key = key)
    (hused : ∃ l ∈ st.labels, l.Tenant = tenant ∧ l.Key = key) :
    deleteLabelDefinition st tenant key false =
      (st,
        some (GoError.errorString
          "could not delete label definition, it is already used by at least one label")) ∧
    (deleteLabelDefinition st tenant key true).2 = none ∧
    (∀ l ∈ (deleteLabelDefinition st tenant key true).1.labels,
      ¬ (l.Tenant = tenant ∧ l.Key = key)) ∧
    (∀ l ∈ st.labels, ¬ (l.Tenant = tenant ∧ l.Key = key) →
      l ∈ (deleteLabelDefinition st tenant key true).1.labels) ∧
    (∀ d ∈ (deleteLabelDefinition st tenant key true).1.definitions,
      ¬ (d.Tenant = tenant ∧ d.Key = key)) ∧
    (∀ d ∈ st.definitions, ¬ (d.Tenant = tenant ∧ d.Key = key) →
      d ∈ (deleteLabelDefinition st tenant key true).1.definitions) ∧
    getLabelDefinition (deleteLabelDefinition st tenant key true).1 tenant key =
      Except.error
        (GoError.errorString ("label definition with key '" ++ key ++ "' does not exist")) ∧
    (∀ st' : State V S, (∃ d ∈ st'.definitions, d.Tenant = tenant ∧ d.Key = key) →
      (∀ l ∈ st'.labels, ¬ (l.Tenant = tenant ∧ l.Key = key)) →
      (deleteLabelDefinition st' tenant key false).2 = none ∧
        (deleteLabelDefinition st' tenant key false).1.labels = st'.labels ∧
        getLabelDefinition (deleteLabelDefinition st' tenant key false).1 tenant key =
          Except.error
            (GoError.errorString
              ("label definition with key '" ++ key ++ "' does not exist"))) := by
  have hany : st.labels.any (fun l => l.uses tenant key) = true := by
    obtain ⟨l, hl, ht⟩ := hused
    rw [List.any_eq_true]
    exact ⟨l, hl, (Label.uses_iff l tenant key).mpr ht⟩
  have hgone : ∀ (defs : List (LabelDefinition S)),
      ∀ d ∈ defs.filter (fun d => !d.isAt tenant key), ¬ (d.Tenant = tenant ∧ d.Key = key) := by
    intro defs d hd ht
    have := (List.mem_filter.mp hd).2
    rw [(LabelDefinition.isAt_iff d tenant key).mpr ht] at this
    simp at this
  have htrue := deleteLabelDefinition_done st tenant key true hkey hdef (by simp)
  refine ⟨?_, ?_, ?_, ?_, ?_, ?_, ?_, ?_⟩
  · obtain ⟨d, hd⟩ := getLabelDefinition_of_exists st tenant key hdef
    unfold deleteLabelDefinition
    rw [if_neg hkey, hd]
    simp only [hany, Bool.not_false, Bool.and_self, if_true]
    rfl
  · rw [htrue]
  · rw [htrue]
    intro l hl ht
    have := (List.mem_filter.mp hl).2
    rw [(Label.uses_iff l tenant key).mpr ht] at this
    simp at this
  · rw [htrue]
    intro l hl hn
    refine List.mem_filter.mpr ⟨hl, ?_⟩
    cases hu : l.uses tenant key with
    | false => rfl
    | true => exact absurd ((Label.uses_iff l tenant key).mp hu) hn
  · rw [htrue]
    exact hgone st.definitions
  · rw [htrue]
    intro d hd hn
    refine List.mem_filter.mpr ⟨hd, ?_⟩
    cases hu : d.isAt tenant key with
    | false => rfl
    | true => exact absurd ((LabelDefinition.isAt_iff d tenant key).mp hu) hn
  · rw [htrue]
    exact getLabelDefinition_of_not_exists _ tenant key (hgone st.definitions)
  · intro st' hdef' hunused
    have hany' : st'.labels.any (fun l => l.uses tenant key) = false := by
      rw [Bool.eq_false_iff]
      intro hc
      obtain ⟨l, hl, hu⟩ := List.any_eq_true.mp hc
      exact hunused l hl ((Label.uses_iff l tenant key).mp hu)
    have hdone := deleteLabelDefinition_done st' tenant key false hkey hdef' (by simp [hany'])
    rw [hdone]
    refine ⟨rfl, ?_, getLabelDefinition_of_not_exists _ tenant key (hgone st'.definitions)⟩
    simp only
    rw [List.filter_eq_self]
    intro l hl
    cases hu : l.uses tenant key with
    | false => rfl
    | true => exact absurd ((Label.uses_iff l tenant key).mp hu) (hunused l hl)

end label

namespace label

/-- C20 as amended, on the sample labels: the key `foo` is used by a label of an
application and a label of a runtime; the deletion without cascade is refused,
the deletion with cascade leaves only the label and the definition under the
other key. -/
theorem deleteLabelDefinition_cascade_witness :
    "foo" ≠ model.ScenariosKey ∧
    (∃ d ∈ sample.labelState.definitions, d.Tenant = "t1" ∧ d.Key = "foo") ∧
    (∃ l ∈ sample.labelState.labels, l.Tenant = "t1" ∧ l.Key = "foo") ∧
    deleteLabelDefinition sample.labelState "t1" "foo" false =
      (sample.labelState,
        some (GoError.errorString
          "could not delete label definition, it is already used by at least one label")) ∧
    (deleteLabelDefinition sample.labelState "t1" "foo" true).2 = none ∧
    (deleteLabelDefinition sample.labelState "t1" "foo" true).1 =
      { labels :=
          [⟨"t1", model.LabelableObject.ApplicationLabelableObject, "app1", "scenarios",
            "DEFAULT"⟩]
        definitions := [⟨"t1", "scenarios", some "enum"⟩] } ∧
    getLabelDefinition (deleteLabelDefinition sample.labelState "t1" "foo" true).1 "t1" "foo" =
      Except.error
        (GoError.errorString ("label definition with key '" ++ "foo" ++ "' does not exist")) :=
  have h := deleteLabelDefinition_cascade sample.labelState "t1" "foo" (by decide)
    ⟨⟨"t1", "foo", some "schema"⟩, by decide, rfl, rfl⟩
    ⟨⟨"t1", model.LabelableObject.ApplicationLabelableObject, "app1", "foo", "app"⟩, by decide,
      rfl, rfl⟩
  ⟨by decide, by decide, by decide, h.1, h.2.1, by decide, h.2.2.2.2.2.2.1⟩

end label

/-! ## Theorems: fetch requests by reference object -/

namespace fetchrequest

open persistence

/-- The switch of `referenceObjectFieldName` either names a column without an
error or gives the empty name with the mapping error. -/
theorem referenceObjectFieldName_cases (r : repository)
    (objectType : model.FetchRequestReferenceObjectType) :
    ((objectType = model.DocumentFetchRequestReference ∨
        objectType = model.APIFetchRequestReference ∨
        objectType = model.EventAPIFetchRequestReference) ∧
      ∃ fieldName, r.referenceObjectFieldName objectType = (fieldName, none)) ∨
    ((objectType ≠ model.DocumentFetchRequestReference ∧
        objectType ≠ model.APIFetchRequestReference ∧
        objectType ≠ model.EventAPIFetchRequestReference) ∧
      r.referenceObjectFieldName objectType =
        ("", errors.New "Invalid type of the Fetch Request reference object")) := by
  unfold repository.referenceObjectFieldName
  by_cases h1 : objectType = model.DocumentFetchRequestReference
  · left; exact ⟨Or.inl h1, _, by rw [if_pos h1]⟩
  · by_cases h2 : objectType = model.APIFetchRequestReference
    · left; exact ⟨Or.inr (Or.inl h2), _, by rw [if_neg h1, if_pos h2]⟩
    · by_cases h3 : objectType = model.EventAPIFetchRequestReference
      · left; exact ⟨Or.inr (Or.inr h3), _, by rw [if_neg h1, if_neg h2, if_pos h3]⟩
      · right; exact ⟨⟨h1, h2, h3⟩, by rw [if_neg h1, if_neg h2, if_neg h3]⟩

/-- C23: for each of the three known reference kinds,
`referenceObjectFieldName` gives a column without an error, and with it
`GetByReferenceObjectID` calls `SingleGetter.Get` and
`DeleteByReferenceObjectID` calls `Deleter.DeleteMany` with the context, the
tenant and exactly one equality condition, whose field is that column and
whose value is objectID: what the read returns is made of the answer of `Get`
to that call, the delete returns the answer of `DeleteMany` to that call, and
the call is the only one made; for an unrecognized reference kind both return
the mapping error without calling any primitive. -/
theorem reference_object_calls (r : repository) (ctx : Context) (tenant objectID : String)
    (objectType : model.FetchRequestReferenceObjectType) :
    ((objectType = model.DocumentFetchRequestReference ∨
        objectType = model.APIFetchRequestReference ∨
        objectType = model.EventAPIFetchRequestReference) →
      (r.referenceObjectFieldName objectType).2 = none ∧
      (∀ entity err,
        r.SingleGetter.Get ctx tenant [⟨(r.referenceObjectFieldName objectType).1, objectID⟩]
          [] = (entity, some err) →
        r.GetByReferenceObjectID ctx tenant objectType objectID =
          ((none, some err),
            [repo.PrimitiveCall.Get tenant
              [⟨(r.referenceObjectFieldName objectType).1, objectID⟩]])) ∧
      (∀ entity err,
        r.SingleGetter.Get ctx tenant [⟨(r.referenceObjectFieldName objectType).1, objectID⟩]
          [] = (entity, none) →
        r.conv.FromEntity entity = Except.error err →
        r.GetByReferenceObjectID ctx tenant objectType objectID =
          ((none,
              some (GoError.withMessage err "while creating FetchRequest model from entity")),
            [repo.PrimitiveCall.Get tenant
              [⟨(r.referenceObjectFieldName objectType).1, objectID⟩]])) ∧
      (∀ entity frModel,
        r.SingleGetter.Get ctx tenant [⟨(r.referenceObjectFieldName objectType).1, objectID⟩]
          [] = (entity, none) →
        r.conv.FromEntity entity = Except.ok frModel →
        r.GetByReferenceObjectID ctx tenant objectType objectID =
          ((some frModel, none),
            [repo.PrimitiveCall.Get tenant
              [⟨(r.referenceObjectFieldName objectType).1, objectID⟩]])) ∧
      (r.GetByReferenceObjectID ctx tenant objectType objectID).2 =
        [repo.PrimitiveCall.Get tenant
          [⟨(r.referenceObjectFieldName objectType).1, objectID⟩]] ∧
      r.DeleteByReferenceObjectID ctx tenant objectType objectID =
        (r.Deleter.DeleteMany ctx tenant [⟨(r.referenceObjectFieldName objectType).1, objectID⟩],
          [repo.PrimitiveCall.DeleteMany tenant
            [⟨(r.referenceObjectFieldName objectType).1, objectID⟩]])) ∧
    ((objectType ≠ model.DocumentFetchRequestReference ∧
        objectType ≠ model.APIFetchRequestReference ∧
        objectType ≠ model.EventAPIFetchRequestReference) →
      r.GetByReferenceObjectID ctx tenant objectType objectID =
        ((none, errors.New "Invalid type of the Fetch Request reference object"), []) ∧
      r.DeleteByReferenceObjectID ctx tenant objectType objectID =
        (errors.New "Invalid type of the Fetch Request reference object", [])) := by
  have hget := GetByReferenceObjectID_of_Get r ctx tenant objectType objectID
  have hdel := DeleteByReferenceObjectID_of_DeleteMany r ctx tenant objectType objectID
  constructor
  · intro hk
    rcases referenceObjectFieldName_cases r objectType with ⟨-, fieldName, hf⟩ | ⟨⟨h1, h2, h3⟩, -⟩
    · rw [hf]
      refine ⟨rfl, fun entity err => hget.2.1 fieldName entity err hf,
        fun entity err => hget.2.2.1 fieldName entity err hf,
        fun entity frModel => hget.2.2.2 fieldName entity frModel hf, ?_, hdel.2 fieldName hf⟩
      rcases hg : r.SingleGetter.Get ctx tenant [⟨fieldName, objectID⟩] [] with ⟨entity, e⟩
      cases e with
      | some e => rw [hget.2.1 fieldName entity e hf hg]
      | none =>
        cases hc : r.conv.FromEntity entity with
        | error e => rw [hget.2.2.1 fieldName entity e hf hg hc]
        | ok frModel => rw [hget.2.2.2 fieldName entity frModel hf hg hc]
    · rcases hk with h | h | h
      · exact absurd h h1
      · exact absurd h h2
      · exact absurd h h3
  · intro hn
    rcases referenceObjectFieldName_cases r objectType with ⟨hk, -⟩ | ⟨-, hf⟩
    · rcases hk with h | h | h
      · exact absurd h hn.1
      · exact absurd h hn.2.1
      · exact absurd h hn.2.2
    · exact ⟨hget.1 _ _ hf, hdel.1 _ _ hf⟩

end fetchrequest

/-! ## Theorems: what `Creator.Create` returns and issues -/

namespace repo

open persistence

/-- The statement of a creator is the insert statement of its table name and
column list. -/
theorem Creator.stmt_eq_spec (c : Creator) : c.stmt = insertStatementSpec c.tableName c.columns := by
  unfold Creator.stmt insertStatementSpec
  rw [Creator.values_eq_map]

/-- With a non-nil entity and a transaction handle, `Create` returns the
error of the storage call, translated or wrapped, and nil for a nil error. -/
theorem Creator.Create_with_handle (c : Creator) (ctx : Context) (persist : PersistenceOp)
    (entity : Row) (hp : FromCtx ctx = Except.ok persist) :
    ((c.Create ctx (some entity)).1 = none ↔ persist.NamedExec c.stmt entity = none) ∧
    (c.Create ctx (some entity)).2 = [Call.NamedExec c.stmt entity] := by
  unfold Creator.Create
  simp only [hp]
  cases hx : persist.NamedExec c.stmt entity with
  | none => simp [errors.Wrap]
  | some e =>
    cases e with
    | pqError code =>
      by_cases hc : code = UniqueViolation
      · simp [hc]
      · simp [hc, errors.Wrap]
    | errorString msg => simp [errors.Wrap]
    | withMessage cause msg => simp [errors.Wrap]
    | notUniqueError => simp [errors.Wrap]

/-- C24: `Creator.Create` returns nil exactly on success: it returns nil if and
only if the entity is non-nil, a transaction handle is present and the storage
call returns no error, in which case the statement was executed once; and if
the entity is nil it returns the error 'item cannot be nil' whatever the
context holds, without executing anything. -/
theorem Create_nil_iff_success (c : Creator) (ctx : Context) (dbEntity : Option Row) :
    ((c.Create ctx dbEntity).1 = none ↔
      ∃ entity persist, dbEntity = some entity ∧ FromCtx ctx = Except.ok persist ∧
        persist.NamedExec c.stmt entity = none) ∧
    (∀ entity persist, dbEntity = some entity → FromCtx ctx = Except.ok persist →
      persist.NamedExec c.stmt entity = none →
      c.Create ctx dbEntity = (none, [Call.NamedExec c.stmt entity])) ∧
    c.Create ctx none = (some (GoError.errorString "item cannot be nil"), []) := by
  refine ⟨?_, ?_, rfl⟩
  · constructor
    · intro h
      cases dbEntity with
      | none => simp [Creator.Create, errors.New] at h
      | some entity =>
        cases hp : FromCtx ctx with
        | error e => simp [Creator.Create, hp] at h
        | ok persist =>
          exact ⟨entity, persist, rfl, rfl, ((Creator.Create_with_handle c ctx persist entity hp).1).mp h⟩
    · rintro ⟨entity, persist, he, hp, hx⟩
      rw [he]
      exact ((Creator.Create_with_handle c ctx persist entity hp).1).mpr hx
  · intro entity persist he hp hx
    rw [he]
    have h := Creator.Create_with_handle c ctx persist entity hp
    exact Prod.ext (h.1.mpr hx) h.2

/-- C29: the INSERT statement text that `Creator.Create` executes depends only
on the creator's table name and column list: whatever the entity and the
context, every call it makes is the named execution of the insert statement of
the table name and the columns, with the entity as its argument; so for any two
non-nil entities the same creator issues the identical statement text. -/
theorem Create_statement_independent (c : Creator) (ctx₁ ctx₂ : Context) (e₁ e₂ : Row) :
    (∀ call ∈ (c.Create ctx₁ (some e₁)).2,
      call = Call.NamedExec (insertStatementSpec c.tableName c.columns) e₁) ∧
    (∀ call₁ ∈ (c.Create ctx₁ (some e₁)).2, ∀ call₂ ∈ (c.Create ctx₂ (some e₂)).2,
      call₁.stmt = call₂.stmt) ∧
    (∀ persist₁ persist₂, FromCtx ctx₁ = Except.ok persist₁ → FromCtx ctx₂ = Except.ok persist₂ →
      (c.Create ctx₁ (some e₁)).2 =
        [Call.NamedExec (insertStatementSpec c.tableName c.columns) e₁] ∧
      (c.Create ctx₂ (some e₂)).2 =
        [Call.NamedExec (insertStatementSpec c.tableName c.columns) e₂]) := by
  have hcalls : ∀ (ctx : Context) (e : Row), ∀ call ∈ (c.Create ctx (some e)).2,
      call = Call.NamedExec (insertStatementSpec c.tableName c.columns) e := by
    intro ctx e call hcall
    rcases Creator.Create_calls c ctx (some e) with h | ⟨entity, persist, he, -, h⟩
    · rw [h] at hcall; simp at hcall
    · rw [h] at hcall
      cases he
      rw [List.mem_singleton.mp hcall, Creator.stmt_eq_spec]
  refine ⟨hcalls ctx₁ e₁, ?_, ?_⟩
  · intro call₁ h₁ call₂ h₂
    rw [hcalls ctx₁ e₁ call₁ h₁, hcalls ctx₂ e₂ call₂ h₂]
    rfl
  · intro persist₁ persist₂ hp₁ hp₂
    rw [(Creator.Create_with_handle c ctx₁ persist₁ e₁ hp₁).2,
      (Creator.Create_with_handle c ctx₂ persist₂ e₂ hp₂).2, Creator.stmt_eq_spec]
    exact ⟨rfl, rfl⟩

end repo

/-! ## Theorems: Create, Delete and reads of the in-memory application repository -/

namespace application

/-- The name search finds exactly the stored applications with the name in the
tenant. -/
theorem findApplicationNameWithinTenant_iff (r : inMemoryRepository) (tenant name : String) :
    r.findApplicationNameWithinTenant tenant name = true ↔
      ∃ k a, r.store.lookup k = some a ∧ a.Name = name ∧ a.Tenant = tenant := by
  unfold inMemoryRepository.findApplicationNameWithinTenant
  rw [List.any_eq_true]
  constructor
  · rintro ⟨e, he, hp⟩
    simp only [Bool.and_eq_true, beq_iff_eq] at hp
    refine ⟨e.1, e.2, ?_, hp.1, hp.2⟩
    rw [← Option.mem_def, AList.mem_lookup_iff]
    exact he
  · rintro ⟨k, a, hk, hn, ht⟩
    refine ⟨⟨k, a⟩, ?_, ?_⟩
    · rw [← Option.mem_def, AList.mem_lookup_iff] at hk
      exact hk
    · simp [hn, ht]

/-- What `Create` does with a non-nil item: refused when the name is taken in
the tenant, stored under its ID otherwise. -/
theorem Create_some (r : inMemoryRepository) (item : model.Application) :
    (r.findApplicationNameWithinTenant item.Tenant item.Name = true ∧
      r.Create (some item) =
        (r, errors.New "Application name is not unique within tenant")) ∨
    (r.findApplicationNameWithinTenant item.Tenant item.Name = false ∧
      r.Create (some item) = (⟨r.store.insert item.ID item⟩, none)) := by
  by_cases hf : r.findApplicationNameWithinTenant item.Tenant item.Name = true
  · left
    exact ⟨hf, by simp [inMemoryRepository.Create, hf]⟩
  · right
    have hf' : r.findApplicationNameWithinTenant item.Tenant item.Name = false := by
      simpa using hf
    exact ⟨hf', by simp [inMemoryRepository.Create, hf']⟩

/-- C25: in-memory application `Create` fails if and only if the item is nil or
some stored application has the same `Name` and the same `Tenant` as the item;
when it fails the store is unchanged, and when it succeeds the store maps
`item.ID` to the item and every other ID keeps its previous entry. -/
theorem Create_fails_iff (r : inMemoryRepository) (item : Option model.Application) :
    ((r.Create item).2 ≠ none ↔
      item = none ∨ ∃ it, item = some it ∧
        ∃ k a, r.store.lookup k = some a ∧ a.Name = it.Name ∧ a.Tenant = it.Tenant) ∧
    ((r.Create item).2 ≠ none → (r.Create item).1 = r) ∧
    (∀ it, item = some it → (r.Create item).2 = none →
      (r.Create item).1.store.lookup it.ID = some it ∧
        ∀ k, k ≠ it.ID → (r.Create item).1.store.lookup k = r.store.lookup k) := by
  cases item with
  | none =>
    refine ⟨?_, fun _ => rfl, ?_⟩
    · simp [inMemoryRepository.Create, errors.New]
    · intro it h
      cases h
  | some item =>
    rcases Create_some r item with ⟨hf, hc⟩ | ⟨hf, hc⟩
    · rw [hc]
      refine ⟨?_, fun _ => rfl, ?_⟩
      · constructor
        · intro _
          right
          exact ⟨item, rfl, (findApplicationNameWithinTenant_iff r item.Tenant item.Name).mp hf⟩
        · intro _
          simp [errors.New]
      · intro it _ hnone
        simp [errors.New] at hnone
    · rw [hc]
      refine ⟨?_, fun h => absurd rfl h, ?_⟩
      · constructor
        · intro h
          exact absurd rfl h
        · rintro (h | ⟨it, hit, hex⟩)
          · cases h
          · cases hit
            have := (findApplicationNameWithinTenant_iff r item.Tenant item.Name).mpr hex
            rw [hf] at this
            cases this
      · intro it hit _
        cases hit
        exact ⟨AList.lookup_insert r.store, fun k hk => AList.lookup_insert_ne hk⟩

/-- C27: create/read round trip in the in-memory application repository:
after a successful `Create(item)`, `GetByID(item.Tenant, item.ID)` returns that
item and `Exists(item.Tenant, item.ID)` returns true; and in every store,
`Exists(tenant, id)` returns true exactly when `GetByID(tenant, id)`
succeeds. -/
theorem create_read_round_trip (r : inMemoryRepository) (item : model.Application)
    (h : (r.Create (some item)).2 = none) :
    (r.Create (some item)).1.GetByID item.Tenant item.ID = (some item, none) ∧
    (r.Create (some item)).1.Exists item.Tenant item.ID = (true, none) ∧
    (∀ (r' : inMemoryRepository) (tenant id : String),
      ((r'.Exists tenant id).1 = true ↔ (r'.GetByID tenant id).2 = none) ∧
      (r'.Exists tenant id).2 = none ∧
      ((r'.Exists tenant id).1 = true ↔ ∃ a, (r'.GetByID tenant id).1 = some a)) := by
  have hstore : (r.Create (some item)).1.store.lookup item.ID = some item := by
    rcases Create_some r item with ⟨-, hc⟩ | ⟨-, hc⟩
    · rw [hc] at h
      simp [errors.New] at h
    · rw [hc]
      exact AList.lookup_insert r.store
  refine ⟨?_, ?_, ?_⟩
  · simp [inMemoryRepository.GetByID, hstore]
  · simp [inMemoryRepository.Exists, hstore]
  · intro r' tenant id
    unfold inMemoryRepository.Exists inMemoryRepository.GetByID
    cases hl : r'.store.lookup id with
    | none => simp [errors.New]
    | some a =>
      by_cases ht : a.Tenant = tenant
      · simp [ht]
      · simp [ht, errors.New]

/-- C27 on the empty repository and one application. -/
theorem create_read_round_trip_witness :
    (NewRepository.Create (some ⟨"a1", "t1", "app", "d"⟩)).1.GetByID
        (model.Application.mk "a1" "t1" "app" "d").Tenant
        (model.Application.mk "a1" "t1" "app" "d").ID =
      (some ⟨"a1", "t1", "app", "d"⟩, none) ∧
    (NewRepository.Create (some ⟨"a1", "t1", "app", "d"⟩)).1.Exists
        (model.Application.mk "a1" "t1" "app" "d").Tenant
        (model.Application.mk "a1" "t1" "app" "d").ID = (true, none) ∧
    (∀ (r' : inMemoryRepository) (tenant id : String),
      ((r'.Exists tenant id).1 = true ↔ (r'.GetByID tenant id).2 = none) ∧
      (r'.Exists tenant id).2 = none ∧
      ((r'.Exists tenant id).1 = true ↔ ∃ a, (r'.GetByID tenant id).1 = some a)) :=
  create_read_round_trip NewRepository ⟨"a1", "t1", "app", "d"⟩ (by decide)

/-- Erasing a key twice is erasing it once. -/
theorem erase_erase_self (s : AList (fun _ : String => model.Application)) (k : String) :
    (s.erase k).erase k = s.erase k := by
  apply AList.ext
  show List.kerase k (List.kerase k s.entries) = List.kerase k s.entries
  exact List.kerase_of_not_mem_keys (List.not_mem_keys_kerase k s.nodupKeys)

/-- C28: in-memory application `Delete` never returns an error; for a nil item
the store is unchanged; for a non-nil item the entry under `item.ID` is removed
and every other entry is unchanged, so afterwards `Exists(t, item.ID)` is false
for every tenant `t`, and deleting the same item again changes nothing. -/
theorem Delete_frame (r : inMemoryRepository) (item : Option model.Application) :
    (r.Delete item).2 = none ∧
    r.Delete none = (r, none) ∧
    (∀ it, item = some it →
      (r.Delete item).1.store.lookup it.ID = none ∧
      (∀ k, k ≠ it.ID → (r.Delete item).1.store.lookup k = r.store.lookup k) ∧
      (∀ t, (r.Delete item).1.Exists t it.ID = (false, none)) ∧
      (∀ t, (r.Delete item).1.GetByID t it.ID = (none, errors.New "application not found"))) ∧
    ((r.Delete item).1.Delete item).1 = (r.Delete item).1 := by
  cases item with
  | none => exact ⟨rfl, rfl, fun it h => (by cases h), rfl⟩
  | some item =>
    have hl : (r.Delete (some item)).1.store.lookup item.ID = none := AList.lookup_erase _ _
    refine ⟨rfl, rfl, ?_, ?_⟩
    · intro it hit
      cases hit
      refine ⟨hl, fun k hk => AList.lookup_erase_ne hk, ?_, ?_⟩
      · intro t
        simp [inMemoryRepository.Exists, hl]
      · intro t
        simp [inMemoryRepository.GetByID, hl]
    · show inMemoryRepository.mk ((r.store.erase item.ID).erase item.ID) =
        inMemoryRepository.mk (r.store.erase item.ID)
      rw [erase_erase_self]

/-- Filing an item under its ID keeps names unique within tenants when no
application stored under another ID has the tenant and the name of the item. -/
theorem uniqueNames_insert (r : inMemoryRepository) (item : model.Application)
    (h : UniqueNames r)
    (hfree : ∀ k a, r.store.lookup k = some a → k ≠ item.ID →
      ¬ (a.Tenant = item.Tenant ∧ a.Name = item.Name)) :
    UniqueNames ⟨r.store.insert item.ID item⟩ := by
  intro k₁ k₂ a₁ a₂ h₁ h₂ hne
  simp only at h₁ h₂
  by_cases hk₁ : k₁ = item.ID
  · subst hk₁
    have hk₂ : k₂ ≠ item.ID := fun e => hne e.symm
    rw [AList.lookup_insert] at h₁
    rw [AList.lookup_insert_ne hk₂] at h₂
    cases h₁
    rintro ⟨ht, hn⟩
    exact hfree k₂ a₂ h₂ hk₂ ⟨ht.symm, hn.symm⟩
  · rw [AList.lookup_insert_ne hk₁] at h₁
    by_cases hk₂ : k₂ = item.ID
    · subst hk₂
      rw [AList.lookup_insert] at h₂
      cases h₂
      exact hfree k₁ a₁ h₁ hk₁
    · rw [AList.lookup_insert_ne hk₂] at h₂
      exact h k₁ k₂ a₁ a₂ h₁ h₂ hne

/-- Uniqueness of names within tenants is kept by every `Create`, by every
`Delete`, and by every `Update` whose item has the tenant of the application
stored under its ID or a name other than the stored one. -/
theorem uniqueNames_step (r : inMemoryRepository) (item : Option model.Application)
    (h : UniqueNames r) :
    UniqueNames (r.Create item).1 ∧ UniqueNames (r.Delete item).1 ∧
    ((∀ it old, item = some it → r.store.lookup it.ID = some old →
        old.Tenant = it.Tenant ∨ old.Name ≠ it.Name) →
      UniqueNames (r.Update item).1) := by
  cases item with
  | none => exact ⟨h, h, fun _ => h⟩
  | some item =>
    refine ⟨?_, ?_, ?_⟩
    · rcases Create_some r item with ⟨-, hc⟩ | ⟨hf, hc⟩
      · rw [hc]; exact h
      · rw [hc]
        apply uniqueNames_insert r item h
        intro k a hk _ hsame
        have := (findApplicationNameWithinTenant_iff r item.Tenant item.Name).mpr
          ⟨k, a, hk, hsame.2, hsame.1⟩
        rw [hf] at this
        cases this
    · intro k₁ k₂ a₁ a₂ h₁ h₂ hne
      have hd : (r.Delete (some item)).1.store = r.store.erase item.ID := rfl
      rw [hd] at h₁ h₂
      have hk₁ : k₁ ≠ item.ID := by
        intro e
        rw [e, AList.lookup_erase] at h₁
        cases h₁
      have hk₂ : k₂ ≠ item.ID := by
        intro e
        rw [e, AList.lookup_erase] at h₂
        cases h₂
      rw [AList.lookup_erase_ne hk₁] at h₁
      rw [AList.lookup_erase_ne hk₂] at h₂
      exact h k₁ k₂ a₁ a₂ h₁ h₂ hne
    · intro hkeep
      cases hl : r.store.lookup item.ID with
      | none =>
        have hu : (r.Update (some item)).1 = r := by simp [inMemoryRepository.Update, hl]
        rw [hu]
        exact h
      | some old =>
        by_cases hn : old.Name = item.Name
        · have hu : (r.Update (some item)).1 = ⟨r.store.insert item.ID item⟩ := by
            simp [inMemoryRepository.Update, hl, hn]
          rw [hu]
          apply uniqueNames_insert r item h
          intro k a hk hki hsame
          rcases hkeep item old rfl hl with ht | hne
          · exact h k item.ID a old hk hl hki ⟨hsame.1.trans ht.symm, hsame.2.trans hn.symm⟩
          · exact hne hn
        · by_cases hf : r.findApplicationNameWithinTenant item.Tenant item.Name = true
          · have hu : (r.Update (some item)).1 = r := by
              simp [inMemoryRepository.Update, hl, hn, hf]
            rw [hu]
            exact h
          · have hu : (r.Update (some item)).1 = ⟨r.store.insert item.ID item⟩ := by
              simp [inMemoryRepository.Update, hl, hn, hf]
            rw [hu]
            apply uniqueNames_insert r item h
            intro k a hk _ hsame
            exact hf ((findApplicationNameWithinTenant_iff r item.Tenant item.Name).mpr
              ⟨k, a, hk, hsame.2, hsame.1⟩)

/-- C26, evaluation at the failing input: from the empty repository, creating
`a1` named `app` for tenant `t1`, creating `a2` named `app` for tenant `t2` and
updating `a1` with an item of tenant `t2` that keeps the name all succeed, and
the store, a reachable one, then holds two applications under different IDs
with the same tenant and the same name: names are not unique in it. -/
theorem name_uniqueness_failing_input :
    (NewRepository.Create (some ⟨"a1", "t1", "app", "d"⟩)).2 = none ∧
    ((NewRepository.Create (some ⟨"a1", "t1", "app", "d"⟩)).1.Create
      (some ⟨"a2", "t2", "app", "d"⟩)).2 = none ∧
    (((NewRepository.Create (some ⟨"a1", "t1", "app", "d"⟩)).1.Create
      (some ⟨"a2", "t2", "app", "d"⟩)).1.Update (some ⟨"a1", "t2", "app", "d"⟩)).2 = none ∧
    (((NewRepository.Create (some ⟨"a1", "t1", "app", "d"⟩)).1.Create
      (some ⟨"a2", "t2", "app", "d"⟩)).1.Update
      (some ⟨"a1", "t2", "app", "d"⟩)).1.store.lookup "a1" = some ⟨"a1", "t2", "app", "d"⟩ ∧
    (((NewRepository.Create (some ⟨"a1", "t1", "app", "d"⟩)).1.Create
      (some ⟨"a2", "t2", "app", "d"⟩)).1.Update
      (some ⟨"a1", "t2", "app", "d"⟩)).1.store.lookup "a2" = some ⟨"a2", "t2", "app", "d"⟩ ∧
    Reachable (((NewRepository.Create (some ⟨"a1", "t1", "app", "d"⟩)).1.Create
      (some ⟨"a2", "t2", "app", "d"⟩)).1.Update (some ⟨"a1", "t2", "app", "d"⟩)).1 ∧
    ¬ UniqueNames (((NewRepository.Create (some ⟨"a1", "t1", "app", "d"⟩)).1.Create
      (some ⟨"a2", "t2", "app", "d"⟩)).1.Update (some ⟨"a1", "t2", "app", "d"⟩)).1 := by
  refine ⟨by decide, by decide, by decide, by decide, by decide, ?_, ?_⟩
  · exact Reachable.update _ _ (Reachable.create _ _ (Reachable.create _ _ Reachable.new))
  · intro h
    exact h "a1" "a2" ⟨"a1", "t2", "app", "d"⟩ ⟨"a2", "t2", "app", "d"⟩ (by decide) (by decide)
      (by decide) ⟨rfl, rfl⟩

end application

/-! ## Theorems: consecutive pages -/

namespace repo

open persistence

/-- A page cut out of a table: the rows before it, the page and the rows after
it make up the table, and the page is short only where the table ends. -/
theorem page_of_table (table : List Row) (n p : Nat) :
    table.take n ++ (table.drop n).take p ++ table.drop (n + p) = table ∧
    ((table.drop n).take p).length = min p (table.length - n) := by
  constructor
  · have h1 : (table.drop n).take p ++ table.drop (n + p) = table.drop n := by
      have h := List.take_append_drop p (table.drop n)
      rw [List.drop_drop] at h
      exact h
    rw [List.append_assoc, h1, List.take_append_drop]
  · rw [List.length_take, List.length_drop]

/-- What `List` returns when every step succeeds. -/
theorem List_of_steps (g : PageableQuerier) (pg : pagination.Functions) (ctx : Context)
    (persist : PersistenceOp) (tenant : String) (pageSize : Int)
    (cursor orderByColumn : String) (dest : List Row) (additionalConditions : List String)
    (offset : Int) (sql : String) (rows : List Row) (totalCount : Int)
    (hp : FromCtx ctx = Except.ok persist)
    (hd : pg.DecodeOffsetCursor cursor = Except.ok offset)
    (hc : pg.ConvertOffsetLimitAndOrderedColumnToSQL pageSize offset orderByColumn =
      Except.ok sql)
    (hsel : persist.Select dest (g.stmtWithoutPagination additionalConditions ++ " " ++ sql)
      [tenant] = Except.ok rows)
    (hget : persist.Get (g.countStatement (g.stmtWithoutPagination additionalConditions))
      [tenant] = Except.ok totalCount) :
    g.List pg ctx tenant pageSize cursor orderByColumn dest additionalConditions =
      ⟨some
        { StartCursor := cursor
          EndCursor :=
            if totalCount > GoInt.add offset (rows.length : Int) then
              pg.EncodeNextOffsetCursor offset pageSize
            else ""
          HasNextPage := decide (totalCount > GoInt.add offset (rows.length : Int)) },
        totalCount, none, rows,
        [Call.Select (g.stmtWithoutPagination additionalConditions ++ " " ++ sql) [tenant],
          Call.Get (g.countStatement (g.stmtWithoutPagination additionalConditions))
            [tenant]]⟩ := by
  unfold PageableQuerier.List
  simp only [hp, hd, hc, hsel, PageableQuerier.getTotalCount, hget]

/-- C30: consecutive pages neither skip nor repeat rows on an unchanged table.
If `pageSize >= 1`, the select returns the rows at positions `offset` to
`offset + pageSize - 1` of the filtered, ordered rows, fewer only where the rows
end, and the count returns the number of filtered rows, offset and count being
Go `int` values, then `List` succeeds with that page, and whenever it reports
`HasNextPage = true` the page holds exactly `pageSize` rows, so the offset of
the `EndCursor`, `offset + pageSize`, equals `offset + len(Data)`, the position
of the first row not yet returned: the rows before the page, the page and the
rows from `offset + pageSize` on make up the table. -/
theorem consecutive_pages (g : PageableQuerier) (pg : pagination.Functions) (ctx : Context)
    (persist : PersistenceOp) (tenant : String) (pageSize : Int)
    (cursor orderByColumn : String) (dest : List Row) (additionalConditions : List String)
    (table : List Row) (offset : Int) (sql : String)
    (hP : 1 ≤ pageSize) (hp : FromCtx ctx = Except.ok persist)
    (hd : pg.DecodeOffsetCursor cursor = Except.ok offset) (ho : 0 ≤ offset)
    (hoR : offset < 2 ^ 63)
    (hc : pg.ConvertOffsetLimitAndOrderedColumnToSQL pageSize offset orderByColumn =
      Except.ok sql)
    (hsel : persist.Select dest (g.stmtWithoutPagination additionalConditions ++ " " ++ sql)
      [tenant] = Except.ok ((table.drop offset.toNat).take pageSize.toNat))
    (hget : persist.Get (g.countStatement (g.stmtWithoutPagination additionalConditions))
      [tenant] = Except.ok (table.length : Int))
    (htR : (table.length : Int) < 2 ^ 63) :
    (g.List pg ctx tenant pageSize cursor orderByColumn dest additionalConditions).err = none ∧
    (g.List pg ctx tenant pageSize cursor orderByColumn dest additionalConditions).dest =
      (table.drop offset.toNat).take pageSize.toNat ∧
    (g.List pg ctx tenant pageSize cursor orderByColumn dest additionalConditions).totalCount =
      (table.length : Int) ∧
    ∃ page,
      (g.List pg ctx tenant pageSize cursor orderByColumn dest additionalConditions).page =
        some page ∧
      (page.HasNextPage = true ↔ offset + pageSize < (table.length : Int)) ∧
      (page.HasNextPage = true →
        (((table.drop offset.toNat).take pageSize.toNat).length : Int) = pageSize ∧
        offset + pageSize =
          offset + (((table.drop offset.toNat).take pageSize.toNat).length : Int) ∧
        page.EndCursor = pg.EncodeNextOffsetCursor offset pageSize ∧
        table.take offset.toNat ++ (table.drop offset.toNat).take pageSize.toNat ++
          table.drop (offset + pageSize).toNat = table) ∧
      (page.HasNextPage = false →
        page.EndCursor = "" ∧
        table.drop (offset.toNat + ((table.drop offset.toNat).take pageSize.toNat).length) =
          []) := by
  have hres := List_of_steps g pg ctx persist tenant pageSize cursor orderByColumn dest
    additionalConditions offset sql _ _ hp hd hc hsel hget
  obtain ⟨n, hn⟩ := Int.eq_ofNat_of_zero_le ho
  obtain ⟨p, hpp⟩ := Int.eq_ofNat_of_zero_le (show (0 : Int) ≤ pageSize by omega)
  subst hn
  subst hpp
  have hp1 : 1 ≤ p := by omega
  simp only [Int.toNat_ofNat] at hres ⊢
  have hsum : (((n : Int) + (p : Int) : Int)).toNat = n + p := by omega
  obtain ⟨hdecomp, hlen⟩ := page_of_table table n p
  have hadd : GoInt.add (n : Int) ((((table.drop n).take p).length : Nat) : Int) =
      (n : Int) + ((((table.drop n).take p).length : Nat) : Int) := by
    apply GoInt.add_eq
    · omega
    · rw [hlen]
      omega
  have hiff : ((table.length : Int) > GoInt.add (n : Int)
      ((((table.drop n).take p).length : Nat) : Int)) ↔
      (n : Int) + (p : Int) < (table.length : Int) := by
    rw [hadd, hlen]
    omega
  rw [hres]
  refine ⟨rfl, rfl, rfl, _, rfl, ?_, ?_, ?_⟩
  · simp only [decide_eq_true_eq]
    exact hiff
  · simp only [decide_eq_true_eq]
    intro ht
    have hlt := hiff.mp ht
    have hlenp : ((table.drop n).take p).length = p := by
      rw [hlen]
      omega
    refine ⟨?_, ?_, ?_, ?_⟩
    · rw [hlenp]
    · rw [hlenp]
    · simp only [if_pos ht]
    · rw [hsum]
      exact hdecomp
  · simp only [decide_eq_false_iff_not]
    intro hf
    have hge := fun h => hf (hiff.mpr h)
    refine ⟨by simp only [if_neg hf], ?_⟩
    apply List.drop_eq_nil_of_le
    rw [hlen]
    omega

/-- C30 on the first page of size two of a table of three rows: the page holds
two rows, a next page is reported and its cursor is offset 2. -/
theorem consecutive_pages_witness :
    (1 : Int) ≤ 2 ∧
    FromCtx ⟨some (sample.tableHandle sample.threeRows 0 2)⟩ =
      Except.ok (sample.tableHandle sample.threeRows 0 2) ∧
    (pagination.specified sample.convert).DecodeOffsetCursor "" = Except.ok 0 ∧
    (0 : Int) ≤ 0 ∧ (0 : Int) < 2 ^ 63 ∧
    (pagination.specified sample.convert).ConvertOffsetLimitAndOrderedColumnToSQL 2 0 "id" =
      Except.ok "ORDER BY id LIMIT 2 OFFSET 0" ∧
    (sample.tableHandle sample.threeRows 0 2).Select []
      (sample.querier.stmtWithoutPagination [] ++ " " ++ "ORDER BY id LIMIT 2 OFFSET 0")
      ["t1"] = Except.ok ((sample.threeRows.drop (0 : Int).toNat).take (2 : Int).toNat) ∧
    (sample.tableHandle sample.threeRows 0 2).Get
      (sample.querier.countStatement (sample.querier.stmtWithoutPagination [])) ["t1"] =
      Except.ok (sample.threeRows.length : Int) ∧
    (sample.threeRows.length : Int) < 2 ^ 63 ∧
    (sample.querier.List (pagination.specified sample.convert)
        ⟨some (sample.tableHandle sample.threeRows 0 2)⟩ "t1" 2 "" "id" [] []).err = none ∧
    (sample.querier.List (pagination.specified sample.convert)
        ⟨some (sample.tableHandle sample.threeRows 0 2)⟩ "t1" 2 "" "id" [] []).dest = ((sample.threeRows.drop (0 : Int).toNat).take (2 : Int).toNat) ∧
    (sample.querier.List (pagination.specified sample.convert)
        ⟨some (sample.tableHandle sample.threeRows 0 2)⟩ "t1" 2 "" "id" [] []).totalCount = (sample.threeRows.length : Int) ∧
    ∃ page,
      (sample.querier.List (pagination.specified sample.convert)
        ⟨some (sample.tableHandle sample.threeRows 0 2)⟩ "t1" 2 "" "id" [] []).page = some page ∧
      (page.HasNextPage = true ↔ (0 : Int) + 2 < (sample.threeRows.length : Int)) ∧
      (page.HasNextPage = true →
        (((sample.threeRows.drop (0 : Int).toNat).take (2 : Int).toNat).length : Int) = 2 ∧
        (0 : Int) + 2 = 0 + (((sample.threeRows.drop (0 : Int).toNat).take (2 : Int).toNat).length : Int) ∧
        page.EndCursor = (pagination.specified sample.convert).EncodeNextOffsetCursor 0 2 ∧
        sample.threeRows.take (0 : Int).toNat ++ ((sample.threeRows.drop (0 : Int).toNat).take (2 : Int).toNat) ++
          sample.threeRows.drop ((0 : Int) + 2).toNat = sample.threeRows) ∧
      (page.HasNextPage = false →
        page.EndCursor = "" ∧
        sample.threeRows.drop ((0 : Int).toNat + ((sample.threeRows.drop (0 : Int).toNat).take (2 : Int).toNat).length) = []) :=
  ⟨by decide, rfl, rfl, by decide, by norm_num, rfl, rfl, rfl, by decide,
    consecutive_pages sample.querier (pagination.specified sample.convert)
      ⟨some (sample.tableHandle sample.threeRows 0 2)⟩ (sample.tableHandle sample.threeRows 0 2)
      "t1" 2 "" "id" [] [] sample.threeRows 0 "ORDER BY id LIMIT 2 OFFSET 0" (by decide) rfl rfl
      (by decide) (by norm_num) rfl rfl rfl (by decide)⟩

/-- C4, amended: for any successful `List` call on an unchanged table, the
select returning the rows at positions `offset` to `offset + pageSize - 1` of
the filtered, ordered rows, fewer only where the rows end, and the count
returning the number of filtered rows, with an offset that is not beyond the
rows: when the returned `HasNextPage` is false, `TotalCount == len(Data) +
offset`; and when `HasNextPage` is true, `TotalCount > offset + len(Data)`. -/
theorem List_lastPage_totalCount (g : PageableQuerier) (pg : pagination.Functions)
    (ctx : Context) (persist : PersistenceOp) (tenant : String) (pageSize : Int)
    (cursor orderByColumn : String) (dest : List Row) (additionalConditions : List String)
    (table : List Row) (offset : Int) (sql : String)
    (hp : FromCtx ctx = Except.ok persist)
    (hd : pg.DecodeOffsetCursor cursor = Except.ok offset) (ho : 0 ≤ offset)
    (hoT : offset ≤ (table.length : Int))
    (hc : pg.ConvertOffsetLimitAndOrderedColumnToSQL pageSize offset orderByColumn =
      Except.ok sql)
    (hsel : persist.Select dest (g.stmtWithoutPagination additionalConditions ++ " " ++ sql)
      [tenant] = Except.ok ((table.drop offset.toNat).take pageSize.toNat))
    (hget : persist.Get (g.countStatement (g.stmtWithoutPagination additionalConditions))
      [tenant] = Except.ok (table.length : Int))
    (htR : (table.length : Int) < 2 ^ 63) :
    (g.List pg ctx tenant pageSize cursor orderByColumn dest additionalConditions).err = none ∧
    ∃ page,
      (g.List pg ctx tenant pageSize cursor orderByColumn dest additionalConditions).page = some page ∧
      (page.HasNextPage = false →
        (g.List pg ctx tenant pageSize cursor orderByColumn dest additionalConditions).totalCount =
          ((g.List pg ctx tenant pageSize cursor orderByColumn dest additionalConditions).dest.length : Int) + offset) ∧
      (page.HasNextPage = true →
        (g.List pg ctx tenant pageSize cursor orderByColumn dest additionalConditions).totalCount >
          offset + ((g.List pg ctx tenant pageSize cursor orderByColumn dest additionalConditions).dest.length : Int)) := by
  have hres := List_of_steps g pg ctx persist tenant pageSize cursor orderByColumn dest
    additionalConditions offset sql _ _ hp hd hc hsel hget
  obtain ⟨n, hn⟩ := Int.eq_ofNat_of_zero_le ho
  subst hn
  simp only [Int.toNat_ofNat] at hres
  obtain ⟨-, hlen⟩ := page_of_table table n pageSize.toNat
  have hadd : GoInt.add (n : Int) ((((table.drop n).take pageSize.toNat).length : Nat) : Int) =
      (n : Int) + ((((table.drop n).take pageSize.toNat).length : Nat) : Int) := by
    apply GoInt.add_eq
    · omega
    · rw [hlen]
      omega
  rw [hres]
  refine ⟨rfl, _, rfl, ?_, ?_⟩
  · simp only [decide_eq_false_iff_not]
    intro hf
    rw [hadd, hlen] at hf
    rw [hlen]
    omega
  · simp only [decide_eq_true_eq]
    intro ht
    rw [hadd] at ht
    exact ht

/-- C4 as amended, on the last page of a table of three rows, at offset 2:
the page holds one row and `TotalCount` is 3. -/
theorem List_lastPage_totalCount_witness :
    FromCtx ⟨some (sample.tableHandle sample.threeRows 2 2)⟩ =
      Except.ok (sample.tableHandle sample.threeRows 2 2) ∧
    (pagination.specified sample.convert).DecodeOffsetCursor "2" = Except.ok 2 ∧
    (0 : Int) ≤ 2 ∧ (2 : Int) ≤ (sample.threeRows.length : Int) ∧
    (pagination.specified sample.convert).ConvertOffsetLimitAndOrderedColumnToSQL 2 2 "id" =
      Except.ok "ORDER BY id LIMIT 2 OFFSET 2" ∧
    (sample.tableHandle sample.threeRows 2 2).Select []
      (sample.querier.stmtWithoutPagination [] ++ " " ++ "ORDER BY id LIMIT 2 OFFSET 2")
      ["t1"] = Except.ok ((sample.threeRows.drop (2 : Int).toNat).take (2 : Int).toNat) ∧
    (sample.tableHandle sample.threeRows 2 2).Get
      (sample.querier.countStatement (sample.querier.stmtWithoutPagination [])) ["t1"] =
      Except.ok (sample.threeRows.length : Int) ∧
    (sample.threeRows.length : Int) < 2 ^ 63 ∧
    (sample.querier.List (pagination.specified sample.convert)
        ⟨some (sample.tableHandle sample.threeRows 2 2)⟩ "t1" 2 "2" "id" [] []).page = some ⟨"2", "", false⟩ ∧
    (sample.querier.List (pagination.specified sample.convert)
        ⟨some (sample.tableHandle sample.threeRows 2 2)⟩ "t1" 2 "2" "id" [] []).err = none ∧
    ∃ page,
      (sample.querier.List (pagination.specified sample.convert)
        ⟨some (sample.tableHandle sample.threeRows 2 2)⟩ "t1" 2 "2" "id" [] []).page = some page ∧
      (page.HasNextPage = false →
        (sample.querier.List (pagination.specified sample.convert)
        ⟨some (sample.tableHandle sample.threeRows 2 2)⟩ "t1" 2 "2" "id" [] []).totalCount =
          ((sample.querier.List (pagination.specified sample.convert)
        ⟨some (sample.tableHandle sample.threeRows 2 2)⟩ "t1" 2 "2" "id" [] []).dest.length : Int) + 2) ∧
      (page.HasNextPage = true →
        (sample.querier.List (pagination.specified sample.convert)
        ⟨some (sample.tableHandle sample.threeRows 2 2)⟩ "t1" 2 "2" "id" [] []).totalCount >
          2 + ((sample.querier.List (pagination.specified sample.convert)
        ⟨some (sample.tableHandle sample.threeRows 2 2)⟩ "t1" 2 "2" "id" [] []).dest.length : Int)) :=
  ⟨rfl, rfl, by decide, by decide, rfl, rfl, rfl, by decide, by decide,
    List_lastPage_totalCount sample.querier (pagination.specified sample.convert)
      ⟨some (sample.tableHandle sample.threeRows 2 2)⟩ (sample.tableHandle sample.threeRows 2 2)
      "t1" 2 "2" "id" [] [] sample.threeRows 2 "ORDER BY id LIMIT 2 OFFSET 2" rfl rfl
      (by decide) (by decide) rfl rfl rfl (by decide)⟩

end repo

/-! ## Theorems: updating label definitions and setting labels -/

namespace label

/-- No label is reported as incompatible exactly when every label under the
key in the tenant satisfies the schema. -/
theorem firstIncompatible_eq_none_iff {V S : Type} (vl : Validation V S) (schema : S)
    (tenant key : String) (ls : List (Label V)) :
    firstIncompatible vl schema tenant key ls = none ↔
      ∀ l ∈ ls, l.Tenant = tenant ∧ l.Key = key → vl.validate schema l.Value = none := by
  induction ls with
  | nil => simp [firstIncompatible]
  | cons l rest ih =>
    unfold firstIncompatible
    by_cases hu : l.uses tenant key = true
    · have hu' := (Label.uses_iff l tenant key).mp hu
      rw [if_pos hu]
      cases hv : vl.validate schema l.Value with
      | none => simp [ih, hu', hv]
      | some msg => simp [hu', hv]
    · have hu' : ¬ (l.Tenant = tenant ∧ l.Key = key) :=
        fun h => hu ((Label.uses_iff l tenant key).mpr h)
      rw [if_neg hu, ih]
      constructor
      · intro h x hx hxu
        rcases List.mem_cons.mp hx with rfl | hx
        · exact absurd hxu hu'
        · exact h x hx hxu
      · intro h x hx hxu
        exact h x (List.mem_cons_of_mem _ hx) hxu

/-- The label reported as incompatible is a stored label under the key in the
tenant, and the reported text is its validation error. -/
theorem firstIncompatible_eq_some {V S : Type} (vl : Validation V S) (schema : S)
    (tenant key : String) (ls : List (Label V)) (l : Label V) (msg : String)
    (h : firstIncompatible vl schema tenant key ls = some (l, msg)) :
    l ∈ ls ∧ (l.Tenant = tenant ∧ l.Key = key) ∧ vl.validate schema l.Value = some msg := by
  induction ls with
  | nil => simp [firstIncompatible] at h
  | cons l0 rest ih =>
    unfold firstIncompatible at h
    by_cases hu : l0.uses tenant key = true
    · rw [if_pos hu] at h
      cases hv : vl.validate schema l0.Value with
      | none =>
        simp only [hv] at h
        obtain ⟨h1, h2, h3⟩ := ih h
        exact ⟨List.mem_cons_of_mem _ h1, h2, h3⟩
      | some m =>
        simp only [hv, Option.some.injEq, Prod.mk.injEq] at h
        obtain ⟨h1, h2⟩ := h
        subst h1
        subst h2
        exact ⟨List.mem_cons_self _ _, (Label.uses_iff _ tenant key).mp hu, hv⟩
    · rw [if_neg hu] at h
      obtain ⟨h1, h2, h3⟩ := ih h
      exact ⟨List.mem_cons_of_mem _ h1, h2, h3⟩

/-- Storing a schema under a key leaves the definition of every key findable,
with the new schema where it was stored. -/
theorem find?_map_schema {S : Type} (defs : List (LabelDefinition S)) (tenant key : String)
    (tenant0 key0 : String) (newSchema : S) :
    (defs.map
        (fun d => if d.isAt tenant key then { d with Schema := some newSchema } else d)).find?
        (fun d => d.isAt tenant0 key0) =
      (defs.find? (fun d => d.isAt tenant0 key0)).map
        (fun d => if d.isAt tenant key then { d with Schema := some newSchema } else d) := by
  induction defs with
  | nil => rfl
  | cons d rest ih =>
    have hat : (if d.isAt tenant key then { d with Schema := some newSchema } else d).isAt
        tenant0 key0 = d.isAt tenant0 key0 := by
      by_cases h : d.isAt tenant key = true
      · rw [if_pos h]; rfl
      · rw [if_neg h]
    simp only [List.map_cons, List.find?_cons, hat]
    cases hd : d.isAt tenant0 key0 with
    | true => rfl
    | false => exact ih

/-- What an update of a label definition does when the schema is not refused
for the reserved key and the definition exists. -/
theorem updateLabelDefinition_of_exists {V S : Type} (vl : Validation V S) (st : State V S)
    (tenant key : String) (newSchema : S)
    (hdef : ∃ d ∈ st.definitions, d.Tenant = tenant ∧ d.Key = key)
    (hkey : key ≠ model.ScenariosKey ∨ enumHasDefault vl newSchema = true) :
    updateLabelDefinition vl st tenant key newSchema =
      match firstIncompatible vl newSchema tenant key st.labels with
      | some (l, msg) => (st, some (incompatibleError key l msg))
      | none =>
        ({ st with
            definitions :=
              st.definitions.map
                (fun d => if d.isAt tenant key then { d with Schema := some newSchema } else d) },
          none) := by
  obtain ⟨d, hd⟩ := getLabelDefinition_of_exists st tenant key hdef
  have hno : ¬ (key = model.ScenariosKey ∧ enumHasDefault vl newSchema = false) := by
    rintro ⟨h1, h2⟩
    rcases hkey with h | h
    · exact h h1
    · rw [h] at h2
      exact Bool.noConfusion h2
  unfold updateLabelDefinition
  rw [if_neg hno, hd]

/-- After an accepted update the definition under the key can be read and
carries the new schema. -/
theorem getLabelDefinition_after_update {V S : Type} (st : State V S) (tenant key : String)
    (newSchema : S) (hdef : ∃ d ∈ st.definitions, d.Tenant = tenant ∧ d.Key = key) :
    ∃ d,
      getLabelDefinition
          ({ st with
              definitions :=
                st.definitions.map
                  (fun d =>
                    if d.isAt tenant key then { d with Schema := some newSchema } else d) } :
            State V S)
          tenant key = Except.ok d ∧
        d.Tenant = tenant ∧ d.Key = key ∧ d.Schema = some newSchema := by
  unfold getLabelDefinition
  simp only [find?_map_schema]
  cases hf : st.definitions.find? (fun d => d.isAt tenant key) with
  | none =>
    obtain ⟨d, hd, ht⟩ := hdef
    have := List.find?_eq_none.mp hf d hd
    exact absurd ((LabelDefinition.isAt_iff d tenant key).mpr ht) this
  | some d =>
    have hat : d.isAt tenant key = true := by
      have := List.find?_some hf
      simpa using this
    obtain ⟨h1, h2⟩ := (LabelDefinition.isAt_iff d tenant key).mp hat
    refine ⟨{ d with Schema := some newSchema }, ?_, h1, h2, rfl⟩
    simp only [Option.map_some', hat, if_true]

/-- What an accepted update returns: the state with the new schema stored under
the key. -/
theorem updateLabelDefinition_accepted {V S : Type} (vl : Validation V S) (st : State V S)
    (tenant key : String) (newSchema : S)
    (hdef : ∃ d ∈ st.definitions, d.Tenant = tenant ∧ d.Key = key)
    (hkey : key ≠ model.ScenariosKey ∨ enumHasDefault vl newSchema = true)
    (hall : ∀ l ∈ st.labels, l.Tenant = tenant ∧ l.Key = key →
      vl.validate newSchema l.Value = none) :
    updateLabelDefinition vl st tenant key newSchema =
      ({ st with
          definitions :=
            st.definitions.map
              (fun d => if d.isAt tenant key then { d with Schema := some newSchema } else d) },
        none) := by
  rw [updateLabelDefinition_of_exists vl st tenant key newSchema hdef hkey,
    (firstIncompatible_eq_none_iff vl newSchema tenant key st.labels).mpr hall]

/-- C21, counterexample: the tenant has the `scenarios` definition, every
existing label value under `scenarios` satisfies the schema with the enum `A`
alone, and yet the update to that schema does not succeed: it is rejected,
because the enum omits `DEFAULT`, and the stored schema stays. -/
theorem updateLabelDefinition_compatibility_counterexample :
    (∃ d ∈ sample.fooState.definitions, d.Tenant = "t1" ∧ d.Key = "scenarios") ∧
    (∀ l ∈ sample.fooState.labels, l.Tenant = "t1" ∧ l.Key = "scenarios" →
      sample.listValidation.validate ["A"] l.Value = none) ∧
    updateLabelDefinition sample.listValidation sample.fooState "t1" "scenarios" ["A"] =
      (sample.fooState,
        some (GoError.errorString
          ("while validating Label Definition: while validating schema for key scenarios: " ++
            "items.enum: At least one of the items must match"))) ∧
    getLabelDefinition
        (updateLabelDefinition sample.listValidation sample.fooState "t1" "scenarios" ["A"]).1
        "t1" "scenarios" =
      Except.ok ⟨"t1", "scenarios", some ["DEFAULT", "A"]⟩ :=
  ⟨by decide, by decide, by decide, rfl⟩

/-- C21, amended: for a label definition that exists, under a key other than
the reserved key `scenarios` or with a new schema whose items enum contains
`DEFAULT`: updating it to a schema that at least one existing label value under
that key does not satisfy fails with the compatibility error, which names the
key and the entity of a stored label whose value does not satisfy the schema
and ends with its validation error, and the state, so the stored schema and
every label value, is unchanged; updating it to a schema every existing value
satisfies succeeds, leaves the labels unchanged and stores the new schema under
the key. -/
theorem updateLabelDefinition_compatibility {V S : Type} (vl : Validation V S)
    (st : State V S) (tenant key : String) (newSchema : S)
    (hdef : ∃ d ∈ st.definitions, d.Tenant = tenant ∧ d.Key = key)
    (hkey : key ≠ model.ScenariosKey ∨ enumHasDefault vl newSchema = true) :
    ((∃ l ∈ st.labels, (l.Tenant = tenant ∧ l.Key = key) ∧
        vl.validate newSchema l.Value ≠ none) →
      ∃ l msg, l ∈ st.labels ∧ (l.Tenant = tenant ∧ l.Key = key) ∧
        vl.validate newSchema l.Value = some msg ∧
        updateLabelDefinition vl st tenant key newSchema =
          (st,
            some (GoError.errorString
              ("label with key " ++ quoted key ++ " is not valid against new schema for " ++
                objectTypeName l.ObjectType ++ " with ID " ++ quoted l.ObjectID ++ ": " ++
                msg)))) ∧
    ((∀ l ∈ st.labels, l.Tenant = tenant ∧ l.Key = key →
        vl.validate newSchema l.Value = none) →
      (updateLabelDefinition vl st tenant key newSchema).2 = none ∧
      (updateLabelDefinition vl st tenant key newSchema).1.labels = st.labels ∧
      ∃ d,
        getLabelDefinition (updateLabelDefinition vl st tenant key newSchema).1 tenant key =
          Except.ok d ∧
        d.Tenant = tenant ∧ d.Key = key ∧ d.Schema = some newSchema) := by
  constructor
  · rintro ⟨l0, hl0, hu0, hv0⟩
    cases hf : firstIncompatible vl newSchema tenant key st.labels with
    | none =>
      exact absurd
        ((firstIncompatible_eq_none_iff vl newSchema tenant key st.labels).mp hf l0 hl0 hu0) hv0
    | some found =>
      obtain ⟨l, msg⟩ := found
      obtain ⟨h1, h2, h3⟩ := firstIncompatible_eq_some vl newSchema tenant key st.labels l msg hf
      refine ⟨l, msg, h1, h2, h3, ?_⟩
      rw [updateLabelDefinition_of_exists vl st tenant key newSchema hdef hkey, hf]
      rfl
  · intro hall
    rw [updateLabelDefinition_accepted vl st tenant key newSchema hdef hkey hall]
    exact ⟨rfl, rfl, getLabelDefinition_after_update st tenant key newSchema hdef⟩

/-- C21, amended, on a tenant with a definition under `foo` and an application
labelled `bar` under it: the update to the schema allowing `baz` alone fails
naming `foo` and the application, the update to the schema allowing `bar` alone
succeeds and is stored. -/
theorem updateLabelDefinition_compatibility_witness :
    (∃ d ∈ sample.fooState.definitions, d.Tenant = "t1" ∧ d.Key = "foo") ∧
    ("foo" ≠ model.ScenariosKey ∨ enumHasDefault sample.listValidation ["baz"] = true) ∧
    (∃ l ∈ sample.fooState.labels, (l.Tenant = "t1" ∧ l.Key = "foo") ∧
      sample.listValidation.validate ["baz"] l.Value ≠ none) ∧
    (∃ l msg, l ∈ sample.fooState.labels ∧ (l.Tenant = "t1" ∧ l.Key = "foo") ∧
      sample.listValidation.validate ["baz"] l.Value = some msg ∧
      updateLabelDefinition sample.listValidation sample.fooState "t1" "foo" ["baz"] =
        (sample.fooState,
          some (GoError.errorString
            ("label with key " ++ quoted "foo" ++ " is not valid against new schema for " ++
              objectTypeName l.ObjectType ++ " with ID " ++ quoted l.ObjectID ++ ": " ++
              msg)))) ∧
    (∀ l ∈ sample.fooState.labels, l.Tenant = "t1" ∧ l.Key = "foo" →
      sample.listValidation.validate ["bar"] l.Value = none) ∧
    (updateLabelDefinition sample.listValidation sample.fooState "t1" "foo" ["bar"]).2 = none ∧
    (updateLabelDefinition sample.listValidation sample.fooState "t1" "foo" ["bar"]).1.labels =
      sample.fooState.labels ∧
    ∃ d,
      getLabelDefinition
          (updateLabelDefinition sample.listValidation sample.fooState "t1" "foo" ["bar"]).1
          "t1" "foo" = Except.ok d ∧
        d.Tenant = "t1" ∧ d.Key = "foo" ∧ d.Schema = some ["bar"] :=
  ⟨by decide, Or.inl (by decide), by decide,
    (updateLabelDefinition_compatibility sample.listValidation sample.fooState "t1" "foo"
      ["baz"] (by decide) (Or.inl (by decide))).1 (by decide),
    by decide,
    (updateLabelDefinition_compatibility sample.listValidation sample.fooState "t1" "foo"
      ["bar"] (by decide) (Or.inl (by decide))).2 (by decide)⟩

/-- A schema whose items enum contains the default value has it. -/
theorem enumHasDefault_of_mem {V S : Type} (vl : Validation V S) (schema : S)
    (enum : List String) (henum : vl.itemsEnum schema = some enum)
    (hdefault : DefaultScenario ∈ enum) : enumHasDefault vl schema = true := by
  unfold enumHasDefault
  rw [henum]
  simpa using hdefault

/-- Setting a scenarios label that satisfies the schema stored for the tenant
and has at least one entry, all of them in the enum, succeeds and stores the
label. -/
theorem setLabel_scenarios {V S : Type} (vl : Validation V S) (st : State V S)
    (tenant : String) (objectType : model.LabelableObject) (entityID : String) (value : V)
    (d : LabelDefinition S) (schema : S) (enum es : List String)
    (hfind : st.definitions.find? (fun d => d.isAt tenant model.ScenariosKey) = some d)
    (hschema : d.Schema = some schema) (henum : vl.itemsEnum schema = some enum)
    (hes : vl.entries value = some es) (hne : es ≠ []) (hsub : ∀ e ∈ es, e ∈ enum)
    (hval : vl.validate schema value = none) :
    setLabel vl st tenant objectType entityID model.ScenariosKey value =
      ({ labels :=
            st.labels.filter (fun l => !l.isAt tenant entityID model.ScenariosKey) ++
              [⟨tenant, objectType, entityID, model.ScenariosKey, value⟩]
         definitions := st.definitions },
        none) := by
  have hallowed : scenariosAllowed vl (some schema) value = true := by
    unfold scenariosAllowed
    simp only [hes, Option.some_bind, henum]
    cases es with
    | nil => exact absurd rfl hne
    | cons e rest =>
      simp only [List.isEmpty_cons, Bool.not_false, Bool.true_and, List.all_eq_true]
      intro x hx
      simpa using hsub x hx
  unfold setLabel
  simp only [hfind, Option.some_bind, hschema, hval, hallowed, Bool.true_eq_false, and_false,
    if_false]

/-- C22, counterexample: the tenant has the `scenarios` definition with the
enum `DEFAULT`, `A` and an application labelled with the scenario `A`; the
update to the schema with the enum `DEFAULT`, `B`, which contains `DEFAULT`
together with an additional value, is not accepted: it fails with the
compatibility error for that application and the stored schema stays. -/
theorem scenarios_definition_update_counterexample :
    enumHasDefault sample.listValidation ["DEFAULT", "B"] = true ∧
    updateLabelDefinition sample.listValidation sample.scenariosState "t1" "scenarios"
        ["DEFAULT", "B"] =
      (sample.scenariosState,
        some (GoError.errorString
          ("label with key " ++ quoted "scenarios" ++
            " is not valid against new schema for Application with ID " ++ quoted "app2" ++
            ": items: must be one of the enum"))) ∧
    getLabelDefinition
        (updateLabelDefinition sample.listValidation sample.scenariosState "t1" "scenarios"
          ["DEFAULT", "B"]).1
        "t1" "scenarios" =
      Except.ok ⟨"t1", "scenarios", some ["DEFAULT", "A"]⟩ :=
  ⟨by decide, by decide, rfl⟩

/-- C22, amended: for the reserved key `scenarios`, every update to a schema
whose items enum does not contain `DEFAULT` is rejected and nothing changes;
an update of an existing definition to a schema whose enum contains `DEFAULT`,
with or without additional values, that every existing scenarios label value of
the tenant satisfies is accepted, after which a scenarios label that satisfies
the schema and holds at least one entry, all of them values of that enum, so in
particular one holding all the enum values, can be set: the call succeeds and
the label is stored. -/
theorem scenarios_definition_update {V S : Type} (vl : Validation V S) (st : State V S)
    (tenant : String) (newSchema : S) :
    (enumHasDefault vl newSchema = false →
      updateLabelDefinition vl st tenant model.ScenariosKey newSchema =
        (st, some (enumError model.ScenariosKey))) ∧
    (∀ enum : List String, vl.itemsEnum newSchema = some enum → DefaultScenario ∈ enum →
      (∃ d ∈ st.definitions, d.Tenant = tenant ∧ d.Key = model.ScenariosKey) →
      (∀ l ∈ st.labels, l.Tenant = tenant ∧ l.Key = model.ScenariosKey →
        vl.validate newSchema l.Value = none) →
      (updateLabelDefinition vl st tenant model.ScenariosKey newSchema).2 = none ∧
      (∃ d,
        getLabelDefinition (updateLabelDefinition vl st tenant model.ScenariosKey newSchema).1
          tenant model.ScenariosKey = Except.ok d ∧ d.Schema = some newSchema) ∧
      ∀ (objectType : model.LabelableObject) (entityID : String) (value : V)
        (es : List String),
        vl.entries value = some es → es ≠ [] → (∀ e ∈ es, e ∈ enum) →
        vl.validate newSchema value = none →
        (setLabel vl (updateLabelDefinition vl st tenant model.ScenariosKey newSchema).1 tenant
          objectType entityID model.ScenariosKey value).2 = none ∧
        (⟨tenant, objectType, entityID, model.ScenariosKey, value⟩ : Label V) ∈
          (setLabel vl (updateLabelDefinition vl st tenant model.ScenariosKey newSchema).1
            tenant objectType entityID model.ScenariosKey value).1.labels) := by
  constructor
  · intro h
    unfold updateLabelDefinition
    rw [if_pos ⟨rfl, h⟩]
  · intro enum henum hdefault hdef hall
    have hkey : model.ScenariosKey ≠ model.ScenariosKey ∨ enumHasDefault vl newSchema = true :=
      Or.inr (enumHasDefault_of_mem vl newSchema enum henum hdefault)
    rw [updateLabelDefinition_accepted vl st tenant model.ScenariosKey newSchema hdef hkey hall]
    obtain ⟨d, hd, -, -, hs⟩ :=
      getLabelDefinition_after_update st tenant model.ScenariosKey newSchema hdef
    refine ⟨rfl, ⟨d, hd, hs⟩, ?_⟩
    intro objectType entityID value es hes hne hsub hval
    have hfind :
        (st.definitions.map
          (fun d =>
            if d.isAt tenant model.ScenariosKey then { d with Schema := some newSchema }
            else d)).find? (fun d => d.isAt tenant model.ScenariosKey) = some d := by
      unfold getLabelDefinition at hd
      simp only at hd
      split at hd
      · rename_i d0 hd0
        rw [hd0]
        cases hd
        rfl
      · cases hd
    rw [setLabel_scenarios vl _ tenant objectType entityID value d newSchema enum es hfind hs
      henum hes hne hsub hval]
    exact ⟨rfl, by simp⟩

/-- C22, amended, on a tenant whose scenarios definition has the enum
`DEFAULT`, `A`: the update to the enum `A` alone is rejected, the update to the
enum `DEFAULT`, `A`, `B` is accepted, and the scenarios label holding these
three values can then be set on an application. -/
theorem scenarios_definition_update_witness :
    enumHasDefault sample.listValidation ["A"] = false ∧
    updateLabelDefinition sample.listValidation sample.scenariosState "t1" model.ScenariosKey
        ["A"] =
      (sample.scenariosState, some (enumError model.ScenariosKey)) ∧
    sample.listValidation.itemsEnum ["DEFAULT", "A", "B"] = some ["DEFAULT", "A", "B"] ∧
    DefaultScenario ∈ ["DEFAULT", "A", "B"] ∧
    (∃ d ∈ sample.scenariosState.definitions, d.Tenant = "t1" ∧ d.Key = model.ScenariosKey) ∧
    (∀ l ∈ sample.scenariosState.labels, l.Tenant = "t1" ∧ l.Key = model.ScenariosKey →
      sample.listValidation.validate ["DEFAULT", "A", "B"] l.Value = none) ∧
    sample.listValidation.entries ["DEFAULT", "A", "B"] = some ["DEFAULT", "A", "B"] ∧
    sample.listValidation.validate ["DEFAULT", "A", "B"] ["DEFAULT", "A", "B"] = none ∧
    (setLabel sample.listValidation
      (updateLabelDefinition sample.listValidation sample.scenariosState "t1"
        model.ScenariosKey ["DEFAULT", "A", "B"]).1
      "t1" model.LabelableObject.ApplicationLabelableObject "app1" model.ScenariosKey
      ["DEFAULT", "A", "B"]).2 = none ∧
    (⟨"t1", model.LabelableObject.ApplicationLabelableObject, "app1", model.ScenariosKey,
        ["DEFAULT", "A", "B"]⟩ : Label (List String)) ∈
      (setLabel sample.listValidation
        (updateLabelDefinition sample.listValidation sample.scenariosState "t1"
          model.ScenariosKey ["DEFAULT", "A", "B"]).1
        "t1" model.LabelableObject.ApplicationLabelableObject "app1" model.ScenariosKey
        ["DEFAULT", "A", "B"]).1.labels :=
  ⟨by decide,
    (scenarios_definition_update sample.listValidation sample.scenariosState "t1" ["A"]).1
      (by decide),
    rfl, by decide, by decide, by decide, rfl, by decide,
    ((scenarios_definition_update sample.listValidation sample.scenariosState "t1"
      ["DEFAULT", "A", "B"]).2 ["DEFAULT", "A", "B"] rfl (by decide) (by decide)
      (by decide)).2.2 model.LabelableObject.ApplicationLabelableObject "app1"
      ["DEFAULT", "A", "B"] ["DEFAULT", "A", "B"] rfl (by decide) (by decide) (by decide)⟩

end label
